import Mathlib

/-!
# TransactionTypes: a shallow embedding of the signing programs

The repository is a set of small Go programs, one per Ethereum transaction
format.  Each program fetches chain parameters from a node, derives fee
figures and hashes, builds a transaction value and signs it.  The node, the
key store and the elliptic-curve signer are external collaborators: here their
results are inputs of the embedded functions.  A Go panic, a `log.Fatal` and a
returned error are the three ways a computation ends without a value.
-/

namespace TransactionTypes

/-! ## Go runtime model -/

/-- How a Go computation ends without producing its value. -/
inductive Failure where
  /-- A runtime panic, such as an index out of range or an explicit `panic`. -/
  | runtimePanic (msg : String)
  /-- The call `log.Fatal`, which prints and exits the process. -/
  | fatal (msg : String)
  /-- An `error` value handed back to the caller. -/
  | error (msg : String)
  deriving DecidableEq, Repr

/-- A Go computation: a value, or the way it failed. -/
abbrev Result (α : Type) := Except Failure α

/-- Whether a computation produced a value. -/
def Result.isOk {α : Type} : Result α → Bool
  | .ok _ => true
  | .error _ => false

/-- A byte string (`[]byte`). -/
abbrev Bytes := List UInt8

/-- Go's index expression `xs[i]` with a signed index: it panics unless
`0 ≤ i < len(xs)`. -/
def goIndex {α : Type} (xs : List α) (i : Int) : Result α :=
  if i < 0 then .error (.runtimePanic "index out of range")
  else
    match xs[i.toNat]? with
    | some x => .ok x
    | none => .error (.runtimePanic "index out of range")

/-- Go's builtin `copy(dst, src)`: the first `min(len(dst), len(src))` elements
of `dst` are overwritten by those of `src`, the rest of `dst` is kept. -/
def goCopy {α : Type} (dst src : List α) : List α :=
  src.take dst.length ++ dst.drop (min dst.length src.length)

/-- The method `(*big.Int).Div`: Euclidean division, a panic on a zero divisor. -/
def bigDiv (x y : Int) : Result Int :=
  if y = 0 then .error (.runtimePanic "division by zero") else .ok (Int.ediv x y)

/-- Go's conversion `byte(x)` of an unsigned integer: the low eight bits. -/
def byte (n : Nat) : UInt8 := UInt8.ofNat n

/-- Go's slice expression `b[lo:hi]`: it panics unless `lo ≤ hi ≤ len(b)`. -/
def goSlice (b : Bytes) (lo hi : Nat) : Result Bytes :=
  if lo ≤ hi ∧ hi ≤ b.length then .ok ((b.take hi).drop lo)
  else .error (.runtimePanic "slice bounds out of range")

/-- The statement `log.Fatal(msg, err)` under `if err != nil`: any failure of the
call becomes the end of the process. -/
def orFatal {α : Type} (msg : String) : Result α → Result α
  | .ok a => .ok a
  | .error _ => .error (.fatal msg)

/-- The blank identifier in `v, _ := f()`: the error is dropped and `v` is the
nil slice when `f` failed. -/
def ignoreErr : Result Bytes → Bytes
  | .ok b => b
  | .error _ => []

/-- A big-endian byte string read as an unsigned integer (`(*big.Int).SetBytes`). -/
def beToNat (bs : Bytes) : Nat := bs.foldl (fun acc b => acc * 256 + b.toNat) 0

/-- A little-endian byte string read as an unsigned integer. -/
def leToNat (bs : Bytes) : Nat := bs.foldr (fun b acc => acc * 256 + b.toNat) 0

/-- The minimal big-endian bytes of `n`, with `fuel` bounding the number of bytes. -/
def natToBEAux : Nat → Nat → Bytes
  | 0, _ => []
  | fuel + 1, n => if n = 0 then [] else natToBEAux fuel (n / 256) ++ [byte n]

/-- The minimal big-endian byte representation of `n` (`(*big.Int).Bytes`): no
leading zero byte, and the empty string for zero. -/
def natToBE (n : Nat) : Bytes := natToBEAux n n

/-- Consecutive chunks of `size` bytes; `fuel` bounds the number of chunks. -/
def chunksOf (size : Nat) : Nat → Bytes → List Bytes
  | 0, _ => []
  | fuel + 1, bs =>
    if bs.isEmpty then [] else bs.take size :: chunksOf size fuel (bs.drop size)

/-- Go's conversion `int64(n)` of a `uint64`: the same 64 bits read as two's
complement. -/
def int64 (n : Nat) : Int :=
  if n % 2 ^ 64 < 2 ^ 63 then ((n % 2 ^ 64 : Nat) : Int) else ((n % 2 ^ 64 : Nat) : Int) - 2 ^ 64

/-- The function `uint256.MustFromBig`: it panics when the magnitude needs more
than 256 bits, and a negative value is stored in two's complement. -/
def MustFromBig (b : Int) : Result Nat :=
  if 2 ^ 256 ≤ b.natAbs then .error (.runtimePanic "overflow")
  else .ok (b % 2 ^ 256).toNat

/-- A 20-byte account address (`common.Address`). -/
structure Address where
  bytes : Bytes
  size : bytes.length = 20

/-- An ECDSA private key; only the external signer looks inside. -/
structure PrivateKey where
  D : Nat
  deriving DecidableEq, Repr

/-- What `account.GetAccount` returns: an address and its private key. -/
structure Account where
  Addr : Address
  Priv : PrivateKey

/-- The external signer `crypto.Sign(digestHash, prv)`: a 65-byte signature
`R ‖ S ‖ V` with `V` the recovery parity, or an error. -/
abbrev Signer := Bytes → PrivateKey → Result Bytes

/-! ## Hash functions

The programs call two hash functions of their libraries: SHA-256 for the blob
hash and Keccak-256 for every signing digest.  Both are written out, so that a
digest can be evaluated. -/

namespace SHA256

/-- The 64 round constants of SHA-256. -/
def K : List Nat := [
  0x428a2f98, 0x71374491, 0xb5c0fbcf, 0xe9b5dba5, 0x3956c25b, 0x59f111f1, 0x923f82a4, 0xab1c5ed5,
  0xd807aa98, 0x12835b01, 0x243185be, 0x550c7dc3, 0x72be5d74, 0x80deb1fe, 0x9bdc06a7, 0xc19bf174,
  0xe49b69c1, 0xefbe4786, 0x0fc19dc6, 0x240ca1cc, 0x2de92c6f, 0x4a7484aa, 0x5cb0a9dc, 0x76f988da,
  0x983e5152, 0xa831c66d, 0xb00327c8, 0xbf597fc7, 0xc6e00bf3, 0xd5a79147, 0x06ca6351, 0x14292967,
  0x27b70a85, 0x2e1b2138, 0x4d2c6dfc, 0x53380d13, 0x650a7354, 0x766a0abb, 0x81c2c92e, 0x92722c85,
  0xa2bfe8a1, 0xa81a664b, 0xc24b8b70, 0xc76c51a3, 0xd192e819, 0xd6990624, 0xf40e3585, 0x106aa070,
  0x19a4c116, 0x1e376c08, 0x2748774c, 0x34b0bcb5, 0x391c0cb3, 0x4ed8aa4a, 0x5b9cca4f, 0x682e6ff3,
  0x748f82ee, 0x78a5636f, 0x84c87814, 0x8cc70208, 0x90befffa, 0xa4506ceb, 0xbef9a3f7, 0xc67178f2]

/-- The eight working words of SHA-256. -/
structure State where
  a : Nat
  b : Nat
  c : Nat
  d : Nat
  e : Nat
  f : Nat
  g : Nat
  h : Nat

/-- The initial hash value of SHA-256. -/
def init : State :=
  ⟨0x6a09e667, 0xbb67ae85, 0x3c6ef372, 0xa54ff53a, 0x510e527f, 0x9b05688c, 0x1f83d9ab, 0x5be0cd19⟩

/-- Addition of 32-bit words. -/
def add32 (x y : Nat) : Nat := (x + y) % 2 ^ 32

/-- Rotation of a 32-bit word to the right. -/
def rotr (x n : Nat) : Nat := ((x >>> n) ||| (x <<< (32 - n))) % 2 ^ 32

/-- The function σ0 of the message schedule. -/
def smallSigma0 (x : Nat) : Nat := rotr x 7 ^^^ rotr x 18 ^^^ (x >>> 3)

/-- The function σ1 of the message schedule. -/
def smallSigma1 (x : Nat) : Nat := rotr x 17 ^^^ rotr x 19 ^^^ (x >>> 10)

/-- The function Σ0 of the compression round. -/
def bigSigma0 (x : Nat) : Nat := rotr x 2 ^^^ rotr x 13 ^^^ rotr x 22

/-- The function Σ1 of the compression round. -/
def bigSigma1 (x : Nat) : Nat := rotr x 6 ^^^ rotr x 11 ^^^ rotr x 25

/-- The choice function. -/
def ch (x y z : Nat) : Nat := (x &&& y) ^^^ ((x ^^^ 0xffffffff) &&& z)

/-- The majority function. -/
def maj (x y z : Nat) : Nat := (x &&& y) ^^^ (x &&& z) ^^^ (y &&& z)

/-- The message schedule, newest word first: 48 words are derived from the 16
words of the block. -/
def schedule (block : Bytes) : List Nat :=
  let w0 := ((chunksOf 4 16 block).map beToNat).reverse
  (List.range 48).foldl (fun ws _ =>
    add32 (add32 (smallSigma1 (ws.getD 1 0)) (ws.getD 6 0))
      (add32 (smallSigma0 (ws.getD 14 0)) (ws.getD 15 0)) :: ws) w0

/-- One of the 64 rounds, on a round constant and a schedule word. -/
def round (s : State) (kw : Nat × Nat) : State :=
  let t1 := add32 (add32 (add32 s.h (bigSigma1 s.e)) (add32 (ch s.e s.f s.g) kw.1)) kw.2
  let t2 := add32 (bigSigma0 s.a) (maj s.a s.b s.c)
  ⟨add32 t1 t2, s.a, s.b, s.c, add32 s.d t1, s.e, s.f, s.g⟩

/-- The compression of one 64-byte block into the state. -/
def compress (s : State) (block : Bytes) : State :=
  let t := (K.zip (schedule block).reverse).foldl round s
  ⟨add32 s.a t.a, add32 s.b t.b, add32 s.c t.c, add32 s.d t.d,
   add32 s.e t.e, add32 s.f t.f, add32 s.g t.g, add32 s.h t.h⟩

/-- The four big-endian bytes of a 32-bit word. -/
def be32 (x : Nat) : Bytes :=
  [byte (x >>> 24), byte (x >>> 16), byte (x >>> 8), byte x]

/-- The eight big-endian bytes of a 64-bit word. -/
def be64 (x : Nat) : Bytes := be32 (x >>> 32) ++ be32 x

/-- Padding of SHA-256: `0x80`, zeros up to 56 modulo 64, and the bit length. -/
def pad (msg : Bytes) : Bytes :=
  msg ++ 0x80 :: List.replicate ((119 - msg.length % 64) % 64) 0 ++ be64 (8 * msg.length)

/-- The 32 bytes of the final state. -/
def output (s : State) : Bytes :=
  be32 s.a ++ be32 s.b ++ be32 s.c ++ be32 s.d ++ be32 s.e ++ be32 s.f ++ be32 s.g ++ be32 s.h

/-- The SHA-256 digest of `msg` (FIPS 180-4), what a hasher of `sha256.New()`
returns for the bytes written to it. -/
def sum256 (msg : Bytes) : Bytes :=
  let p := pad msg
  output ((chunksOf 64 p.length p).foldl compress init)

end SHA256

namespace Keccak

/-- The 24 round constants of Keccak-f[1600]. -/
def roundConstants : List Nat := [
  0x0000000000000001, 0x0000000000008082, 0x800000000000808A, 0x8000000080008000,
  0x000000000000808B, 0x0000000080000001, 0x8000000080008081, 0x8000000000008009,
  0x000000000000008A, 0x0000000000000088, 0x0000000080008009, 0x000000008000000A,
  0x000000008000808B, 0x800000000000008B, 0x8000000000008089, 0x8000000000008003,
  0x8000000000008002, 0x8000000000000080, 0x000000000000800A, 0x800000008000000A,
  0x8000000080008081, 0x8000000000008080, 0x0000000080000001, 0x8000000080008008]

/-- Rotation offsets, at index `x + 5 * y`. -/
def rotationOffsets : List Nat := [
   0,  1, 62, 28, 27,
  36, 44,  6, 55, 20,
   3, 10, 43, 25, 39,
  41, 45, 15, 21,  8,
  18,  2, 61, 56, 14]

/-- Rotation of a 64-bit lane to the left. -/
def rotl (x n : Nat) : Nat := ((x <<< n) ||| (x >>> (64 - n))) % 2 ^ 64

/-- The lane at column `x` and row `y`, both taken modulo 5. -/
def lane (a : List Nat) (x y : Nat) : Nat := a.getD (x % 5 + 5 * (y % 5)) 0

/-- The step theta: every lane is mixed with the parities of two columns. -/
def theta (a : List Nat) : List Nat :=
  let c := (List.range 5).map fun x =>
    lane a x 0 ^^^ lane a x 1 ^^^ lane a x 2 ^^^ lane a x 3 ^^^ lane a x 4
  let d := (List.range 5).map fun x => c.getD ((x + 4) % 5) 0 ^^^ rotl (c.getD ((x + 1) % 5) 0) 1
  (List.range 25).map fun i => a.getD i 0 ^^^ d.getD (i % 5) 0

/-- The steps rho and pi: the lane at `(x, y)` of the result is the rotated lane
at `(x + 3 * y, x)` of the argument. -/
def rhoPi (a : List Nat) : List Nat :=
  (List.range 25).map fun i =>
    let x := i % 5
    let y := i / 5
    let src := (x + 3 * y) % 5 + 5 * x
    rotl (a.getD src 0) (rotationOffsets.getD src 0)

/-- The step chi: the only non-linear step, row by row. -/
def chi (b : List Nat) : List Nat :=
  (List.range 25).map fun i =>
    let x := i % 5
    let y := i / 5
    lane b x y ^^^ ((lane b (x + 1) y ^^^ 0xffffffffffffffff) &&& lane b (x + 2) y)

/-- The step iota: the round constant is added to the first lane. -/
def iota (rc : Nat) (a : List Nat) : List Nat :=
  match a with
  | [] => []
  | a0 :: rest => (a0 ^^^ rc) :: rest

/-- The permutation Keccak-f[1600]: 24 rounds. -/
def keccakF (a : List Nat) : List Nat :=
  roundConstants.foldl (fun s rc => iota rc (chi (rhoPi (theta s)))) a

/-- The rate of Keccak-256 in bytes. -/
def rate : Nat := 136

/-- Padding of the original Keccak submission: `0x01`, zeros and `0x80`, merged
into `0x81` when a single byte is missing. -/
def pad (msg : Bytes) : Bytes :=
  let r := rate - msg.length % rate
  if r = 1 then msg ++ [0x81] else msg ++ 0x01 :: List.replicate (r - 2) 0 ++ [0x80]

/-- The absorption of one block of `rate` bytes, followed by the permutation. -/
def absorb (s : List Nat) (block : Bytes) : List Nat :=
  let lanes := (chunksOf 8 17 block).map leToNat
  keccakF ((List.range 25).map fun i => s.getD i 0 ^^^ lanes.getD i 0)

/-- The eight little-endian bytes of a lane. -/
def le64 (x : Nat) : Bytes :=
  [byte x, byte (x >>> 8), byte (x >>> 16), byte (x >>> 24),
   byte (x >>> 32), byte (x >>> 40), byte (x >>> 48), byte (x >>> 56)]

/-- The Keccak-256 digest of `msg`: the first four lanes after the last block. -/
def sum256 (msg : Bytes) : Bytes :=
  let p := pad msg
  let s := (chunksOf rate p.length p).foldl absorb (List.replicate 25 0)
  le64 (s.getD 0 0) ++ le64 (s.getD 1 0) ++ le64 (s.getD 2 0) ++ le64 (s.getD 3 0)

end Keccak

/-- The function `crypto.Keccak256(data...)`: the Keccak-256 digest of the
arguments written one after the other. -/
def Keccak256 (data : List Bytes) : Bytes := Keccak.sum256 data.flatten

/-- The function `crypto.Keccak256Hash(data...)`: the same digest as a `common.Hash`. -/
def Keccak256Hash (data : List Bytes) : Bytes := Keccak256 data

/-- A `hash.Hash`: the size of its digest and the digest of the bytes written
since the last `Reset`. -/
structure Hasher where
  Size : Nat
  Sum : Bytes → Bytes

/-- The constructor `sha256.New()`. -/
def sha256New : Hasher := { Size := 32, Sum := SHA256.sum256 }

/-! ## The nested-sequence encoding (RLP)

`RLP.encode` is the encoding as the protocol defines it, on items that are byte
strings or lists of items.  The namespace `rlp` follows the encoder of the Go
library that the programs call, `rlp.EncodeToBytes`, on the Go values they
pass to it. -/

namespace RLP

/-- An item to encode: a byte string, or a list of items. -/
inductive Item where
  | str (b : Bytes)
  | list (items : List Item)

/-- The length prefix: one byte `offset + len` below 56, else the byte
`offset + 55 + k` followed by the `k` big-endian bytes of `len`. -/
def lengthPrefix (offset len : Nat) : Bytes :=
  if len < 56 then [byte (offset + len)]
  else byte (offset + 55 + (natToBE len).length) :: natToBE len

mutual
/-- The encoding of an item: a single byte below `0x80` is its own encoding, any
other string is prefixed from offset `0x80`, a list is the concatenation of its
items' encodings prefixed from offset `0xc0`. -/
def encode : Item → Bytes
  | .str b =>
    match b with
    | [x] => if x < 0x80 then [x] else lengthPrefix 0x80 1 ++ [x]
    | _ => lengthPrefix 0x80 b.length ++ b
  | .list items =>
    let payload := encodeItems items
    lengthPrefix 0xc0 payload.length ++ payload
/-- The concatenation of the encodings of the items of a list. -/
def encodeItems : List Item → Bytes
  | [] => []
  | x :: xs => encode x ++ encodeItems xs
end

/-- An unsigned integer as an item: its minimal big-endian bytes, the empty
string for zero. -/
def int (n : Nat) : Item := .str (natToBE n)

end RLP

namespace rlp

/-- The values the programs hand to the encoder inside a `[]interface{}`. -/
inductive GoValue where
  /-- A `uint64` or `uint`. -/
  | uint (n : Nat)
  /-- A non-nil `*big.Int`. -/
  | bigInt (i : Int)
  /-- A `[]byte`. -/
  | byteSlice (b : Bytes)
  /-- A `common.Address`, an array of 20 bytes. -/
  | address (a : Address)
  /-- A `*common.Address`, `none` for the nil pointer. -/
  | addressPtr (a : Option Address)

/-- The function `putint`: the big-endian bytes of a `uint64` without leading
zero bytes, one byte for zero. -/
def putint (i : Nat) : Bytes :=
  if i < 2 ^ 8 then [byte i]
  else if i < 2 ^ 16 then [byte (i >>> 8), byte i]
  else if i < 2 ^ 24 then [byte (i >>> 16), byte (i >>> 8), byte i]
  else if i < 2 ^ 32 then [byte (i >>> 24), byte (i >>> 16), byte (i >>> 8), byte i]
  else if i < 2 ^ 40 then
    [byte (i >>> 32), byte (i >>> 24), byte (i >>> 16), byte (i >>> 8), byte i]
  else if i < 2 ^ 48 then
    [byte (i >>> 40), byte (i >>> 32), byte (i >>> 24), byte (i >>> 16), byte (i >>> 8), byte i]
  else if i < 2 ^ 56 then
    [byte (i >>> 48), byte (i >>> 40), byte (i >>> 32), byte (i >>> 24), byte (i >>> 16),
     byte (i >>> 8), byte i]
  else
    [byte (i >>> 56), byte (i >>> 48), byte (i >>> 40), byte (i >>> 32), byte (i >>> 24),
     byte (i >>> 16), byte (i >>> 8), byte i]

/-- The method `encBuffer.writeUint64`. -/
def writeUint64 (i : Nat) : Bytes :=
  if i = 0 then [0x80]
  else if i < 128 then [byte i]
  else
    let s := putint i
    (0x80 + byte s.length) :: s

/-- The method `encBuffer.encodeStringHeader`. -/
def encodeStringHeader (size : Nat) : Bytes :=
  if size < 56 then [0x80 + byte size]
  else
    let sizesize := putint size
    (0xB7 + byte sizesize.length) :: sizesize

/-- The method `encBuffer.writeBytes`. -/
def writeBytes (b : Bytes) : Bytes :=
  match b with
  | [x] => if x ≤ 0x7F then [x] else encodeStringHeader 1 ++ [x]
  | _ => encodeStringHeader b.length ++ b

/-- The method `encBuffer.writeBigInt`: a value of at most 64 bits goes through
`writeUint64`, a longer one is a string of its big-endian bytes. -/
def writeBigInt (n : Nat) : Bytes :=
  if n < 2 ^ 64 then writeUint64 n
  else encodeStringHeader (natToBE n).length ++ natToBE n

/-- The writer of a `*big.Int`: a negative value is refused. -/
def writeBigIntPtr (i : Int) : Result Bytes :=
  if i < 0 then .error (.error "rlp: cannot encode negative big.Int")
  else .ok (writeBigInt i.toNat)

/-- The writer of an array of 20 bytes: a string header and the bytes. -/
def writeByteArray (a : Address) : Bytes :=
  encodeStringHeader a.bytes.length ++ a.bytes

/-- The writer chosen for the dynamic type of an element. -/
def writeValue : GoValue → Result Bytes
  | .uint n => .ok (writeUint64 n)
  | .bigInt i => writeBigIntPtr i
  | .byteSlice b => .ok (writeBytes b)
  | .address a => .ok (writeByteArray a)
  | .addressPtr none => .ok [0x80]
  | .addressPtr (some a) => .ok (writeByteArray a)

/-- The elements of a slice written one after the other; the first error stops
the encoding. -/
def writeValues : List GoValue → Result Bytes
  | [] => .ok []
  | v :: vs => do
    let b ← writeValue v
    let rest ← writeValues vs
    return b ++ rest

/-- The function `puthead` with the tags of a list, `0xC0` and `0xF7`. -/
def listHeader (size : Nat) : Bytes :=
  if size < 56 then [0xC0 + byte size]
  else
    let sizesize := putint size
    (0xF7 + byte sizesize.length) :: sizesize

/-- The function `rlp.EncodeToBytes` on a `[]interface{}`: the list header and
the encoded elements, or the error of the first element that cannot be encoded. -/
def EncodeToBytes (val : List GoValue) : Result Bytes := do
  let payload ← writeValues val
  return listHeader payload.length ++ payload

/-- The item a Go value stands for: an integer is its minimal big-endian bytes,
an address its 20 bytes, a nil address pointer the empty string. -/
def GoValue.toItem : GoValue → RLP.Item
  | .uint n => RLP.int n
  | .bigInt i => RLP.int i.toNat
  | .byteSlice b => .str b
  | .address a => .str a.bytes
  | .addressPtr none => .str []
  | .addressPtr (some a) => .str a.bytes

/-- The values the encoder accepts and whose sizes fit the length fields: an
unsigned integer below `2 ^ 64`, a non-negative big integer below `2 ^ 256`, a
byte slice shorter than `2 ^ 32`. -/
def GoValue.wellFormed : GoValue → Prop
  | .uint n => n < 2 ^ 64
  | .bigInt i => 0 ≤ i ∧ i < 2 ^ 256
  | .byteSlice b => b.length < 2 ^ 32
  | .address _ => True
  | .addressPtr _ => True

end rlp

/-! ## The node -/

/-- The message of a call to estimate gas (`ethereum.CallMsg`). -/
structure CallMsg where
  From : Address
  To : Address
  Value : Option Int
  Data : Bytes

/-- The node behind `ethclient.Client`, an external collaborator: what each query
returns at the time the program runs. -/
structure Client where
  PendingNonceAt : Address → Result Nat
  FeeHistory : Nat → Result (List Int)
  SuggestGasTipCap : Result Int
  SuggestGasPrice : Result Int
  EstimateGas : CallMsg → Result Nat

/-! ## Fee computation (`eip1559.go` lines 49-59, `eip4844.go` lines 78-84) -/

/-- The fee figures a program derives from the fee history and the suggested tip. -/
structure FeeFigures where
  latestBaseFee : Int
  bufferedBaseFee : Int
  GasFeeCap : Int
  GasTipCap : Int
  deriving DecidableEq, Repr

namespace Eip1559

/-- Lines 49-59 of `eip1559.go`: the latest base fee is the last entry of the
history, it is multiplied by 112 and divided by 100, and the tip is added. -/
def feeComputation (BaseFee : List Int) (GasTipCap : Int) : Result FeeFigures := do
  let latestBaseFee ← goIndex BaseFee ((BaseFee.length : Int) - 1)
  let bufferedBaseFee := latestBaseFee * 112
  let bufferedBaseFee ← bigDiv bufferedBaseFee 100
  let GasFeeCap := bufferedBaseFee + GasTipCap
  return { latestBaseFee, bufferedBaseFee, GasFeeCap, GasTipCap }

/-- The fields `eip1559.go` sets in `types.DynamicFeeTx`. -/
structure DynamicFeeTx where
  ChainID : Int
  Nonce : Nat
  GasTipCap : Int
  GasFeeCap : Int
  Gas : Nat
  To : Address
  Data : Bytes

/-- Recipient of the dynamic-fee transaction. -/
def toAddr : Address :=
  ⟨[0x0f, 0xd9, 0xe8, 0xd3, 0xaf, 0x1a, 0xae, 0xe0, 0x56, 0xeb, 0x9e, 0x80, 0x2c, 0x3a, 0x76,
    0x2a, 0x66, 0x7b, 0x19, 0x04], rfl⟩

/-- The call data of `eip1559.go`, a token transfer. -/
def callData : Bytes :=
  [0xa9, 0x05, 0x9c, 0xbb, 0x00, 0x00, 0x00, 0x00, 0x00, 0x00, 0x00, 0x00, 0x00, 0x00, 0x00, 0x00,
   0x80, 0x56, 0x36, 0x1b, 0x1c, 0x13, 0x61, 0x43, 0x6d, 0x61, 0xd1, 0x87, 0xd7, 0x61, 0x23, 0x3b,
   0x42, 0xd1, 0xc2, 0x0e, 0x00, 0x00, 0x00, 0x00, 0x00, 0x00, 0x00, 0x00, 0x00, 0x00, 0x00, 0x00,
   0x00, 0x00, 0x00, 0x00, 0x00, 0x00, 0x00, 0x00, 0x00, 0x00, 0x00, 0x00, 0x01, 0x63, 0x45, 0x78,
   0x5d, 0x8a, 0x00, 0x00]

/-- The program `eip1559.go` up to the transaction it builds (lines 25-80);
signing and broadcast follow. -/
def main (client : Client) (acc2 : Account) : Result DynamicFeeTx := do
  let nonce ← orFatal "Failed to fetch nonce:" (client.PendingNonceAt acc2.Addr)
  let feeHistory ← orFatal "Failed to fetch gas price:" (client.FeeHistory 5)
  let GasTipCap ← orFatal "Failed to fetch gas price:" client.SuggestGasTipCap
  let fees ← feeComputation feeHistory GasTipCap
  let GasFeeCap := fees.GasFeeCap
  let chainID : Int := 80002
  let gasLimit ← orFatal "Failed to fetch gas limit:"
    (client.EstimateGas { From := acc2.Addr, To := toAddr, Value := none, Data := callData })
  return { ChainID := chainID, Nonce := nonce, GasTipCap, GasFeeCap, Gas := gasLimit, To := toAddr,
           Data := callData }

end Eip1559

namespace Eip4844

/-- Lines 78-84 of `eip4844.go`: the same computation as in `eip1559.go`. -/
def feeComputation (BaseFee : List Int) (gasTipCap : Int) : Result FeeFigures := do
  let latestBaseFee ← goIndex BaseFee ((BaseFee.length : Int) - 1)
  let bufferedBaseFee := latestBaseFee * 112
  let bufferedBaseFee ← bigDiv bufferedBaseFee 100
  let gasFeeCap := bufferedBaseFee + gasTipCap
  return { latestBaseFee, bufferedBaseFee, GasFeeCap := gasFeeCap, GasTipCap := gasTipCap }

end Eip4844

/-! ## Blob construction (`eip4844.go` lines 88-94) -/

namespace Eip4844

/-- The size of `kzg4844.Blob`, an array of 131072 bytes. -/
def blobSize : Nat := 131072

/-- Lines 89-94 of `eip4844.go`: the zero blob, the size guard and the copy of
the content into the blob. -/
def blobFrom (content : Bytes) : Result Bytes :=
  let blobData : Bytes := List.replicate blobSize 0
  if content.length > 131072 then
    .error (.fatal "Content size exceeds single blob size")
  else
    .ok (goCopy blobData content)

/-- The fixed blob content of `eip4844.go`, the 94 bytes of the text
"Hello, EIP-4844 Blob Transaction on Sepolia! This is some arbitrary data for
the blob payload." -/
def content : Bytes := [
   0x48, 0x65, 0x6c, 0x6c, 0x6f, 0x2c, 0x20, 0x45, 0x49, 0x50, 0x2d, 0x34, 0x38, 0x34, 0x34, 0x20,
   0x42, 0x6c, 0x6f, 0x62, 0x20, 0x54, 0x72, 0x61, 0x6e, 0x73, 0x61, 0x63, 0x74, 0x69, 0x6f, 0x6e,
   0x20, 0x6f, 0x6e, 0x20, 0x53, 0x65, 0x70, 0x6f, 0x6c, 0x69, 0x61, 0x21, 0x20, 0x54, 0x68, 0x69,
   0x73, 0x20, 0x69, 0x73, 0x20, 0x73, 0x6f, 0x6d, 0x65, 0x20, 0x61, 0x72, 0x62, 0x69, 0x74, 0x72,
   0x61, 0x72, 0x79, 0x20, 0x64, 0x61, 0x74, 0x61, 0x20, 0x66, 0x6f, 0x72, 0x20, 0x74, 0x68, 0x65,
   0x20, 0x62, 0x6c, 0x6f, 0x62, 0x20, 0x70, 0x61, 0x79, 0x6c, 0x6f, 0x61, 0x64, 0x2e]

/-- The function `kzg4844.CalcBlobHashV1`: the digest of the commitment is
written into the 32-byte result and its first byte is set to the version. -/
def CalcBlobHashV1 (hasher : Hasher) (commit : Bytes) : Result Bytes :=
  if hasher.Size ≠ 32 then .error (.runtimePanic "wrong hash size")
  else
    let vh : Bytes := List.replicate 32 0
    let vh := goCopy vh (hasher.Sum commit)
    .ok (vh.set 0 0x01)

/-- Lines 111-114 of `eip4844.go`: a new SHA-256 hasher, the versioned hash of
the commitment and the one-element hash list. -/
def blobVersionedHashes (kzgCommitment : Bytes) : Result (List Bytes) := do
  let hasher := sha256New
  let blobVersionedHash ← CalcBlobHashV1 hasher kzgCommitment
  return [blobVersionedHash]

/-- The KZG library behind `kzg4844.BlobToCommitment` and
`kzg4844.ComputeBlobProof`, an external collaborator. -/
structure Kzg where
  BlobToCommitment : Bytes → Result Bytes
  ComputeBlobProof : Bytes → Bytes → Result Bytes

/-- The fields `eip4844.go` sets in `types.BlobTx`. -/
structure BlobTx where
  ChainID : Nat
  Nonce : Nat
  GasTipCap : Nat
  GasFeeCap : Nat
  Gas : Nat
  To : Address
  Value : Nat
  BlobFeeCap : Nat
  BlobHashes : List Bytes

/-- The sidecar `types.BlobTxSidecar`. -/
structure BlobTxSidecar where
  Blobs : List Bytes
  Commitments : List Bytes
  Proofs : List Bytes

/-- Recipient of the blob transaction. -/
def toAddr : Address :=
  ⟨[0x7f, 0x8b, 0x1c, 0xa2, 0x9f, 0x95, 0x27, 0x4e, 0x06, 0x36, 0x7b, 0x60, 0xfc, 0x4a, 0x53,
    0x9e, 0x49, 0x10, 0xfd, 0x0c], rfl⟩

/-- The program `eip4844.go` from the loaded trusted setup up to the blob
transaction and its sidecar (lines 52-150); signing and broadcast follow. -/
def main (client : Client) (kzg : Kzg) (acc2 : Account) : Result (BlobTx × BlobTxSidecar) := do
  let nonce ← orFatal "Failed to fetch nonce:" (client.PendingNonceAt acc2.Addr)
  let gasTipCap ← orFatal "Failed to fetch gas tip cap:" client.SuggestGasTipCap
  let feeHistory ← orFatal "Failed to fetch fee history:" (client.FeeHistory 5)
  let fees ← feeComputation feeHistory gasTipCap
  let gasFeeCap := fees.GasFeeCap
  let blobData ← blobFrom content
  let kzgCommitment ← orFatal "Failed to compute KZG commitment:" (kzg.BlobToCommitment blobData)
  let kzgProof ← orFatal "Failed to compute KZG proof:" (kzg.ComputeBlobProof blobData kzgCommitment)
  let blobVersionedHashes ← blobVersionedHashes kzgCommitment
  let sidecar : BlobTxSidecar :=
    { Blobs := [blobData], Commitments := [kzgCommitment], Proofs := [kzgProof] }
  let value ← MustFromBig 100000000000000
  let gasLimit ← orFatal "Failed to fetch gas limit:"
    (client.EstimateGas { From := acc2.Addr, To := toAddr, Value := some (value : Int), Data := [] })
  let GasTipCap ← MustFromBig gasTipCap
  let GasFeeCap ← MustFromBig gasFeeCap
  let BlobFeeCap ← MustFromBig 2000000
  let tx : BlobTx :=
    { ChainID := 11155111, Nonce := nonce, GasTipCap, GasFeeCap, Gas := gasLimit, To := toAddr,
      Value := value, BlobFeeCap, BlobHashes := blobVersionedHashes }
  return (tx, sidecar)

end Eip4844

/-! ## The delegation program (`eip7702_batch.go`) -/

namespace Eip7702

/-- The chain id of Polygon Amoy. -/
def AmoyChainID : Nat := 80002

/-- Recipient of the SetCode transaction. -/
def toAddr : Address :=
  ⟨[0x87, 0x58, 0x1c, 0x71, 0xb3, 0x69, 0x30, 0x62, 0xf4, 0xd3, 0xe3, 0x46, 0x17, 0xc3, 0x91,
    0x9e, 0xc1, 0xab, 0xf3, 0x9b], rfl⟩

/-- The contract both accounts delegate to. -/
def moduleAddr : Address :=
  ⟨[0x4f, 0x9c, 0x96, 0x91, 0x5a, 0x9c, 0xe8, 0xcd, 0x5e, 0xb1, 0x1a, 0x2c, 0x35, 0xab, 0x58,
    0x7f, 0xc9, 0x7d, 0x51, 0x26], rfl⟩

/-- The function `signEIP7702Delegation` (lines 189-207): the chain id, the
address and the nonce converted through `int64` are encoded as a list, the byte
`0x05` is put in front, and the Keccak-256 digest of that is signed. -/
def signEIP7702Delegation (Sign : Signer) (priv : PrivateKey) (chainID : Int) (from_ : Address)
    (nonce : Nat) : Result Bytes := do
  let msgPayload ← rlp.EncodeToBytes [.bigInt chainID, .address from_, .bigInt (int64 nonce)]
  let prefixed := [0x05] ++ msgPayload
  let msgHash := Keccak256Hash [prefixed]
  Sign msgHash priv

/-- An entry of the authorization list (`types.SetCodeAuthorization`). -/
structure SetCodeAuthorization where
  ChainID : Nat
  Address : Address
  Nonce : Nat
  V : UInt8
  R : Nat
  S : Nat

/-- The fields `eip7702_batch.go` sets in `types.SetCodeTx`. -/
structure SetCodeTx where
  ChainID : Nat
  Nonce : Nat
  GasTipCap : Nat
  GasFeeCap : Nat
  Gas : Nat
  To : Address
  Data : Bytes
  AuthList : List SetCodeAuthorization

/-- The program `eip7702_batch.go` up to the transaction it builds (lines
29-165); `Pack` is the ABI encoder of the call data. -/
def main (client : Client) (Sign : Signer) (Pack : List Address → Result Bytes)
    (acc1 acc2 : Account) : Result SetCodeTx := do
  let froms := [acc1.Addr, acc2.Addr]
  let data ← orFatal "ABI pack error:" (Pack froms)
  let baseNonce2 ← orFatal "Nonce fetch failed:" (client.PendingNonceAt acc2.Addr)
  let nonce2 := (baseNonce2 + 1) % 2 ^ 64
  let nonce1 ← orFatal "Nonce fetch failed:" (client.PendingNonceAt acc1.Addr)
  let gasTipCap ← orFatal "Failed to fetch gas tip cap:" client.SuggestGasTipCap
  let baseFee ← orFatal "Failed to fetch base fee:" client.SuggestGasPrice
  let gasFeeCap := baseFee + gasTipCap
  let sig2 ← orFatal "Signature failed:"
    (signEIP7702Delegation Sign acc2.Priv AmoyChainID moduleAddr nonce2)
  let sig1 ← orFatal "Signature failed:"
    (signEIP7702Delegation Sign acc1.Priv AmoyChainID moduleAddr nonce1)
  let r2 := beToNat (← goSlice sig2 0 32)
  let s2 := beToNat (← goSlice sig2 32 64)
  let v2 ← goIndex sig2 64
  let r1 := beToNat (← goSlice sig1 0 32)
  let s1 := beToNat (← goSlice sig1 32 64)
  let v1 ← goIndex sig1 64
  let GasTipCap ← MustFromBig gasTipCap
  let GasFeeCap ← MustFromBig gasFeeCap
  let R1 ← MustFromBig r1
  let S1 ← MustFromBig s1
  let R2 ← MustFromBig r2
  let S2 ← MustFromBig s2
  return {
    ChainID := AmoyChainID
    Nonce := baseNonce2
    GasTipCap := GasTipCap
    GasFeeCap := GasFeeCap
    Gas := 120000
    To := toAddr
    Data := data
    AuthList := [
      { ChainID := AmoyChainID, Address := moduleAddr, Nonce := nonce1, R := R1, S := S1, V := v1 },
      { ChainID := AmoyChainID, Address := moduleAddr, Nonce := nonce2, R := R2, S := S2, V := v2 }]
  }

end Eip7702

/-! ## The typed-data program (`eip712.go`) -/

namespace Eip712

/-- A value of a typed-data map: a string, or a number. -/
inductive Value where
  | str (s : String)
  | num (i : Int)
  deriving DecidableEq, Repr

/-- The map `apitypes.TypedDataMessage`, as the list of its entries. -/
abbrev TypedDataMessage := List (String × Value)

/-- A field of a struct type (`apitypes.Type`): its name and the name of its type. -/
structure Field where
  Name : String
  Typ : String
  deriving DecidableEq, Repr

/-- The domain of a typed-data descriptor (`apitypes.TypedDataDomain`). -/
structure TypedDataDomain where
  Name : String
  Version : String
  ChainId : Option Int
  VerifyingContract : String
  Salt : String
  deriving DecidableEq, Repr

/-- The typed-data descriptor (`apitypes.TypedData`). -/
structure TypedData where
  Types : List (String × List Field)
  PrimaryType : String
  Domain : TypedDataDomain
  Message : TypedDataMessage
  deriving DecidableEq, Repr

/-- The method `TypedDataDomain.Map`: the fields of the domain that are set. -/
def TypedDataDomain.Map (domain : TypedDataDomain) : TypedDataMessage :=
  (match domain.ChainId with
    | some c => [("chainId", Value.num c)]
    | none => [])
  ++ (if domain.Name.length > 0 then [("name", Value.str domain.Name)] else [])
  ++ (if domain.Version.length > 0 then [("version", Value.str domain.Version)] else [])
  ++ (if domain.VerifyingContract.length > 0 then
        [("verifyingContract", Value.str domain.VerifyingContract)] else [])
  ++ (if domain.Salt.length > 0 then [("salt", Value.str domain.Salt)] else [])

/-- The library behind the typed-data program, an external collaborator: the
struct hash of `apitypes` and the checksummed text of an address. -/
structure Library where
  HashStruct : TypedData → String → TypedDataMessage → Result Bytes
  Hex : Address → String

/-- The contract that verifies the permit. -/
def verifierAddr : Address :=
  ⟨[0xf8, 0x0b, 0xb7, 0x31, 0xf8, 0xba, 0x49, 0x62, 0x4d, 0xce, 0x8e, 0xdb, 0x1a, 0x81, 0x88,
    0x78, 0x22, 0x87, 0xff, 0x1e], rfl⟩

/-- Lines 40-75 of `eip712.go`: the descriptor, for the Unix time `now` at which
the program runs. -/
def typedData (lib : Library) (now : Int) (acc2Addr : Address) : TypedData :=
  let domain : TypedDataDomain :=
    { Name := "MyDApp", Version := "1", ChainId := some 80002,
      VerifyingContract := lib.Hex verifierAddr, Salt := "" }
  let types : List (String × List Field) := [
    ("EIP712Domain", [⟨"name", "string"⟩, ⟨"version", "string"⟩, ⟨"chainId", "uint256"⟩,
      ⟨"verifyingContract", "address"⟩]),
    ("Permit", [⟨"owner", "address"⟩, ⟨"spender", "address"⟩, ⟨"value", "uint256"⟩,
      ⟨"nonce", "uint256"⟩, ⟨"deadline", "uint256"⟩])]
  let deadline : Int := now + 3600
  let nonce : Int := 0
  let message : TypedDataMessage := [
    ("owner", .str (lib.Hex acc2Addr)),
    ("spender", .str (lib.Hex acc2Addr)),
    ("value", .str "1000000000000000000"),
    ("nonce", .str (toString nonce)),
    ("deadline", .str (toString deadline))]
  { Types := types, PrimaryType := "Permit", Domain := domain, Message := message }

/-- The function `common.BytesToHash`: the last 32 bytes, padded with zeros on
the left. -/
def BytesToHash (b : Bytes) : Bytes :=
  let b := b.drop (b.length - 32)
  List.replicate (32 - b.length) 0 ++ b

/-- What the program has computed after line 88. -/
structure Signed where
  domainSep : Bytes
  msgHash : Bytes
  digest : Bytes
  sig : Bytes
  r : Bytes
  s : Bytes
  v : UInt8

/-- Lines 77-88 of `eip712.go`: the two struct hashes with their errors dropped,
the digest of `0x19 0x01` and the two hashes, and the signature over it. -/
def main (lib : Library) (Sign : Signer) (now : Int) (acc2 : Account) : Result Signed := do
  let typedData := typedData lib now acc2.Addr
  let domainSep := ignoreErr (lib.HashStruct typedData "EIP712Domain" typedData.Domain.Map)
  let msgHash := ignoreErr (lib.HashStruct typedData "Permit" typedData.Message)
  let digest := Keccak256 [[0x19, 0x01], domainSep, msgHash]
  let sig := ignoreErr (Sign digest acc2.Priv)
  let r := BytesToHash (← goSlice sig 0 32)
  let s := BytesToHash (← goSlice sig 32 64)
  let v := (← goIndex sig 64) + 27
  return { domainSep, msgHash, digest, sig, r, s, v }

end Eip712

/-! ## The legacy program (`legacy.go`) -/

namespace Legacy

/-- The gas limit of a plain transfer. -/
def GasLimit : Nat := 21000

/-- The chain id of Polygon Amoy. -/
def AmoyChainID : Int := 80002

/-- The amount sent, the constant `0.01e18`. -/
def ValueToSend : Int := 10000000000000000

/-- The legacy transaction (`types.LegacyTx`), with its signature values. -/
structure LegacyTx where
  Nonce : Nat
  GasPrice : Int
  Gas : Nat
  To : Option Address
  Value : Int
  Data : Bytes
  V : Int
  R : Int
  S : Int

/-- The signer `types.EIP155Signer`. -/
structure EIP155Signer where
  chainId : Int
  chainIdMul : Int

/-- The constructor `types.NewEIP155Signer`. -/
def NewEIP155Signer (chainId : Int) : EIP155Signer :=
  { chainId := chainId, chainIdMul := chainId * 2 }

/-- The function `rlpHash`: the Keccak-256 digest of the encoding; nothing is
written to the hasher when the encoder fails. -/
def rlpHash (x : List rlp.GoValue) : Bytes :=
  Keccak.sum256 (ignoreErr (rlp.EncodeToBytes x))

/-- The nine values `EIP155Signer.Hash` encodes. -/
def EIP155Signer.signingFields (s : EIP155Signer) (tx : LegacyTx) : List rlp.GoValue :=
  [.uint tx.Nonce, .bigInt tx.GasPrice, .uint tx.Gas, .addressPtr tx.To, .bigInt tx.Value,
   .byteSlice tx.Data, .bigInt s.chainId, .uint 0, .uint 0]

/-- The method `EIP155Signer.Hash`: the hash that is signed. -/
def EIP155Signer.Hash (s : EIP155Signer) (tx : LegacyTx) : Bytes :=
  rlpHash (s.signingFields tx)

/-- The function `decodeSignature`: `R`, `S` and `V = sig[64] + 27` of a 65-byte
signature, a panic for any other length. -/
def decodeSignature (sig : Bytes) : Result (Int × Int × Int) := do
  if sig.length ≠ 65 then
    throw (.runtimePanic "wrong size for signature")
  let r := beToNat (← goSlice sig 0 32)
  let s := beToNat (← goSlice sig 32 64)
  let v := beToNat [(← goIndex sig 64) + 27]
  return (r, s, v)

/-- The method `EIP155Signer.SignatureValues`: under a non-zero chain id `V` is
`sig[64] + 35` plus twice the chain id. -/
def EIP155Signer.SignatureValues (s : EIP155Signer) (sig : Bytes) : Result (Int × Int × Int) := do
  let (R, S, V) ← decodeSignature sig
  if s.chainId ≠ 0 then
    let V : Int := (((← goIndex sig 64) + 35 : UInt8).toNat : Int)
    return (R, S, V + s.chainIdMul)
  return (R, S, V)

/-- The function `types.SignTx` on a legacy transaction: the signer's hash is
signed and the signature values are stored in a copy of the transaction. -/
def SignTx (Sign : Signer) (tx : LegacyTx) (s : EIP155Signer) (prv : PrivateKey) :
    Result LegacyTx := do
  let h := s.Hash tx
  let sig ← Sign h prv
  let (R, S, V) ← s.SignatureValues sig
  return { tx with V := V, R := R, S := S }

/-- Lines 45-53 of `legacy.go`: the transaction before it is signed. -/
def unsignedTx (nonce : Nat) (gasPrice : Int) (acc2Addr : Address) : LegacyTx :=
  { Nonce := nonce, GasPrice := gasPrice, Gas := GasLimit, To := some acc2Addr,
    Value := ValueToSend, Data := [], V := 0, R := 0, S := 0 }

/-- The program `legacy.go` up to the signed transaction (lines 25-66). -/
def main (client : Client) (Sign : Signer) (acc1 acc2 : Account) : Result LegacyTx := do
  let nonce ← orFatal "Failed to fetch nonce:" (client.PendingNonceAt acc1.Addr)
  let gasPrice ← orFatal "Failed to fetch gas price:" client.SuggestGasPrice
  let tx := unsignedTx nonce gasPrice acc2.Addr
  let chainID := AmoyChainID
  orFatal "Failed to sign transaction:" (SignTx Sign tx (NewEIP155Signer chainID) acc1.Priv)

end Legacy

/-! ## The personal-sign program (`personalsign.go`) -/

namespace PersonalSign

/-- The message of `personalsign.go`, the 16 bytes of "Login to app.xyz". -/
def message : Bytes :=
  [0x4c, 0x6f, 0x67, 0x69, 0x6e, 0x20, 0x74, 0x6f, 0x20, 0x61, 0x70, 0x70, 0x2e, 0x78, 0x79, 0x7a]

/-- The decimal digits of `n` as ASCII bytes, with `fuel` bounding their number. -/
def decimalAux : Nat → Nat → Bytes
  | 0, _ => []
  | fuel + 1, n =>
    if n < 10 then [byte (48 + n)] else decimalAux fuel (n / 10) ++ [byte (48 + n % 10)]

/-- The verb `%d` of `fmt.Sprintf` on a non-negative `int`: the decimal digits,
most significant first, a single `0` for zero. -/
def decimal (n : Nat) : Bytes := decimalAux (n + 1) n

/-- The fixed text in front of the length: the byte `0x19`, "Ethereum Signed
Message:" and a line feed, 26 bytes. -/
def messageHeader : Bytes :=
  [0x19, 0x45, 0x74, 0x68, 0x65, 0x72, 0x65, 0x75, 0x6d, 0x20, 0x53, 0x69, 0x67, 0x6e, 0x65, 0x64,
   0x20, 0x4d, 0x65, 0x73, 0x73, 0x61, 0x67, 0x65, 0x3a, 0x0a]

/-- Line 15 of `personalsign.go`: the format "\x19Ethereum Signed Message:\n%d%s"
applied to the length of the message and the message. -/
def prefixed (message : Bytes) : Bytes :=
  messageHeader ++ decimal message.length ++ message

/-- What the program has computed after line 23. -/
structure Signed where
  hash : Bytes
  signature : Bytes

/-- Lines 12-23 of `personalsign.go` for a message: the digest of the prefixed
message and the signature over it. -/
def sign (Sign : Signer) (acc2 : Account) (message : Bytes) : Result Signed := do
  let prefixed := prefixed message
  let hash := Keccak256Hash [prefixed]
  let signature ← orFatal "crypto.Sign" (Sign hash acc2.Priv)
  return { hash, signature }

/-- The program `personalsign.go` up to the signature (lines 12-23). -/
def main (Sign : Signer) (acc2 : Account) : Result Signed :=
  sign Sign acc2 message

end PersonalSign

/-- Equality of the outcomes of a computation is decidable when equality of the
values is. -/
instance Result.decEq {α : Type} [DecidableEq α] : DecidableEq (Result α)
  | .ok a, .ok b =>
    if h : a = b then isTrue (congrArg Except.ok h) else isFalse (fun h' => h (Except.ok.inj h'))
  | .error a, .error b =>
    if h : a = b then isTrue (congrArg Except.error h)
    else isFalse (fun h' => h (Except.error.inj h'))
  | .ok _, .error _ => isFalse (fun h => Except.noConfusion h)
  | .error _, .ok _ => isFalse (fun h => Except.noConfusion h)

/-! ## The typed-data library on the types the program uses

The struct hash of `apitypes` and the address text of `common`, written out for
descriptors whose fields have the types `address`, `string` and `uint256`, the
three types of the descriptor of `eip712.go`.  On any other field type the
functions below stop with a failure that says so. -/

namespace Apitypes

/-- The conversion `[]byte(s)` of a string: its UTF-8 bytes. -/
def stringBytes (s : String) : Bytes := s.data.flatMap String.utf8EncodeChar

/-- The conversion `string(b)` of bytes that are ASCII text. -/
def bytesString (b : Bytes) : String := String.mk (b.map fun c => Char.ofNat c.toNat)

/-- The lower-case hexadecimal digit of a value below 16. -/
def hexDigit (n : Nat) : UInt8 := if n < 10 then byte (48 + n) else byte (87 + n)

/-- The method `Address.hex`: "0x" and the 40 lower-case digits. -/
def hexLower (a : Address) : Bytes :=
  [0x30, 0x78] ++ a.bytes.flatMap fun b => [hexDigit (b.toNat / 16), hexDigit (b.toNat % 16)]

/-- The method `Address.checksumHex`: a letter digit is put in upper case when
the matching half byte of the digest of the 40 digits is above 7. -/
def checksumHex (a : Address) : Bytes :=
  let buf := hexLower a
  let hash := Keccak.sum256 (buf.drop 2)
  [0x30, 0x78] ++ ((List.range 40).zip (buf.drop 2)).map fun (j, c) =>
    let hashByte := (hash.getD (j / 2) 0).toNat
    let hashByte := if j % 2 = 0 then hashByte / 16 else hashByte % 16
    if c.toNat > 0x39 ∧ hashByte > 7 then byte (c.toNat - 32) else c

/-- The method `Address.Hex`: the checksummed text of an address. -/
def Hex (a : Address) : String := bytesString (checksumHex a)

/-- The function `has0xPrefix`. -/
def has0xPrefix (s : Bytes) : Bool :=
  match s with
  | c0 :: c1 :: _ => c0 == 0x30 && (c1 == 0x78 || c1 == 0x58)
  | _ => false

/-- The value of a hexadecimal digit, `none` for any other byte. -/
def hexVal (c : UInt8) : Option Nat :=
  if 0x30 ≤ c.toNat ∧ c.toNat ≤ 0x39 then some (c.toNat - 0x30)
  else if 0x61 ≤ c.toNat ∧ c.toNat ≤ 0x66 then some (c.toNat - 0x61 + 10)
  else if 0x41 ≤ c.toNat ∧ c.toNat ≤ 0x46 then some (c.toNat - 0x41 + 10)
  else none

/-- The function `isHex`: an even number of hexadecimal digits. -/
def isHex (s : Bytes) : Bool :=
  s.length % 2 == 0 && s.all fun c => (hexVal c).isSome

/-- The function `common.IsHexAddress`. -/
def IsHexAddress (s : Bytes) : Bool :=
  let s := if has0xPrefix s then s.drop 2 else s
  s.length == 40 && isHex s

/-- The function `hex.DecodeString` with its error dropped, as `common.Hex2Bytes`
calls it: the bytes decoded before the first pair that is not hexadecimal. -/
def Hex2Bytes : Bytes → Bytes
  | a :: b :: rest =>
    match hexVal a, hexVal b with
    | some x, some y => byte (16 * x + y) :: Hex2Bytes rest
    | _, _ => []
  | _ => []

/-- The function `common.FromHex`. -/
def FromHex (s : Bytes) : Bytes :=
  let s := if has0xPrefix s then s.drop 2 else s
  let s := if s.length % 2 == 1 then 0x30 :: s else s
  Hex2Bytes s

/-- The function `common.BytesToAddress`: the last 20 bytes, padded with zeros
on the left. -/
def BytesToAddress (b : Bytes) : Bytes :=
  let b := b.drop (b.length - 20)
  List.replicate (20 - b.length) 0 ++ b

/-- The function `common.HexToAddress`. -/
def HexToAddress (s : Bytes) : Bytes := BytesToAddress (FromHex s)

/-- The value of a digit in the given base, letters in either case counting from
ten; `none` for a byte that is no digit of the base. -/
def digitVal (base : Nat) (c : UInt8) : Option Nat :=
  let v : Option Nat :=
    if 0x30 ≤ c.toNat ∧ c.toNat ≤ 0x39 then some (c.toNat - 0x30)
    else if 0x61 ≤ c.toNat ∧ c.toNat ≤ 0x7a then some (c.toNat - 0x61 + 10)
    else if 0x41 ≤ c.toNat ∧ c.toNat ≤ 0x5a then some (c.toNat - 0x41 + 10)
    else none
  match v with
  | some d => if d < base then some d else none
  | none => none

/-- An unsigned number in the given base: at least one digit, nothing else. -/
def parseNat (base : Nat) (s : Bytes) : Option Nat :=
  if s.isEmpty then none
  else s.foldl (fun acc c =>
    match acc, digitVal base c with
    | some a, some d => some (a * base + d)
    | _, _ => none) (some 0)

/-- The method `(*big.Int).SetString(s, base)` for base 10 or 16: an optional
sign and the digits; `none` when the text is not a number. -/
def SetString (s : Bytes) (base : Nat) : Option Int :=
  match s with
  | 0x2d :: rest => (parseNat base rest).map fun n => -(n : Int)
  | 0x2b :: rest => (parseNat base rest).map fun n => (n : Int)
  | _ => (parseNat base s).map fun n => (n : Int)

/-- The function `math.ParseBig256`: a decimal or `0x` hexadecimal integer of at
most 256 bits; the empty text is zero. -/
def ParseBig256 (s : Bytes) : Option Int :=
  if s.isEmpty then some 0
  else
    let parsed := if has0xPrefix s then SetString (s.drop 2) 16 else SetString s 10
    match parsed with
    | some b => if 2 ^ 256 ≤ b.natAbs then none else some b
    | none => none

/-- The function `parseInteger` for the type `uint256`: the value is a number or
the text of one, of at most 256 bits and not negative. -/
def parseInteger (encValue : Option Eip712.Value) : Result Int := do
  let b ← match encValue with
    | some (.num i) => pure i
    | some (.str v) =>
      match ParseBig256 (stringBytes v) with
      | some b => pure b
      | none => throw (.error "invalid hex or decimal integer")
    | none => throw (.error "invalid integer value for type uint256")
  if 2 ^ 256 ≤ b.natAbs then
    throw (.error "integer larger than 'uint256'")
  if b < 0 then
    throw (.error "invalid negative value for unsigned type uint256")
  return b

/-- The function `math.U256Bytes` on a value in range: 32 big-endian bytes. -/
def U256Bytes (b : Int) : Bytes :=
  let bs := natToBE (b % 2 ^ 256).toNat
  List.replicate (32 - bs.length) 0 ++ bs

/-- The method `EncodePrimitiveValue` for the types `address`, `string` and
`uint256`. -/
def EncodePrimitiveValue (encType : String) (encValue : Option Eip712.Value) : Result Bytes :=
  if encType = "address" then
    match encValue with
    | some (.str val) =>
      if IsHexAddress (stringBytes val) then
        .ok (List.replicate 12 0 ++ HexToAddress (stringBytes val))
      else .error (.error "provided data does not match type 'address'")
    | _ => .error (.error "provided data does not match type 'address'")
  else if encType = "string" then
    match encValue with
    | some (.str strVal) => .ok (Keccak256 [stringBytes strVal])
    | _ => .error (.error "provided data does not match type 'string'")
  else if encType = "uint256" then do
    let b ← parseInteger encValue
    return U256Bytes b
  else .error (.error "field type outside address, string and uint256")

/-- The method `EncodeType` for a type whose fields are primitive: the name, and
in parentheses the fields as `type name` separated by commas.  For a name that
is no key of `Types` the method `Dependencies` finds no type and the text is
empty. -/
def EncodeType (typedData : Eip712.TypedData) (primaryType : String) : Bytes :=
  match typedData.Types.lookup primaryType with
  | none => []
  | some fields =>
    let buffer := stringBytes primaryType ++ stringBytes "("
      ++ fields.flatMap fun obj =>
          stringBytes obj.Typ ++ stringBytes " " ++ stringBytes obj.Name ++ stringBytes ","
    buffer.dropLast ++ stringBytes ")"

/-- The method `TypeHash`. -/
def TypeHash (typedData : Eip712.TypedData) (primaryType : String) : Bytes :=
  Keccak256 [EncodeType typedData primaryType]

/-- The method `TypedData.validate` for descriptors whose fields are primitive:
no empty type or field name, and a domain with at least one field set. -/
def validate (typedData : Eip712.TypedData) : Result Unit := do
  for (typeKey, fields) in typedData.Types do
    if typeKey.length = 0 then
      throw (.error "empty type key")
    for typeObj in fields do
      if typeObj.Typ.length = 0 then
        throw (.error "empty Type")
      if typeObj.Name.length = 0 then
        throw (.error "empty Name")
      if typeKey = typeObj.Typ then
        throw (.error "type cannot reference itself")
  let domain := typedData.Domain
  if domain.ChainId.isNone ∧ domain.Name.length = 0 ∧ domain.Version.length = 0
      ∧ domain.VerifyingContract.length = 0 ∧ domain.Salt.length = 0 then
    throw (.error "domain is undefined")

/-- The fields of a struct encoded one after the other; the first error stops
the encoding. -/
def encodeFields (data : Eip712.TypedDataMessage) : List Eip712.Field → Result Bytes
  | [] => .ok []
  | field :: rest => do
    let byteValue ← EncodePrimitiveValue field.Typ (data.lookup field.Name)
    let tail ← encodeFields data rest
    return byteValue ++ tail

/-- The method `EncodeData`: the type hash followed by the encoded fields. -/
def EncodeData (typedData : Eip712.TypedData) (primaryType : String)
    (data : Eip712.TypedDataMessage) : Result Bytes := do
  validate typedData
  let fields := (typedData.Types.lookup primaryType).getD []
  if fields.length < data.length then
    throw (.error ("there is extra data provided in the message ("
      ++ toString fields.length ++ " < " ++ toString data.length ++ ")"))
  let typeHash := TypeHash typedData primaryType
  let encoded ← encodeFields data fields
  return typeHash ++ encoded

/-- The method `HashStruct`: the digest of the encoded data, or the error of the
encoding. -/
def HashStruct (typedData : Eip712.TypedData) (primaryType : String)
    (data : Eip712.TypedDataMessage) : Result Bytes := do
  let encodedData ← EncodeData typedData primaryType data
  return Keccak256 [encodedData]

/-- The library the program is linked with. -/
def library : Eip712.Library := { HashStruct := HashStruct, Hex := Hex }

end Apitypes

/-! ## Signing and sending the SetCode transaction (`eip7702_batch.go` lines 167-176)

The program hands the transaction it has built to `types.NewTx`, `types.SignTx`
and `client.SendTransaction`.  These copy the transaction, hash the encoding of
its fields, store the signature in a second copy and send the encoding of that
copy.  The encoder meets nested values here: the authorization list is a list of
structs. -/

namespace rlp

/-- The method `encBuffer.writeUint256`: a value of at most 64 bits goes through
`writeUint64`, a longer one is the length byte and its big-endian bytes. -/
def writeUint256 (z : Nat) : Bytes :=
  if z < 2 ^ 64 then writeUint64 z
  else
    let nBytes := (natToBE z).length
    (0x80 + byte nBytes) :: natToBE z

/-- What the encoder meets in a transaction: a plain value, a `uint256.Int`, or
a slice or struct, which is written as the list of its elements or fields. -/
inductive GoTree where
  | value (v : GoValue)
  | u256 (z : Nat)
  | list (items : List GoTree)

mutual
/-- The writer of a nested value: a list is its header and its elements in
order; the first error stops the encoding. -/
def encodeTree : GoTree → Result Bytes
  | .value v => writeValue v
  | .u256 z => .ok (writeUint256 z)
  | .list items => do
    let payload ← encodeTrees items
    return listHeader payload.length ++ payload
/-- The elements of a list written one after the other. -/
def encodeTrees : List GoTree → Result Bytes
  | [] => .ok []
  | t :: ts => do
    let b ← encodeTree t
    let rest ← encodeTrees ts
    return b ++ rest
end

mutual
/-- The item a nested value stands for. -/
def GoTree.toItem : GoTree → RLP.Item
  | .value v => v.toItem
  | .u256 z => RLP.int z
  | .list items => .list (GoTree.toItems items)
/-- The items a list of nested values stands for, in the same order. -/
def GoTree.toItems : List GoTree → List RLP.Item
  | [] => []
  | t :: ts => t.toItem :: GoTree.toItems ts
end

mutual
/-- Every leaf is a value the encoder accepts: a well-formed plain value, or a
`uint256.Int` below `2 ^ 256`. -/
def GoTree.wellFormed : GoTree → Prop
  | .value v => v.wellFormed
  | .u256 z => z < 2 ^ 256
  | .list items => GoTree.wellFormedAll items
/-- Every element of the list is well formed. -/
def GoTree.wellFormedAll : List GoTree → Prop
  | [] => True
  | t :: ts => t.wellFormed ∧ GoTree.wellFormedAll ts
end

mutual
/-- The number of values and lists in a nested value. -/
def GoTree.size : GoTree → Nat
  | .value _ => 1
  | .u256 _ => 1
  | .list items => 1 + GoTree.sizeAll items
/-- The number of values and lists in the elements of a list. -/
def GoTree.sizeAll : List GoTree → Nat
  | [] => 0
  | t :: ts => t.size + GoTree.sizeAll ts
end

end rlp

namespace Eip7702

/-- The zero value of `types.SetCodeAuthorization`. -/
def SetCodeAuthorization.zero : SetCodeAuthorization :=
  { ChainID := 0, Address := ⟨List.replicate 20 0, rfl⟩, Nonce := 0, V := 0, R := 0, S := 0 }

/-- The transaction data behind a `types.Transaction` of the SetCode type, every
field set: what `copy` returns. -/
structure TxData where
  ChainID : Nat
  Nonce : Nat
  GasTipCap : Nat
  GasFeeCap : Nat
  Gas : Nat
  To : Address
  Value : Nat
  Data : Bytes
  AccessList : List (Address × List Bytes)
  AuthList : List SetCodeAuthorization
  V : Nat
  R : Nat
  S : Nat

/-- The method `(*SetCodeTx).copy` on the transaction the program builds: the
authorization list is copied into a new slice of the same length, and the fields
the program leaves unset, the value, the access list and the signature, are zero
or empty. -/
def SetCodeTx.copy (tx : SetCodeTx) : TxData :=
  { Nonce := tx.Nonce
    To := tx.To
    Data := goCopy (List.replicate tx.Data.length 0) tx.Data
    Gas := tx.Gas
    AccessList := []
    AuthList := goCopy (List.replicate tx.AuthList.length SetCodeAuthorization.zero) tx.AuthList
    Value := 0
    ChainID := tx.ChainID
    GasTipCap := tx.GasTipCap
    GasFeeCap := tx.GasFeeCap
    V := 0
    R := 0
    S := 0 }

/-- The method `(*SetCodeTx).copy` on a transaction that is already a copy. -/
def TxData.copy (tx : TxData) : TxData :=
  { tx with
    Data := goCopy (List.replicate tx.Data.length 0) tx.Data
    AccessList := goCopy (List.replicate tx.AccessList.length (tx.To, [])) tx.AccessList
    AuthList := goCopy (List.replicate tx.AuthList.length SetCodeAuthorization.zero) tx.AuthList }

/-- The function `types.NewTx`: the transaction holds a copy of the data. -/
def NewTx (inner : SetCodeTx) : TxData := inner.copy

/-- An authorization as the encoder sees it: the struct of its six fields. -/
def SetCodeAuthorization.tree (a : SetCodeAuthorization) : rlp.GoTree :=
  .list [.u256 a.ChainID, .value (.address a.Address), .value (.uint a.Nonce),
    .value (.uint a.V.toNat), .u256 a.R, .u256 a.S]

/-- An entry of the access list as the encoder sees it: the address and the list
of storage keys. -/
def accessTupleTree (t : Address × List Bytes) : rlp.GoTree :=
  .list [.value (.address t.1), .list (t.2.map fun k => .value (.byteSlice k))]

/-- The ten values `(*SetCodeTx).sigHash` encodes. -/
def TxData.sigHashFields (tx : TxData) (chainID : Int) : rlp.GoTree :=
  .list [.value (.bigInt chainID), .value (.uint tx.Nonce), .u256 tx.GasTipCap,
    .u256 tx.GasFeeCap, .value (.uint tx.Gas), .value (.address tx.To), .u256 tx.Value,
    .value (.byteSlice tx.Data), .list (tx.AccessList.map accessTupleTree),
    .list (tx.AuthList.map SetCodeAuthorization.tree)]

/-- The function `prefixedRlpHash`: the digest of the type byte followed by the
encoding; nothing follows the type byte when the encoder fails. -/
def prefixedRlpHash (typeByte : UInt8) (x : rlp.GoTree) : Bytes :=
  Keccak.sum256 (typeByte :: ignoreErr (rlp.encodeTree x))

/-- The method `(*SetCodeTx).sigHash`: the hash that is signed, under type byte
`0x04`. -/
def TxData.sigHash (tx : TxData) (chainID : Int) : Bytes :=
  prefixedRlpHash 0x04 (tx.sigHashFields chainID)

/-- The signer `types.LatestSignerForChainID` returns for a chain id. -/
structure Signer7702 where
  chainId : Int

/-- The function `types.LatestSignerForChainID` on a chain id that is not nil. -/
def LatestSignerForChainID (chainID : Int) : Signer7702 := { chainId := chainID }

/-- The method `Hash` of the signer on a SetCode transaction. -/
def Signer7702.Hash (s : Signer7702) (tx : TxData) : Bytes := tx.sigHash s.chainId

/-- The method `SignatureValues` of the signer on a SetCode transaction: the
chain id of the transaction must be zero or the signer's; `R` and `S` are the two
halves and `V` is the last byte unchanged. -/
def Signer7702.SignatureValues (s : Signer7702) (tx : TxData) (sig : Bytes) :
    Result (Int × Int × Int) := do
  if tx.ChainID ≠ 0 ∧ (tx.ChainID : Int) ≠ s.chainId then
    throw (.error "invalid chain id for signer")
  if sig.length ≠ 65 then
    throw (.runtimePanic "wrong size for signature")
  let r := beToNat (← goSlice sig 0 32)
  let sv := beToNat (← goSlice sig 32 64)
  let v := (← goIndex sig 64).toNat
  return (r, sv, v)

/-- The method `Transaction.WithSignature`: the signature values are stored in a
copy of the transaction. -/
def WithSignature (tx : TxData) (signer : Signer7702) (sig : Bytes) : Result TxData := do
  let (r, s, v) ← signer.SignatureValues tx sig
  let cpy := tx.copy
  let ChainID ← MustFromBig signer.chainId
  return { cpy with ChainID := ChainID, V := (v % 2 ^ 256).toNat, R := (r % 2 ^ 256).toNat,
                    S := (s % 2 ^ 256).toNat }

/-- The function `types.SignTx`: the signer's hash is signed and the signature
is stored in the transaction. -/
def SignTx (Sign : Signer) (tx : TxData) (s : Signer7702) (prv : PrivateKey) : Result TxData := do
  let h := s.Hash tx
  let sig ← Sign h prv
  WithSignature tx s sig

/-- The thirteen fields of the struct `SetCodeTx` as the encoder sees them. -/
def TxData.tree (tx : TxData) : rlp.GoTree :=
  .list [.u256 tx.ChainID, .value (.uint tx.Nonce), .u256 tx.GasTipCap, .u256 tx.GasFeeCap,
    .value (.uint tx.Gas), .value (.address tx.To), .u256 tx.Value, .value (.byteSlice tx.Data),
    .list (tx.AccessList.map accessTupleTree), .list (tx.AuthList.map SetCodeAuthorization.tree),
    .u256 tx.V, .u256 tx.R, .u256 tx.S]

/-- The method `Transaction.MarshalBinary` on a SetCode transaction: the type
byte `0x04` and the encoding of the struct; these are the bytes
`client.SendTransaction` sends. -/
def MarshalBinary (tx : TxData) : Result Bytes := do
  let enc ← rlp.encodeTree tx.tree
  return 0x04 :: enc

/-- Lines 167-176 of `eip7702_batch.go`: the transaction is wrapped, signed by
account 2 and sent; the result is the signed transaction and the bytes sent. -/
def signAndSend (Sign : Signer) (acc2Priv : PrivateKey) (delegation : SetCodeTx) :
    Result (TxData × Bytes) := do
  let fullTx := NewTx delegation
  let signedTx ← orFatal "Signing failed:"
    (SignTx Sign fullTx (LatestSignerForChainID AmoyChainID) acc2Priv)
  let raw ← orFatal "Tx failed:" (MarshalBinary signedTx)
  return (signedTx, raw)

/-- The program `eip7702_batch.go` up to the transaction it sends (lines 29-176). -/
def run (client : Client) (Sign : Signer) (Pack : List Address → Result Bytes)
    (acc1 acc2 : Account) : Result (TxData × Bytes) := do
  let delegation ← main client Sign Pack acc1 acc2
  signAndSend Sign acc2.Priv delegation

end Eip7702

namespace Eip7702

/-- The fields of an authorization fit their Go types: `uint256.Int` for the
chain id, `R` and `S`, `uint64` for the nonce. -/
def SetCodeAuthorization.inRange (a : SetCodeAuthorization) : Prop :=
  a.ChainID < 2 ^ 256 ∧ a.Nonce < 2 ^ 64 ∧ a.R < 2 ^ 256 ∧ a.S < 2 ^ 256

/-- The fields of a transaction fit their Go types, and its data is shorter than
`2 ^ 32` bytes. -/
def TxData.inRange (tx : TxData) : Prop :=
  tx.ChainID < 2 ^ 256 ∧ tx.Nonce < 2 ^ 64 ∧ tx.GasTipCap < 2 ^ 256 ∧ tx.GasFeeCap < 2 ^ 256 ∧
  tx.Gas < 2 ^ 64 ∧ tx.Value < 2 ^ 256 ∧ tx.Data.length < 2 ^ 32 ∧
  tx.V < 2 ^ 256 ∧ tx.R < 2 ^ 256 ∧ tx.S < 2 ^ 256 ∧
  ∀ a ∈ tx.AuthList, a.inRange

end Eip7702

/-! ## The digests as the specification words them -/

namespace Spec

/-- The delegation-authorization digest in the words of the specification: the
digest of the magic byte `0x05` followed by the nested-sequence encoding of the
list (chain id, delegate target, authorization nonce), the address being a
20-byte string. -/
def authorizationDigest (chainId : Nat) (delegateTarget : Address) (authorizationNonce : Nat) :
    Bytes :=
  Keccak.sum256 (0x05 :: RLP.encode
    (.list [RLP.int chainId, .str delegateTarget.bytes, RLP.int authorizationNonce]))

/-- The typed-data digest in the words of the specification: the digest of the
two bytes `0x19 0x01`, the domain separator and the struct hash of the message. -/
def typedDataDigest (domainSeparator messageHash : Bytes) : Bytes :=
  Keccak.sum256 ([0x19, 0x01] ++ domainSeparator ++ messageHash)

/-- The nine-element tuple a replay-protected legacy transaction is hashed over:
(nonce, gasPrice, gas, to, value, data, chainId, 0, 0). -/
def legacySigningTuple (nonce gasPrice gas : Nat) (toAddr : Address) (value : Nat) (data : Bytes)
    (chainId : Nat) : RLP.Item :=
  .list [RLP.int nonce, RLP.int gasPrice, RLP.int gas, .str toAddr.bytes, RLP.int value,
    .str data, RLP.int chainId, RLP.int 0, RLP.int 0]

end Spec

/-! ## The SetCode payloads as the specification words them -/

namespace Spec

/-- An authorization as an item of the encoding: the list (chain id, delegate
target, nonce, recovery parity, r, s). -/
def authorizationItem (a : Eip7702.SetCodeAuthorization) : RLP.Item :=
  .list [RLP.int a.ChainID, .str a.Address.bytes, RLP.int a.Nonce, RLP.int a.V.toNat,
    RLP.int a.R, RLP.int a.S]

/-- The pre-signing payload of a SetCode transaction: the type byte `0x04` and
the encoding of (chain id, nonce, tip cap, fee cap, gas, recipient, value, data,
access list, authorization list), the two lists in the given order. -/
def setCodeSigningPayload (chainId nonce tipCap feeCap gas : Nat) (toAddr : Address)
    (value : Nat) (data : Bytes) (authList : List Eip7702.SetCodeAuthorization) : Bytes :=
  0x04 :: RLP.encode (.list [RLP.int chainId, RLP.int nonce, RLP.int tipCap, RLP.int feeCap,
    RLP.int gas, .str toAddr.bytes, RLP.int value, .str data, .list [],
    .list (authList.map authorizationItem)])

/-- The signed encoding of a SetCode transaction: the pre-signing fields followed
by the recovery parity, `r` and `s`. -/
def setCodeSigned (chainId nonce tipCap feeCap gas : Nat) (toAddr : Address)
    (value : Nat) (data : Bytes) (authList : List Eip7702.SetCodeAuthorization)
    (v r s : Nat) : Bytes :=
  0x04 :: RLP.encode (.list [RLP.int chainId, RLP.int nonce, RLP.int tipCap, RLP.int feeCap,
    RLP.int gas, .str toAddr.bytes, RLP.int value, .str data, .list [],
    .list (authList.map authorizationItem), RLP.int v, RLP.int r, RLP.int s])

/-- The authorization the program builds for a delegating account from the
nonce it signed and the 65-byte signature it obtained: chain id 80002, the
delegate target of the program, and `R`, `S`, `V` read from the signature. -/
def authorizationOf (nonce : Nat) (sig : Bytes) : Eip7702.SetCodeAuthorization :=
  { ChainID := 80002, Address := Eip7702.moduleAddr, Nonce := nonce, V := sig.getD 64 0,
    R := beToNat (sig.take 32), S := beToNat ((sig.take 64).drop 32) }

end Spec

/-! ## Sample inputs -/

/-- A node that answers every query with fixed values: pending nonce 7, the
given fee history and tip, a gas price of 30 gwei and a gas estimate of 60000. -/
def sampleClient (history : List Int) (tip : Int) : Client :=
  { PendingNonceAt := fun _ => .ok 7
    FeeHistory := fun _ => .ok history
    SuggestGasTipCap := .ok tip
    SuggestGasPrice := .ok 30000000000
    EstimateGas := fun _ => .ok 60000 }

/-- A first sample account. -/
def sampleAccount1 : Account :=
  { Addr := ⟨List.replicate 20 0x11, rfl⟩, Priv := ⟨1⟩ }

/-- A second sample account. -/
def sampleAccount2 : Account :=
  { Addr := ⟨List.replicate 20 0x22, rfl⟩, Priv := ⟨2⟩ }

/-- The commitment to the all-zero blob: the point at infinity in compressed form. -/
def zeroBlobCommitment : Bytes := 0xc0 :: List.replicate 47 0

/-- A KZG library that answers with the commitment and proof of the all-zero blob. -/
def sampleKzg : Eip4844.Kzg :=
  { BlobToCommitment := fun _ => .ok zeroBlobCommitment
    ComputeBlobProof := fun _ _ => .ok zeroBlobCommitment }

/-- A stand-in for the signer: 65 bytes made of the digest, the digest of the
digest and a parity bit taken from the key. -/
def sampleSign : Signer :=
  fun digest priv => .ok (digest ++ Keccak.sum256 digest ++ [byte (priv.D % 2)])

/-- A stand-in for the ABI encoder: the addresses one after the other. -/
def samplePack : List Address → Result Bytes :=
  fun froms => .ok (froms.map (fun a => a.bytes)).flatten

/-- A stand-in for the typed-data library: the struct hash is the digest of the
name of the type, and every address is written as the same text. -/
def sampleLibrary : Eip712.Library :=
  { HashStruct := fun _ primaryType _ =>
      .ok (Keccak.sum256 (primaryType.toList.map (fun ch => byte ch.toNat)))
    Hex := fun _ => "0x" }

/-- What `sampleSign` returns for the authorization of `Eip7702.moduleAddr` on
chain 80002 with the given nonce, under the given key. -/
def sampleSignature (priv : PrivateKey) (nonce : Nat) : Bytes :=
  Spec.authorizationDigest 80002 Eip7702.moduleAddr nonce
    ++ Keccak.sum256 (Spec.authorizationDigest 80002 Eip7702.moduleAddr nonce)
    ++ [byte (priv.D % 2)]

/-- The address of the checksum example of EIP-55. -/
def checksumExampleAddr : Address :=
  ⟨[0x5a, 0xae, 0xb6, 0x05, 0x3f, 0x3e, 0x94, 0xc9, 0xb9, 0xa0, 0x9f, 0x33, 0x66, 0x94,
    0x35, 0xe7, 0xef, 0x1b, 0xea, 0xed], rfl⟩

/-- The descriptor of the "Ether Mail" example of EIP-712, domain only. -/
def etherMail : Eip712.TypedData :=
  { Types := [("EIP712Domain", [⟨"name", "string"⟩, ⟨"version", "string"⟩,
      ⟨"chainId", "uint256"⟩, ⟨"verifyingContract", "address"⟩])],
    PrimaryType := "EIP712Domain",
    Domain :=
      { Name := "Ether Mail", Version := "1", ChainId := some 1,
        VerifyingContract := "0xCcCCccccCCCCcCCCCCCcCcCccCcCCCcCcccccccC", Salt := "" },
    Message := [] }

/-! ## Theorems -/

/-! ### Go runtime -/

theorem goIndex_last {α : Type} (xs : List α) (hne : xs ≠ []) :
    goIndex xs ((xs.length : Int) - 1) = .ok (xs.getLast hne) := by
  have hlen : 0 < xs.length := List.length_pos.mpr hne
  have h1 : ¬ ((xs.length : Int) - 1 < 0) := by omega
  have h2 : ((xs.length : Int) - 1).toNat = xs.length - 1 := by omega
  unfold goIndex
  rw [if_neg h1, h2, List.getLast_eq_getElem, List.getElem?_eq_getElem (by omega)]

theorem goIndex_nil {α : Type} (i : Int) :
    goIndex ([] : List α) i = .error (.runtimePanic "index out of range") := by
  unfold goIndex
  split <;> simp

/-! ### Fee computation -/

theorem eip1559_feeComputation_last (h : List Int) (t : Int) (hne : h ≠ []) :
    Eip1559.feeComputation h t =
      .ok { latestBaseFee := h.getLast hne, bufferedBaseFee := h.getLast hne * 112 / 100,
            GasFeeCap := h.getLast hne * 112 / 100 + t, GasTipCap := t } := by
  simp [Eip1559.feeComputation, goIndex_last h hne, bigDiv, bind, Except.bind, pure, Except.pure]
  rfl

theorem eip4844_feeComputation_last (h : List Int) (t : Int) (hne : h ≠ []) :
    Eip4844.feeComputation h t =
      .ok { latestBaseFee := h.getLast hne, bufferedBaseFee := h.getLast hne * 112 / 100,
            GasFeeCap := h.getLast hne * 112 / 100 + t, GasTipCap := t } := by
  simp [Eip4844.feeComputation, goIndex_last h hne, bigDiv, bind, Except.bind, pure, Except.pure]
  rfl

theorem floor_mul_div (b : Int) : ⌊((b * 112 : Int) : ℚ) / 100⌋ = b * 112 / 100 := by
  have := Rat.floor_intCast_div_natCast (b * 112) 100
  simpa using this

/-- C1: for every non-empty base-fee history `h` and every suggested tip `t`, the
fee computation of `eip1559.go` and of `eip4844.go` succeeds with the tip cap
`t`, the buffered base fee `floor(last(h) * 112 / 100)` and the fee cap
`floor(last(h) * 112 / 100) + t`; the figures depend on `h` through its last
entry only. -/
theorem fee_caps_from_latest_base_fee (h : List Int) (t : Int) (hne : h ≠ []) :
    (Eip1559.feeComputation h t =
        .ok { latestBaseFee := h.getLast hne,
              bufferedBaseFee := ⌊((h.getLast hne * 112 : Int) : ℚ) / 100⌋,
              GasFeeCap := ⌊((h.getLast hne * 112 : Int) : ℚ) / 100⌋ + t,
              GasTipCap := t }) ∧
    (Eip4844.feeComputation h t =
        .ok { latestBaseFee := h.getLast hne,
              bufferedBaseFee := ⌊((h.getLast hne * 112 : Int) : ℚ) / 100⌋,
              GasFeeCap := ⌊((h.getLast hne * 112 : Int) : ℚ) / 100⌋ + t,
              GasTipCap := t }) ∧
    (∀ (h' : List Int) (hne' : h' ≠ []), h'.getLast hne' = h.getLast hne →
        Eip1559.feeComputation h' t = Eip1559.feeComputation h t ∧
        Eip4844.feeComputation h' t = Eip4844.feeComputation h t) := by
  refine ⟨?_, ?_, ?_⟩
  · rw [eip1559_feeComputation_last h t hne, floor_mul_div]
  · rw [eip4844_feeComputation_last h t hne, floor_mul_div]
  · intro h' hne' hlast
    rw [eip1559_feeComputation_last h t hne, eip1559_feeComputation_last h' t hne',
      eip4844_feeComputation_last h t hne, eip4844_feeComputation_last h' t hne', hlast]
    exact ⟨rfl, rfl⟩

/-- C1 at the history `[100, 110, 120]` and the tip `5`: the buffered base fee is
134, the fee cap 139 and the tip cap 5, in both programs. -/
theorem fee_caps_from_latest_base_fee_witness :
    ([100, 110, 120] : List Int) ≠ [] ∧
    Eip1559.feeComputation [100, 110, 120] 5 =
      .ok { latestBaseFee := 120, bufferedBaseFee := 134, GasFeeCap := 139, GasTipCap := 5 } ∧
    Eip4844.feeComputation [100, 110, 120] 5 =
      .ok { latestBaseFee := 120, bufferedBaseFee := 134, GasFeeCap := 139, GasTipCap := 5 } := by
  have hne : ([100, 110, 120] : List Int) ≠ [] := by decide
  have key := fee_caps_from_latest_base_fee [100, 110, 120] 5 hne
  have hfloor : ⌊(((100 :: 110 :: [120] : List Int).getLast hne * 112 : Int) : ℚ) / 100⌋ = 134 := by
    norm_num [List.getLast]
  rw [hfloor] at key
  exact ⟨hne, key.1, key.2.1⟩

/-- C2: when the node returns a non-empty base-fee history whose latest entry is
non-negative, `eip1559.go` builds its transaction, the tip cap in it is the
suggested tip, and the fee cap in it is at least the tip cap. -/
theorem fee_cap_ge_tip_cap (client : Client) (acc2 : Account) (nonce gasLimit : Nat)
    (h : List Int) (t : Int) (hne : h ≠ [])
    (hnonce : client.PendingNonceAt acc2.Addr = .ok nonce)
    (hhist : client.FeeHistory 5 = .ok h)
    (htip : client.SuggestGasTipCap = .ok t)
    (hgas : client.EstimateGas
      { From := acc2.Addr, To := Eip1559.toAddr, Value := none, Data := Eip1559.callData }
        = .ok gasLimit)
    (hlatest : 0 ≤ h.getLast hne) :
    ∃ tx, Eip1559.main client acc2 = .ok tx ∧ tx.GasTipCap = t ∧
      tx.GasFeeCap = h.getLast hne * 112 / 100 + t ∧ tx.GasFeeCap ≥ tx.GasTipCap := by
  refine ⟨{ ChainID := 80002, Nonce := nonce, GasTipCap := t,
            GasFeeCap := h.getLast hne * 112 / 100 + t, Gas := gasLimit,
            To := Eip1559.toAddr, Data := Eip1559.callData }, ?_, rfl, rfl, ?_⟩
  · simp [Eip1559.main, hnonce, hhist, htip, hgas, orFatal, eip1559_feeComputation_last h t hne,
      bind, Except.bind, pure, Except.pure]
  · have : 0 ≤ h.getLast hne * 112 / 100 := Int.ediv_nonneg (by omega) (by norm_num)
    show h.getLast hne * 112 / 100 + t ≥ t
    omega

/-- C2 at the history `[100, 110, 120]` and the tip `5`, on the sample node. -/
theorem fee_cap_ge_tip_cap_witness :
    ∃ tx, Eip1559.main (sampleClient [100, 110, 120] 5) sampleAccount2 = .ok tx ∧
      tx.GasTipCap = 5 ∧
      tx.GasFeeCap = ([100, 110, 120] : List Int).getLast (by decide) * 112 / 100 + 5 ∧
      tx.GasFeeCap ≥ tx.GasTipCap :=
  fee_cap_ge_tip_cap (sampleClient [100, 110, 120] 5) sampleAccount2 7 60000 [100, 110, 120] 5
    (by decide) rfl rfl rfl rfl (by decide)

theorem bind_error {α β : Type} (e : Failure) (f : α → Result β) :
    ((Except.error e : Result α) >>= f) = .error e := rfl

theorem orFatal_isOk {α : Type} (msg : String) (r : Result α) :
    (∃ a, r = .ok a ∧ orFatal msg r = .ok a) ∨ (∃ e, orFatal msg r = .error e) := by
  cases r with
  | ok a => exact Or.inl ⟨a, rfl, rfl⟩
  | error e => exact Or.inr ⟨_, rfl⟩

/-- C3: on the empty base-fee history the fee computation of both programs ends
in a runtime panic for every tip, so it yields no fee figures; and whenever the
node returns an empty history, neither program builds a transaction. -/
theorem empty_history_fails (t : Int) :
    Eip1559.feeComputation [] t = .error (.runtimePanic "index out of range") ∧
    Eip4844.feeComputation [] t = .error (.runtimePanic "index out of range") ∧
    (∀ f, Eip1559.feeComputation [] t ≠ .ok f) ∧
    (∀ f, Eip4844.feeComputation [] t ≠ .ok f) ∧
    (∀ (client : Client) (acc2 : Account), client.FeeHistory 5 = .ok [] →
        (Eip1559.main client acc2).isOk = false) ∧
    (∀ (client : Client) (kzg : Eip4844.Kzg) (acc2 : Account), client.FeeHistory 5 = .ok [] →
        (Eip4844.main client kzg acc2).isOk = false) := by
  have h1 : ∀ t, Eip1559.feeComputation [] t = .error (.runtimePanic "index out of range") := by
    intro t
    simp [Eip1559.feeComputation, goIndex_nil, bind, Except.bind]
  have h2 : ∀ t, Eip4844.feeComputation [] t = .error (.runtimePanic "index out of range") := by
    intro t
    simp [Eip4844.feeComputation, goIndex_nil, bind, Except.bind]
  refine ⟨h1 t, h2 t, ?_, ?_, ?_, ?_⟩
  · intro f hf
    rw [h1] at hf
    cases hf
  · intro f hf
    rw [h2] at hf
    cases hf
  · intro client acc2 hhist
    unfold Eip1559.main
    rw [hhist]
    rcases orFatal_isOk "Failed to fetch nonce:" (client.PendingNonceAt acc2.Addr) with
      ⟨n, -, hn⟩ | ⟨e, he⟩
    · rw [hn]
      rcases orFatal_isOk "Failed to fetch gas price:" client.SuggestGasTipCap with
        ⟨g, -, hg⟩ | ⟨e, he⟩
      · rw [hg]
        simp [orFatal, h1, bind, Except.bind, Result.isOk]
      · rw [he]
        simp [orFatal, bind, Except.bind, Result.isOk]
    · rw [he]
      simp [bind, Except.bind, Result.isOk]
  · intro client kzg acc2 hhist
    unfold Eip4844.main
    rw [hhist]
    rcases orFatal_isOk "Failed to fetch nonce:" (client.PendingNonceAt acc2.Addr) with
      ⟨n, -, hn⟩ | ⟨e, he⟩
    · rw [hn]
      rcases orFatal_isOk "Failed to fetch gas tip cap:" client.SuggestGasTipCap with
        ⟨g, -, hg⟩ | ⟨e, he⟩
      · rw [hg]
        simp [orFatal, h2, bind, Except.bind, Result.isOk]
      · rw [he]
        simp [orFatal, bind, Except.bind, Result.isOk]
    · rw [he]
      simp [bind, Except.bind, Result.isOk]

/-! ### Blob construction -/

theorem goCopy_replicate {α : Type} (N : Nat) (z : α) (c : List α) (h : c.length ≤ N) :
    goCopy (List.replicate N z) c = c ++ List.replicate (N - c.length) z := by
  simp [goCopy, List.take_of_length_le h, Nat.min_eq_right h]

theorem blobFrom_ok (content : Bytes) (h : content.length ≤ 131072) :
    Eip4844.blobFrom content
      = .ok (content ++ List.replicate (131072 - content.length) 0) := by
  have h1 : ¬ (content.length > 131072) := by omega
  unfold Eip4844.blobFrom
  simp only [h1, if_false, Eip4844.blobSize]
  rw [goCopy_replicate 131072 0 content h]

/-- C4: building the blob from content bytes fails exactly when the content is
longer than 131072 bytes; for content of length `n ≤ 131072` it returns a buffer
of exactly 131072 bytes whose first `n` bytes are the content in order and whose
other `131072 - n` bytes are all zero. -/
theorem blob_from_content (content : Bytes) :
    ((Eip4844.blobFrom content).isOk = false ↔ 131072 < content.length) ∧
    (content.length ≤ 131072 →
      ∃ blob, Eip4844.blobFrom content = .ok blob ∧ blob.length = 131072 ∧
        blob.take content.length = content ∧
        blob.drop content.length = List.replicate (131072 - content.length) 0 ∧
        (∀ i, i < content.length → blob[i]? = content[i]?) ∧
        (∀ i, content.length ≤ i → i < 131072 → blob[i]? = some 0)) := by
  constructor
  · by_cases h : content.length ≤ 131072
    · rw [blobFrom_ok content h]
      simp only [Result.isOk]
      constructor
      · intro hf
        cases hf
      · intro hlt
        omega
    · have h1 : content.length > 131072 := by omega
      unfold Eip4844.blobFrom
      simp only [h1, if_true, Result.isOk, true_iff]
  · intro h
    refine ⟨_, blobFrom_ok content h, ?_, ?_, ?_, ?_, ?_⟩
    · rw [List.length_append, List.length_replicate]
      omega
    · exact List.take_left' rfl
    · exact List.drop_left' rfl
    · intro i hi
      rw [List.getElem?_append_left hi]
    · intro i h1 h2
      rw [List.getElem?_append_right h1, List.getElem?_replicate]
      have : i - content.length < 131072 - content.length := by omega
      simp [this]

/-- C4 at the 94 bytes of text the program puts in its blob and at the empty
content. -/
theorem blob_from_content_witness :
    (∃ blob, Eip4844.blobFrom Eip4844.content = .ok blob ∧ blob.length = 131072 ∧
      blob.take 94 = Eip4844.content ∧ blob.drop 94 = List.replicate 130978 0) ∧
    (Eip4844.blobFrom [] = .ok (List.replicate 131072 0)) := by
  have hlen : Eip4844.content.length = 94 := by decide
  constructor
  · obtain ⟨blob, h1, h2, h3, h4, -⟩ := (blob_from_content Eip4844.content).2 (by rw [hlen]; omega)
    rw [hlen] at h3 h4
    exact ⟨blob, h1, h2, h3, h4⟩
  · obtain ⟨blob, h1, -, -, h4, -⟩ := (blob_from_content []).2 (by simp)
    rw [h1]
    simp only [List.length_nil, List.drop_zero, Nat.sub_zero] at h4
    rw [h4]

/-! ### Versioned blob hash -/

theorem sha256_length (msg : Bytes) : (SHA256.sum256 msg).length = 32 := by
  simp [SHA256.sum256, SHA256.output, SHA256.be32]

theorem keccak256_length (msg : Bytes) : (Keccak.sum256 msg).length = 32 := by
  simp [Keccak.sum256, Keccak.le64]

theorem set_zero_eq_cons_drop {α : Type} (l : List α) (a : α) (h : 0 < l.length) :
    l.set 0 a = a :: l.drop 1 := by
  cases l with
  | nil => simp at h
  | cons x xs => simp

theorem calcBlobHashV1_sha256 (commit : Bytes) :
    Eip4844.CalcBlobHashV1 sha256New commit = .ok (0x01 :: (SHA256.sum256 commit).drop 1) := by
  have hlen := sha256_length commit
  have hcopy : goCopy (List.replicate 32 (0 : UInt8)) (SHA256.sum256 commit)
      = SHA256.sum256 commit := by
    rw [goCopy_replicate 32 0 _ (by omega), hlen]
    simp
  simp only [Eip4844.CalcBlobHashV1, sha256New, ne_eq, not_true_eq_false, if_false, hcopy]
  rw [set_zero_eq_cons_drop _ _ (by omega)]

theorem blobVersionedHashes_eq (commit : Bytes) :
    Eip4844.blobVersionedHashes commit = .ok [0x01 :: (SHA256.sum256 commit).drop 1] := by
  simp [Eip4844.blobVersionedHashes, calcBlobHashV1_sha256, bind, Except.bind, pure, Except.pure]

theorem mustFromBig_of_lt (b : Int) (h0 : 0 ≤ b) (h : b < 2 ^ 256) :
    MustFromBig b = .ok b.toNat := by
  have h1 : ¬ (2 ^ 256 ≤ b.natAbs) := by omega
  have h2 : b % 2 ^ 256 = b := Int.emod_eq_of_lt h0 h
  simp only [MustFromBig, h1, if_false, h2]

theorem mustFromBig_of_natAbs_lt (b : Int) (h : b.natAbs < 2 ^ 256) :
    MustFromBig b = .ok (b % 2 ^ 256).toNat := by
  have h1 : ¬ (2 ^ 256 ≤ b.natAbs) := by omega
  simp only [MustFromBig, h1, if_false]

theorem eip4844_main_ok (client : Client) (kzg : Eip4844.Kzg) (acc2 : Account)
    (nonce gasLimit : Nat) (h : List Int) (t : Int) (c pr : Bytes) (hne : h ≠ [])
    (hnonce : client.PendingNonceAt acc2.Addr = .ok nonce)
    (htip : client.SuggestGasTipCap = .ok t)
    (hhist : client.FeeHistory 5 = .ok h)
    (hcommit : kzg.BlobToCommitment
      (Eip4844.content ++ List.replicate (131072 - Eip4844.content.length) 0) = .ok c)
    (hproof : kzg.ComputeBlobProof
      (Eip4844.content ++ List.replicate (131072 - Eip4844.content.length) 0) c = .ok pr)
    (hgas : client.EstimateGas
      { From := acc2.Addr, To := Eip4844.toAddr, Value := some 100000000000000, Data := [] }
        = .ok gasLimit)
    (ht : t.natAbs < 2 ^ 256) (hcap : (h.getLast hne * 112 / 100 + t).natAbs < 2 ^ 256) :
    Eip4844.main client kzg acc2 = .ok
      ({ ChainID := 11155111, Nonce := nonce, GasTipCap := (t % 2 ^ 256).toNat,
         GasFeeCap := ((h.getLast hne * 112 / 100 + t) % 2 ^ 256).toNat, Gas := gasLimit,
         To := Eip4844.toAddr, Value := 100000000000000, BlobFeeCap := 2000000,
         BlobHashes := [0x01 :: (SHA256.sum256 c).drop 1] },
       { Blobs := [Eip4844.content ++ List.replicate (131072 - Eip4844.content.length) 0],
         Commitments := [c], Proofs := [pr] }) := by
  have hblob := blobFrom_ok Eip4844.content (by decide)
  have hv : MustFromBig 100000000000000 = .ok 100000000000000 :=
    mustFromBig_of_lt 100000000000000 (by norm_num) (by norm_num)
  have hb : MustFromBig 2000000 = .ok 2000000 :=
    mustFromBig_of_lt 2000000 (by norm_num) (by norm_num)
  unfold Eip4844.main
  rw [hnonce, htip, hhist]
  simp only [orFatal, bind, Except.bind, pure, Except.pure, hcommit, hproof,
    eip4844_feeComputation_last h t hne, hblob,
    blobVersionedHashes_eq, hv, hb, Nat.cast_ofNat, hgas, mustFromBig_of_natAbs_lt t ht,
    mustFromBig_of_natAbs_lt _ hcap]

/-- C5 (amended): for every commitment `c` the versioned blob hash is 32 bytes
long, its first byte is `0x01`, and its bytes 1..31 are bytes 1..31 of the
SHA-256 digest of `c`; it is the single entry of the hash list of the blob
transaction that `eip4844.go` builds when the KZG library returns `c`. -/
theorem versioned_hash_is_sha256 (client : Client) (kzg : Eip4844.Kzg) (acc2 : Account)
    (nonce gasLimit : Nat) (h : List Int) (t : Int) (c pr : Bytes) (hne : h ≠ [])
    (hnonce : client.PendingNonceAt acc2.Addr = .ok nonce)
    (htip : client.SuggestGasTipCap = .ok t)
    (hhist : client.FeeHistory 5 = .ok h)
    (hcommit : kzg.BlobToCommitment
      (Eip4844.content ++ List.replicate (131072 - Eip4844.content.length) 0) = .ok c)
    (hproof : kzg.ComputeBlobProof
      (Eip4844.content ++ List.replicate (131072 - Eip4844.content.length) 0) c = .ok pr)
    (hgas : client.EstimateGas
      { From := acc2.Addr, To := Eip4844.toAddr, Value := some 100000000000000, Data := [] }
        = .ok gasLimit)
    (ht : t.natAbs < 2 ^ 256) (hcap : (h.getLast hne * 112 / 100 + t).natAbs < 2 ^ 256) :
    ∃ tx sidecar vh, Eip4844.main client kzg acc2 = .ok (tx, sidecar) ∧
      sidecar.Commitments = [c] ∧ tx.BlobHashes = [vh] ∧
      Eip4844.CalcBlobHashV1 sha256New c = .ok vh ∧
      vh.length = 32 ∧ vh[0]? = some 0x01 ∧
      (∀ i, 1 ≤ i → i < 32 → vh[i]? = (SHA256.sum256 c)[i]?) := by
  refine ⟨_, _, 0x01 :: (SHA256.sum256 c).drop 1,
    eip4844_main_ok client kzg acc2 nonce gasLimit h t c pr hne hnonce htip hhist hcommit hproof
      hgas ht hcap, rfl, rfl, calcBlobHashV1_sha256 c, ?_, rfl, ?_⟩
  · have := sha256_length c
    simp only [List.length_cons, List.length_drop]
    omega
  · intro i h1 h2
    obtain ⟨j, rfl⟩ : ∃ j, i = j + 1 := ⟨i - 1, by omega⟩
    rw [List.getElem?_cons_succ, List.getElem?_drop, Nat.add_comm]

/-- C5 (amended) on the sample node, with the commitment of the all-zero blob. -/
theorem versioned_hash_is_sha256_witness :
    ∃ tx sidecar vh, Eip4844.main (sampleClient [100, 110, 120] 5) sampleKzg sampleAccount2
        = .ok (tx, sidecar) ∧
      sidecar.Commitments = [zeroBlobCommitment] ∧ tx.BlobHashes = [vh] ∧
      Eip4844.CalcBlobHashV1 sha256New zeroBlobCommitment = .ok vh ∧
      vh.length = 32 ∧ vh[0]? = some 0x01 ∧
      (∀ i, 1 ≤ i → i < 32 → vh[i]? = (SHA256.sum256 zeroBlobCommitment)[i]?) :=
  versioned_hash_is_sha256 (sampleClient [100, 110, 120] 5) sampleKzg sampleAccount2 7 60000
    [100, 110, 120] 5 zeroBlobCommitment zeroBlobCommitment (by decide) rfl rfl rfl rfl rfl rfl
    (by decide) (by decide)

/-- C5 as stated fails: for the commitment of the all-zero blob the versioned
hash in the hash list is `01 06 57 f3 …`, taken from the SHA-256 digest, while
the Keccak-256 digest used for the signing digests is `08 62 46 52 …`; their
bytes 1..31 differ. -/
theorem versioned_hash_is_not_keccak :
    Eip4844.blobVersionedHashes zeroBlobCommitment = .ok [
      [0x01, 0x06, 0x57, 0xf3, 0x75, 0x54, 0xc7, 0x81, 0x40, 0x2a, 0x22, 0x91, 0x7d, 0xee, 0x2f,
       0x75, 0xde, 0xf7, 0xab, 0x96, 0x6d, 0x7b, 0x77, 0x09, 0x05, 0x39, 0x8e, 0xba, 0x3c, 0x44,
       0x40, 0x14]] ∧
    Keccak256 [zeroBlobCommitment] =
      [0x08, 0x62, 0x46, 0x52, 0x85, 0x9a, 0x6e, 0x98, 0xff, 0xc1, 0x60, 0x8e, 0x2a, 0xf0, 0x14,
       0x7c, 0xa4, 0xe8, 0x6e, 0x1c, 0xe2, 0x76, 0x72, 0xd8, 0xd3, 0xf3, 0xc9, 0xd4, 0xff, 0xd6,
       0xef, 0x7e] ∧
    ¬ (∀ vh, Eip4844.blobVersionedHashes zeroBlobCommitment = .ok [vh] →
        vh.drop 1 = (Keccak256 [zeroBlobCommitment]).drop 1) := by
  have hsha : SHA256.sum256 zeroBlobCommitment =
      [0x5f, 0x06, 0x57, 0xf3, 0x75, 0x54, 0xc7, 0x81, 0x40, 0x2a, 0x22, 0x91, 0x7d, 0xee, 0x2f,
       0x75, 0xde, 0xf7, 0xab, 0x96, 0x6d, 0x7b, 0x77, 0x09, 0x05, 0x39, 0x8e, 0xba, 0x3c, 0x44,
       0x40, 0x14] := by decide!
  have hkec : Keccak256 [zeroBlobCommitment] =
      [0x08, 0x62, 0x46, 0x52, 0x85, 0x9a, 0x6e, 0x98, 0xff, 0xc1, 0x60, 0x8e, 0x2a, 0xf0, 0x14,
       0x7c, 0xa4, 0xe8, 0x6e, 0x1c, 0xe2, 0x76, 0x72, 0xd8, 0xd3, 0xf3, 0xc9, 0xd4, 0xff, 0xd6,
       0xef, 0x7e] := by decide!
  have hvh := blobVersionedHashes_eq zeroBlobCommitment
  rw [hsha] at hvh
  refine ⟨hvh, hkec, ?_⟩
  intro hall
  have := hall _ hvh
  rw [hkec] at this
  revert this
  decide

/-! ### Test vectors of the hash functions -/

/-- The SHA-256 digest of "abc", the first test vector of FIPS 180-4. -/
theorem sha256_abc :
    SHA256.sum256 [0x61, 0x62, 0x63] =
      [0xba, 0x78, 0x16, 0xbf, 0x8f, 0x01, 0xcf, 0xea, 0x41, 0x41, 0x40, 0xde, 0x5d, 0xae, 0x22,
       0x23, 0xb0, 0x03, 0x61, 0xa3, 0x96, 0x17, 0x7a, 0x9c, 0xb4, 0x10, 0xff, 0x61, 0xf2, 0x00,
       0x15, 0xad] := by
  decide!

/-- The Keccak-256 digest of the empty string. -/
theorem keccak256_empty :
    Keccak.sum256 [] =
      [0xc5, 0xd2, 0x46, 0x01, 0x86, 0xf7, 0x23, 0x3c, 0x92, 0x7e, 0x7d, 0xb2, 0xdc, 0xc7, 0x03,
       0xc0, 0xe5, 0x00, 0xb6, 0x53, 0xca, 0x82, 0x27, 0x3b, 0x7b, 0xfa, 0xd8, 0x04, 0x5d, 0x85,
       0xa4, 0x70] := by
  decide!

/-- The example of EIP-155: nonce 9, gas price 20 gwei, gas 21000, recipient
`0x35…35`, value 10^18, no data, chain id 1; the signing hash is `daf5a779…`. -/
theorem eip155_example :
    (Legacy.NewEIP155Signer 1).Hash
        { Nonce := 9, GasPrice := 20000000000, Gas := 21000,
          To := some ⟨List.replicate 20 0x35, rfl⟩, Value := 1000000000000000000, Data := [],
          V := 0, R := 0, S := 0 } =
      [0xda, 0xf5, 0xa7, 0x79, 0xae, 0x97, 0x2f, 0x97, 0x21, 0x97, 0x30, 0x3d, 0x7b, 0x57, 0x47,
       0x46, 0xc7, 0xef, 0x83, 0xea, 0xda, 0xc0, 0xf2, 0x79, 0x1a, 0xd2, 0x3d, 0xb9, 0x2e, 0x4c,
       0x8e, 0x53] := by
  decide!

/-! ### Bytes and the encoder -/

theorem byte_toNat (n : Nat) : (byte n).toNat = n % 256 := by
  simp [byte, UInt8.ofNat, UInt8.toNat]

theorem byte_add (a b : Nat) : byte a + byte b = byte (a + b) := by
  apply UInt8.ext
  rw [UInt8.toNat_add, byte_toNat, byte_toNat, byte_toNat]
  show (a % 256 + b % 256) % 256 = (a + b) % 256
  omega

theorem byte_lit (n : Nat) : (OfNat.ofNat n : UInt8) = byte n := rfl

theorem uint8_lt_iff (x y : UInt8) : x < y ↔ x.toNat < y.toNat := by
  rw [UInt8.lt_def, BitVec.lt_def]
  rfl

theorem uint8_le_iff (x y : UInt8) : x ≤ y ↔ x.toNat ≤ y.toNat := by
  rw [UInt8.le_def, BitVec.le_def]
  rfl

theorem natToBEAux_fuel (fuel n : Nat) (h : n ≤ fuel) : natToBEAux fuel n = natToBEAux n n := by
  induction fuel using Nat.strong_induction_on generalizing n with
  | _ fuel ih =>
    cases fuel with
    | zero =>
      have : n = 0 := by omega
      subst this
      rfl
    | succ f =>
      cases n with
      | zero => simp [natToBEAux]
      | succ m =>
        simp only [natToBEAux]
        have h1 : (m + 1) / 256 ≤ m := by omega
        rw [ih f (by omega) _ (by omega), ih m (by omega) _ h1]

theorem natToBE_zero : natToBE 0 = [] := rfl

theorem natToBE_pos (n : Nat) (h : 0 < n) : natToBE n = natToBE (n / 256) ++ [byte n] := by
  unfold natToBE
  cases n with
  | zero => omega
  | succ m =>
    simp only [natToBEAux]
    rw [natToBEAux_fuel m _ (by omega)]
    simp

theorem natToBE_lt_256 (n : Nat) (h0 : 0 < n) (h : n < 256) : natToBE n = [byte n] := by
  rw [natToBE_pos n h0, Nat.div_eq_of_lt h, natToBE_zero]
  rfl

theorem natToBE_length_le (k n : Nat) (h : n < 256 ^ k) : (natToBE n).length ≤ k := by
  induction k generalizing n with
  | zero =>
    have : n = 0 := by simpa using h
    subst this
    simp [natToBE_zero]
  | succ k ih =>
    rcases Nat.eq_zero_or_pos n with h0 | h0
    · subst h0
      simp [natToBE_zero]
    · rw [natToBE_pos n h0, List.length_append]
      have : n / 256 < 256 ^ k := by
        rw [Nat.div_lt_iff_lt_mul (by norm_num)]
        rw [pow_succ] at h
        exact h
      have := ih _ this
      simp only [List.length_singleton]
      omega

theorem natToBE_length_pos (n : Nat) (h : 0 < n) : 0 < (natToBE n).length := by
  rw [natToBE_pos n h, List.length_append]
  simp

theorem natToBE_length_ge (k n : Nat) (h : 256 ^ k ≤ n) : k < (natToBE n).length := by
  induction k generalizing n with
  | zero => exact natToBE_length_pos n (by simpa using h)
  | succ k ih =>
    have hpos : 0 < n := lt_of_lt_of_le (by positivity) h
    rw [natToBE_pos n hpos, List.length_append]
    have : 256 ^ k ≤ n / 256 := by
      rw [Nat.le_div_iff_mul_le (by norm_num)]
      rw [pow_succ] at h
      exact h
    have := ih _ this
    simp only [List.length_singleton]
    omega

theorem natToBE_shift (n j : Nat) (h : 0 < n >>> j) :
    natToBE (n >>> j) = natToBE (n >>> (j + 8)) ++ [byte (n >>> j)] := by
  rw [natToBE_pos _ h, Nat.shiftRight_add, Nat.shiftRight_eq_div_pow (n >>> j) 8]

theorem natToBE_shift_zero (n j : Nat) (h : n >>> j = 0) : natToBE (n >>> j) = [] := by
  rw [h, natToBE_zero]

theorem putint_eq_natToBE (i : Nat) (h0 : 0 < i) (h : i < 2 ^ 64) :
    rlp.putint i = natToBE i := by
  have e0 : natToBE i = natToBE (i >>> 0) := rfl
  have s8 : i >>> 8 = i / 2 ^ 8 := Nat.shiftRight_eq_div_pow i 8
  have s16 : i >>> 16 = i / 2 ^ 16 := Nat.shiftRight_eq_div_pow i 16
  have s24 : i >>> 24 = i / 2 ^ 24 := Nat.shiftRight_eq_div_pow i 24
  have s32 : i >>> 32 = i / 2 ^ 32 := Nat.shiftRight_eq_div_pow i 32
  have s40 : i >>> 40 = i / 2 ^ 40 := Nat.shiftRight_eq_div_pow i 40
  have s48 : i >>> 48 = i / 2 ^ 48 := Nat.shiftRight_eq_div_pow i 48
  have s56 : i >>> 56 = i / 2 ^ 56 := Nat.shiftRight_eq_div_pow i 56
  have s64 : i >>> 64 = i / 2 ^ 64 := Nat.shiftRight_eq_div_pow i 64
  have p0 : 0 < i >>> 0 := h0
  unfold rlp.putint
  split_ifs with c1 c2 c3 c4 c5 c6 c7
  · rw [e0, natToBE_shift i 0 p0, natToBE_shift_zero i 8 (by omega)]
    rfl
  · rw [e0, natToBE_shift i 0 p0, natToBE_shift i 8 (by omega),
      natToBE_shift_zero i 16 (by omega)]
    rfl
  · rw [e0, natToBE_shift i 0 p0, natToBE_shift i 8 (by omega), natToBE_shift i 16 (by omega),
      natToBE_shift_zero i 24 (by omega)]
    rfl
  · rw [e0, natToBE_shift i 0 p0, natToBE_shift i 8 (by omega), natToBE_shift i 16 (by omega),
      natToBE_shift i 24 (by omega), natToBE_shift_zero i 32 (by omega)]
    rfl
  · rw [e0, natToBE_shift i 0 p0, natToBE_shift i 8 (by omega), natToBE_shift i 16 (by omega),
      natToBE_shift i 24 (by omega), natToBE_shift i 32 (by omega),
      natToBE_shift_zero i 40 (by omega)]
    rfl
  · rw [e0, natToBE_shift i 0 p0, natToBE_shift i 8 (by omega), natToBE_shift i 16 (by omega),
      natToBE_shift i 24 (by omega), natToBE_shift i 32 (by omega), natToBE_shift i 40 (by omega),
      natToBE_shift_zero i 48 (by omega)]
    rfl
  · rw [e0, natToBE_shift i 0 p0, natToBE_shift i 8 (by omega), natToBE_shift i 16 (by omega),
      natToBE_shift i 24 (by omega), natToBE_shift i 32 (by omega), natToBE_shift i 40 (by omega),
      natToBE_shift i 48 (by omega), natToBE_shift_zero i 56 (by omega)]
    rfl
  · rw [e0, natToBE_shift i 0 p0, natToBE_shift i 8 (by omega), natToBE_shift i 16 (by omega),
      natToBE_shift i 24 (by omega), natToBE_shift i 32 (by omega), natToBE_shift i 40 (by omega),
      natToBE_shift i 48 (by omega), natToBE_shift i 56 (by omega),
      natToBE_shift_zero i 64 (by omega)]
    rfl

theorem encode_str_of_length_ne_one (b : Bytes) (h : b.length ≠ 1) :
    RLP.encode (.str b) = RLP.lengthPrefix 0x80 b.length ++ b := by
  match b, h with
  | [], _ => simp [RLP.encode]
  | [x], h => simp at h
  | x :: y :: rest, _ => simp [RLP.encode]

theorem putint_length_le (i : Nat) : (rlp.putint i).length ≤ 8 := by
  unfold rlp.putint
  split_ifs <;> simp

theorem putint_length_pos (i : Nat) : 0 < (rlp.putint i).length := by
  unfold rlp.putint
  split_ifs <;> simp

theorem encodeStringHeader_eq (size : Nat) (h : size < 2 ^ 64) :
    rlp.encodeStringHeader size = RLP.lengthPrefix 0x80 size := by
  unfold rlp.encodeStringHeader RLP.lengthPrefix
  split_ifs with c
  · rw [byte_lit 0x80, byte_add]
  · rw [putint_eq_natToBE size (by omega) h, byte_lit 0xB7]
    dsimp only
    rw [byte_add]

theorem listHeader_eq (size : Nat) (h : size < 2 ^ 64) :
    rlp.listHeader size = RLP.lengthPrefix 0xc0 size := by
  unfold rlp.listHeader RLP.lengthPrefix
  split_ifs with c
  · rw [byte_lit 0xC0, byte_add]
  · rw [putint_eq_natToBE size (by omega) h, byte_lit 0xF7]
    dsimp only
    rw [byte_add]

theorem writeBytes_eq (b : Bytes) (h : b.length < 2 ^ 64) :
    rlp.writeBytes b = RLP.encode (.str b) := by
  match b, h with
  | [], _ => simp [rlp.writeBytes, RLP.encode, encodeStringHeader_eq]
  | [x], _ =>
    have hx : x ≤ 0x7F ↔ x < 0x80 := by
      rw [uint8_le_iff, uint8_lt_iff]
      show x.toNat ≤ 127 ↔ x.toNat < 128
      omega
    simp only [rlp.writeBytes, RLP.encode, hx, encodeStringHeader_eq 1 (by norm_num)]
  | x :: y :: rest, h =>
    simp only [rlp.writeBytes, RLP.encode]
    rw [encodeStringHeader_eq _ h]

theorem writeUint64_eq (n : Nat) (h : n < 2 ^ 64) :
    rlp.writeUint64 n = RLP.encode (RLP.int n) := by
  unfold rlp.writeUint64 RLP.int
  split_ifs with c0 c1
  · subst c0
    rfl
  · have hlt : byte n < 0x80 := by
      rw [uint8_lt_iff, byte_toNat]
      show n % 256 < 128
      omega
    rw [natToBE_lt_256 n (by omega) (by omega)]
    simp only [RLP.encode, hlt, if_true]
  · by_cases c2 : n < 256
    · have hge : ¬ (byte n < 0x80) := by
        rw [uint8_lt_iff, byte_toNat]
        show ¬ (n % 256 < 128)
        omega
      rw [putint_eq_natToBE n (by omega) h, natToBE_lt_256 n (by omega) c2]
      simp only [RLP.encode, hge, if_false]
      rfl
    · have hlen : 1 < (natToBE n).length := natToBE_length_ge 1 n (by omega)
      have hle : (natToBE n).length ≤ 8 := natToBE_length_le 8 n (by norm_num; omega)
      rw [encode_str_of_length_ne_one _ (by omega), putint_eq_natToBE n (by omega) h]
      unfold RLP.lengthPrefix
      rw [if_pos (by omega), byte_lit 0x80]
      dsimp only
      rw [byte_add]
      rfl

theorem writeBigInt_eq (n : Nat) (h : n < 2 ^ 256) :
    rlp.writeBigInt n = RLP.encode (RLP.int n) := by
  unfold rlp.writeBigInt
  split_ifs with c
  · exact writeUint64_eq n c
  · have hlen : 8 < (natToBE n).length := natToBE_length_ge 8 n (by norm_num; omega)
    have hle : (natToBE n).length ≤ 32 := natToBE_length_le 32 n (by norm_num; omega)
    unfold RLP.int
    rw [encode_str_of_length_ne_one _ (by omega), encodeStringHeader_eq _ (by omega)]

theorem writeByteArray_eq (a : Address) : rlp.writeByteArray a = RLP.encode (.str a.bytes) := by
  unfold rlp.writeByteArray
  rw [encode_str_of_length_ne_one _ (by rw [a.size]; omega),
    encodeStringHeader_eq _ (by rw [a.size]; omega)]

theorem writeValue_eq (v : rlp.GoValue) (h : v.wellFormed) :
    rlp.writeValue v = .ok (RLP.encode v.toItem) := by
  cases v with
  | uint n => simp only [rlp.writeValue, rlp.GoValue.toItem, writeUint64_eq n h]
  | bigInt i =>
    obtain ⟨h0, h1⟩ := h
    have h2 : ¬ (i < 0) := by omega
    have h3 : i.toNat < 2 ^ 256 := by omega
    simp only [rlp.writeValue, rlp.writeBigIntPtr, h2, if_false, rlp.GoValue.toItem,
      writeBigInt_eq _ h3]
  | byteSlice b =>
    have hb : b.length < 2 ^ 32 := h
    simp only [rlp.writeValue, rlp.GoValue.toItem, writeBytes_eq b (by omega)]
  | address a => simp only [rlp.writeValue, rlp.GoValue.toItem, writeByteArray_eq]
  | addressPtr a =>
    cases a with
    | none =>
      simp only [rlp.writeValue, rlp.GoValue.toItem]
      rfl
    | some a => simp only [rlp.writeValue, rlp.GoValue.toItem, writeByteArray_eq]

theorem lengthPrefix_length_le (offset len : Nat) (h : len < 2 ^ 64) :
    (RLP.lengthPrefix offset len).length ≤ 9 := by
  unfold RLP.lengthPrefix
  split_ifs
  · simp
  · have := natToBE_length_le 8 len (by norm_num; omega)
    simp only [List.length_cons]
    omega

theorem encode_str_length_le (b : Bytes) (h : b.length < 2 ^ 64) :
    (RLP.encode (.str b)).length ≤ b.length + 9 := by
  by_cases h1 : b.length = 1
  · rw [← writeBytes_eq b h]
    match b, h1 with
    | [x], _ =>
      simp only [rlp.writeBytes]
      split_ifs
      · simp
      · rw [encodeStringHeader_eq 1 (by norm_num)]
        have := lengthPrefix_length_le 0x80 1 (by norm_num)
        simp only [List.length_append, List.length_singleton]
        omega
  · rw [encode_str_of_length_ne_one b h1, List.length_append]
    have := lengthPrefix_length_le 0x80 b.length h
    omega

theorem encode_int_length_le (k n : Nat) (hk : k < 2 ^ 63) (h : n < 256 ^ k) :
    (RLP.encode (RLP.int n)).length ≤ k + 9 := by
  have hle := natToBE_length_le k n h
  have := encode_str_length_le (natToBE n) (by omega)
  unfold RLP.int
  omega

theorem encode_toItem_length_le (v : rlp.GoValue) (h : v.wellFormed) :
    (RLP.encode v.toItem).length ≤ 2 ^ 32 + 9 := by
  cases v with
  | uint n =>
    have := encode_int_length_le 8 n (by norm_num) (by norm_num; exact h)
    simp only [rlp.GoValue.toItem]
    omega
  | bigInt i =>
    obtain ⟨h0, h1⟩ := h
    have := encode_int_length_le 32 i.toNat (by norm_num) (by norm_num; omega)
    simp only [rlp.GoValue.toItem]
    omega
  | byteSlice b =>
    have hb : b.length < 2 ^ 32 := h
    have := encode_str_length_le b (by omega)
    simp only [rlp.GoValue.toItem]
    omega
  | address a =>
    have := encode_str_length_le a.bytes (by rw [a.size]; omega)
    rw [a.size] at this
    simp only [rlp.GoValue.toItem]
    omega
  | addressPtr a =>
    cases a with
    | none => simp [rlp.GoValue.toItem, RLP.encode, RLP.lengthPrefix]
    | some a =>
      have := encode_str_length_le a.bytes (by rw [a.size]; omega)
      rw [a.size] at this
      simp only [rlp.GoValue.toItem]
      omega

theorem writeValues_eq (vs : List rlp.GoValue) (h : ∀ v ∈ vs, v.wellFormed) :
    rlp.writeValues vs = .ok (RLP.encodeItems (vs.map rlp.GoValue.toItem)) ∧
      (RLP.encodeItems (vs.map rlp.GoValue.toItem)).length ≤ vs.length * (2 ^ 32 + 9) := by
  induction vs with
  | nil => exact ⟨rfl, by simp [RLP.encodeItems]⟩
  | cons v vs ih =>
    have hv := h v (List.mem_cons_self v vs)
    obtain ⟨ih1, ih2⟩ := ih (fun w hw => h w (List.mem_cons_of_mem v hw))
    have hlen := encode_toItem_length_le v hv
    constructor
    · simp only [rlp.writeValues, writeValue_eq v hv, ih1, bind, Except.bind, pure, Except.pure,
        List.map_cons, RLP.encodeItems]
    · simp only [List.map_cons, RLP.encodeItems, List.length_append, List.length_cons]
      rw [Nat.add_mul]
      omega

/-- The Go encoder refines the encoding of the protocol: on well-formed values,
fewer than `2 ^ 31` of them, `rlp.EncodeToBytes` returns the encoding of the list
of the items the values stand for. -/
theorem encodeToBytes_eq (vs : List rlp.GoValue) (h : ∀ v ∈ vs, v.wellFormed)
    (hlen : vs.length < 2 ^ 31) :
    rlp.EncodeToBytes vs = .ok (RLP.encode (.list (vs.map rlp.GoValue.toItem))) := by
  obtain ⟨h1, h2⟩ := writeValues_eq vs h
  have hbound : (RLP.encodeItems (vs.map rlp.GoValue.toItem)).length < 2 ^ 64 := by
    have : vs.length * (2 ^ 32 + 9) ≤ 2 ^ 31 * (2 ^ 32 + 9) := Nat.mul_le_mul_right _ (by omega)
    have h3 : 2 ^ 31 * (2 ^ 32 + 9) < 2 ^ 64 := by norm_num
    omega
  simp only [rlp.EncodeToBytes, h1, bind, Except.bind, pure, Except.pure, RLP.encode,
    listHeader_eq _ hbound]

/-! ### Delegation authorization -/

theorem int64_of_lt (n : Nat) (h : n < 2 ^ 63) : int64 n = (n : Int) := by
  have h1 : n % 2 ^ 64 = n := Nat.mod_eq_of_lt (by omega)
  unfold int64
  rw [h1, if_pos h]

theorem int64_of_ge (n : Nat) (h : 2 ^ 63 ≤ n) (h64 : n < 2 ^ 64) :
    int64 n = (n : Int) - 2 ^ 64 := by
  have h1 : n % 2 ^ 64 = n := Nat.mod_eq_of_lt h64
  unfold int64
  rw [h1, if_neg (by omega)]

theorem signEIP7702Delegation_eq (Sign : Signer) (priv : PrivateKey) (chainID : Int)
    (from_ : Address) (nonce : Nat) (hc0 : 0 ≤ chainID) (hc : chainID < 2 ^ 63)
    (hn : nonce < 2 ^ 63) :
    Eip7702.signEIP7702Delegation Sign priv chainID from_ nonce
      = Sign (Spec.authorizationDigest chainID.toNat from_ nonce) priv := by
  have henc := encodeToBytes_eq
    [.bigInt chainID, .address from_, .bigInt (int64 nonce)]
    (by
      intro v hv
      simp only [List.mem_cons, List.mem_singleton, List.not_mem_nil, or_false] at hv
      rcases hv with rfl | rfl | rfl
      · exact ⟨hc0, by omega⟩
      · trivial
      · rw [int64_of_lt nonce hn]
        exact ⟨by omega, by omega⟩)
    (by simp)
  unfold Eip7702.signEIP7702Delegation
  rw [henc, int64_of_lt nonce hn]
  simp only [bind, Except.bind, Keccak256Hash, Keccak256, List.flatten, List.append_nil,
    List.singleton_append, List.map, rlp.GoValue.toItem, Int.toNat_ofNat,
    Spec.authorizationDigest]

theorem signEIP7702Delegation_negative_chain (Sign : Signer) (priv : PrivateKey) (chainID : Int)
    (from_ : Address) (nonce : Nat) (hc : chainID < 0) :
    Eip7702.signEIP7702Delegation Sign priv chainID from_ nonce
      = .error (.error "rlp: cannot encode negative big.Int") := by
  simp [Eip7702.signEIP7702Delegation, rlp.EncodeToBytes, rlp.writeValues, rlp.writeValue,
    rlp.writeBigIntPtr, hc, bind, Except.bind]

theorem signEIP7702Delegation_large_nonce (Sign : Signer) (priv : PrivateKey) (chainID : Int)
    (from_ : Address) (nonce : Nat) (hn : 2 ^ 63 ≤ nonce) (h64 : nonce < 2 ^ 64) :
    Eip7702.signEIP7702Delegation Sign priv chainID from_ nonce
      = .error (.error "rlp: cannot encode negative big.Int") := by
  have hneg : int64 nonce < 0 := by
    rw [int64_of_ge nonce hn h64]
    omega
  by_cases hc : chainID < 0
  · exact signEIP7702Delegation_negative_chain Sign priv chainID from_ nonce hc
  · simp [Eip7702.signEIP7702Delegation, rlp.EncodeToBytes, rlp.writeValues, rlp.writeValue,
      rlp.writeBigIntPtr, hc, hneg, bind, Except.bind, pure, Except.pure]

/-- C6 fails on the code: at the chain id 80002, the delegate target of the
program and the authorization nonce `2 ^ 63`, a `uint64`, the preimage the claim
names is the byte `0x05` followed by the 35 bytes of the encoded list, and its
digest starts `d0 95 67 2f`; `signEIP7702Delegation` does not sign it: whatever
the signer and the key, it returns the encoder's error, since `int64(nonce)` is
negative, and so it does for every nonce from `2 ^ 63` up to `2 ^ 64 - 1`.  For
every chain id `c` with `0 ≤ c < 2 ^ 63` and every nonce below `2 ^ 63` the
function signs exactly the digest of `0x05` followed by the encoding of the list
(chain id, delegate target as a 20-byte string, nonce) and returns what the
signer returns for it; at the nonce 7 the preimage is `0x05` followed by the 27
bytes of the list. -/
theorem delegation_digest_unsigned_above_int63 :
    (0x05 :: RLP.encode (.list [RLP.int 80002, .str Eip7702.moduleAddr.bytes, RLP.int (2 ^ 63)])
      = [0x05, 0xe2, 0x83, 0x01, 0x38, 0x82, 0x94, 0x4f, 0x9c, 0x96, 0x91, 0x5a, 0x9c, 0xe8,
         0xcd, 0x5e, 0xb1, 0x1a, 0x2c, 0x35, 0xab, 0x58, 0x7f, 0xc9, 0x7d, 0x51, 0x26, 0x88,
         0x80, 0x00, 0x00, 0x00, 0x00, 0x00, 0x00, 0x00]) ∧
    Spec.authorizationDigest 80002 Eip7702.moduleAddr (2 ^ 63)
      = [0xd0, 0x95, 0x67, 0x2f, 0x5d, 0x3f, 0x0a, 0xf0, 0x01, 0xa4, 0x1f, 0x5a, 0xb8, 0xfa,
         0x3c, 0x60, 0x45, 0xf8, 0x32, 0x79, 0xd6, 0xce, 0xbf, 0xc9, 0xef, 0x55, 0x00, 0x54,
         0xfc, 0x3e, 0xd6, 0xbc] ∧
    (∀ (Sign : Signer) (priv : PrivateKey),
      Eip7702.signEIP7702Delegation Sign priv 80002 Eip7702.moduleAddr (2 ^ 63)
        = .error (.error "rlp: cannot encode negative big.Int")) ∧
    Eip7702.signEIP7702Delegation sampleSign sampleAccount1.Priv 80002 Eip7702.moduleAddr (2 ^ 63)
      ≠ sampleSign (Spec.authorizationDigest 80002 Eip7702.moduleAddr (2 ^ 63))
          sampleAccount1.Priv ∧
    (∀ (Sign : Signer) (priv : PrivateKey) (chainID : Int) (from_ : Address) (nonce : Nat),
      2 ^ 63 ≤ nonce → nonce < 2 ^ 64 →
      Eip7702.signEIP7702Delegation Sign priv chainID from_ nonce
        = .error (.error "rlp: cannot encode negative big.Int")) ∧
    (∀ (Sign : Signer) (priv : PrivateKey) (chainID : Int) (from_ : Address) (nonce : Nat),
      0 ≤ chainID → chainID < 2 ^ 63 → nonce < 2 ^ 63 →
      Eip7702.signEIP7702Delegation Sign priv chainID from_ nonce
        = Sign (Keccak.sum256 (0x05 :: RLP.encode
            (.list [RLP.int chainID.toNat, .str from_.bytes, RLP.int nonce]))) priv ∧
      Spec.authorizationDigest chainID.toNat from_ nonce
        = Keccak.sum256 (0x05 :: RLP.encode
            (.list [RLP.int chainID.toNat, .str from_.bytes, RLP.int nonce]))) ∧
    Eip7702.signEIP7702Delegation sampleSign sampleAccount1.Priv 80002 Eip7702.moduleAddr 7
      = sampleSign (Keccak.sum256 (0x05 :: RLP.encode
          (.list [RLP.int 80002, .str Eip7702.moduleAddr.bytes, RLP.int 7]))) sampleAccount1.Priv ∧
    0x05 :: RLP.encode (.list [RLP.int 80002, .str Eip7702.moduleAddr.bytes, RLP.int 7])
      = [0x05, 0xda, 0x83, 0x01, 0x38, 0x82, 0x94, 0x4f, 0x9c, 0x96, 0x91, 0x5a, 0x9c, 0xe8,
         0xcd, 0x5e, 0xb1, 0x1a, 0x2c, 0x35, 0xab, 0x58, 0x7f, 0xc9, 0x7d, 0x51, 0x26, 0x07] := by
  have hbig : ∀ (Sign : Signer) (priv : PrivateKey),
      Eip7702.signEIP7702Delegation Sign priv 80002 Eip7702.moduleAddr (2 ^ 63)
        = .error (.error "rlp: cannot encode negative big.Int") := fun Sign priv =>
    signEIP7702Delegation_large_nonce Sign priv 80002 Eip7702.moduleAddr (2 ^ 63)
      (by norm_num) (by norm_num)
  refine ⟨by decide, by decide!, hbig, ?_, ?_, ?_, ?_, by decide⟩
  · intro h
    rw [hbig] at h
    simp [sampleSign] at h
  · intro Sign priv chainID from_ nonce h1 h2
    exact signEIP7702Delegation_large_nonce Sign priv chainID from_ nonce h1 h2
  · intro Sign priv chainID from_ nonce hc0 hc hn
    exact ⟨signEIP7702Delegation_eq Sign priv chainID from_ nonce hc0 hc hn, rfl⟩
  · exact signEIP7702Delegation_eq sampleSign sampleAccount1.Priv 80002 Eip7702.moduleAddr 7
      (by decide) (by decide) (by decide)

/-! ### Typed-data digest -/

theorem goSlice_ok (b : Bytes) (lo hi : Nat) (h1 : lo ≤ hi) (h2 : hi ≤ b.length) :
    goSlice b lo hi = .ok ((b.take hi).drop lo) := by
  unfold goSlice
  rw [if_pos ⟨h1, h2⟩]

theorem goIndex_ok {α : Type} (xs : List α) (i : Nat) (v : α) (h : xs[i]? = some v) :
    goIndex xs (i : Int) = .ok v := by
  have h1 : ¬ ((i : Int) < 0) := by omega
  unfold goIndex
  rw [if_neg h1, Int.toNat_ofNat, h]

theorem keccak256_three (a b c : Bytes) : Keccak256 [a, b, c] = Keccak.sum256 (a ++ b ++ c) := by
  simp [Keccak256, List.flatten]

theorem eip712_main_ok (lib : Eip712.Library) (Sign : Signer) (now : Int) (acc2 : Account)
    (d m sig : Bytes) (v : UInt8)
    (hd : lib.HashStruct (Eip712.typedData lib now acc2.Addr) "EIP712Domain"
      (Eip712.typedData lib now acc2.Addr).Domain.Map = .ok d)
    (hm : lib.HashStruct (Eip712.typedData lib now acc2.Addr) "Permit"
      (Eip712.typedData lib now acc2.Addr).Message = .ok m)
    (hsig : Sign (Spec.typedDataDigest d m) acc2.Priv = .ok sig) (hlen : sig.length = 65)
    (hv : sig[64]? = some v) :
    Eip712.main lib Sign now acc2 = .ok
      { domainSep := d, msgHash := m, digest := Keccak.sum256 ([0x19, 0x01] ++ d ++ m),
        sig := sig, r := Eip712.BytesToHash (sig.take 32),
        s := Eip712.BytesToHash ((sig.take 64).drop 32), v := v + 27 } := by
  have hsig' : Sign (Keccak.sum256 ([0x19, 0x01] ++ d ++ m)) acc2.Priv = .ok sig := hsig
  have hi : goIndex sig ((64 : Nat) : Int) = .ok v := goIndex_ok sig 64 v hv
  have hi' : goIndex sig 64 = .ok v := hi
  unfold Eip712.main
  simp only [hd, hm, ignoreErr, keccak256_three, hsig', goSlice_ok sig 0 32 (by omega) (by omega),
    goSlice_ok sig 32 64 (by omega) (by omega), hi', bind, Except.bind, pure, Except.pure,
    List.drop_zero]

/-- C7: for the descriptor the program builds, whose primary type is "Permit",
when the struct hash of the domain under "EIP712Domain" is `d` and the struct
hash of the message under "Permit" is `m`, the digest handed to the signer is the
digest of `0x19 ‖ 0x01 ‖ d ‖ m`; when `d` and `m` are 32 bytes the preimage is
exactly 66 bytes, in that order. -/
theorem typed_data_signing_digest (lib : Eip712.Library) (Sign : Signer) (now : Int)
    (acc2 : Account) (d m sig : Bytes)
    (hd : lib.HashStruct (Eip712.typedData lib now acc2.Addr) "EIP712Domain"
      (Eip712.typedData lib now acc2.Addr).Domain.Map = .ok d)
    (hm : lib.HashStruct (Eip712.typedData lib now acc2.Addr) "Permit"
      (Eip712.typedData lib now acc2.Addr).Message = .ok m)
    (hsig : Sign (Spec.typedDataDigest d m) acc2.Priv = .ok sig) (hlen : sig.length = 65) :
    (Eip712.typedData lib now acc2.Addr).PrimaryType = "Permit" ∧
    ∃ out, Eip712.main lib Sign now acc2 = .ok out ∧
      out.domainSep = d ∧ out.msgHash = m ∧
      out.digest = Keccak.sum256 ([0x19, 0x01] ++ d ++ m) ∧
      Sign out.digest acc2.Priv = .ok out.sig ∧
      (d.length = 32 → m.length = 32 →
        ([0x19, 0x01] ++ d ++ m).length = 66 ∧
        ([0x19, 0x01] ++ d ++ m).take 2 = [0x19, 0x01] ∧
        (([0x19, 0x01] ++ d ++ m).drop 2).take 32 = d ∧
        ([0x19, 0x01] ++ d ++ m).drop 34 = m) := by
  obtain ⟨v, hv⟩ : ∃ v, sig[64]? = some v :=
    ⟨sig[64], List.getElem?_eq_getElem (by omega)⟩
  refine ⟨rfl, _, eip712_main_ok lib Sign now acc2 d m sig v hd hm hsig hlen hv, rfl, rfl, rfl,
    hsig, ?_⟩
  intro hdl hml
  refine ⟨?_, ?_, ?_, ?_⟩
  · simp [hdl, hml]
  · simp
  · simp only [List.append_assoc, List.cons_append, List.nil_append, List.drop_succ_cons,
      List.drop_zero]
    exact List.take_left' hdl
  · rw [List.append_assoc]
    exact List.drop_left' (show ([0x19, 0x01] ++ d : Bytes).length = 34 by simp [hdl])

/-- C7 on the sample library and signer, whose struct hashes are 32-byte digests. -/
theorem typed_data_signing_digest_witness :
    (Eip712.typedData sampleLibrary 1700000000 sampleAccount2.Addr).PrimaryType = "Permit" ∧
    ∃ out, Eip712.main sampleLibrary sampleSign 1700000000 sampleAccount2 = .ok out ∧
      out.digest = Keccak.sum256 ([0x19, 0x01] ++ out.domainSep ++ out.msgHash) ∧
      ([0x19, 0x01] ++ out.domainSep ++ out.msgHash).length = 66 := by
  obtain ⟨hp, out, hmain, h1, h2, h3, -, h5⟩ :=
    typed_data_signing_digest sampleLibrary sampleSign 1700000000 sampleAccount2
      (Keccak.sum256 ("EIP712Domain".toList.map (fun ch => byte ch.toNat)))
      (Keccak.sum256 ("Permit".toList.map (fun ch => byte ch.toNat)))
      (Spec.typedDataDigest
          (Keccak.sum256 ("EIP712Domain".toList.map (fun ch => byte ch.toNat)))
          (Keccak.sum256 ("Permit".toList.map (fun ch => byte ch.toNat)))
        ++ Keccak.sum256 (Spec.typedDataDigest
          (Keccak.sum256 ("EIP712Domain".toList.map (fun ch => byte ch.toNat)))
          (Keccak.sum256 ("Permit".toList.map (fun ch => byte ch.toNat))))
        ++ [byte (sampleAccount2.Priv.D % 2)])
      rfl rfl rfl
      (by simp only [List.length_append, keccak256_length, Spec.typedDataDigest,
            List.length_singleton])
  refine ⟨hp, out, hmain, ?_, ?_⟩
  · rw [h1, h2, h3]
  · rw [h1, h2]
    exact (h5 (keccak256_length _) (keccak256_length _)).1

/-! ### Legacy transaction under replay protection -/

theorem legacy_hash_eq (nonce : Nat) (gasPrice : Int) (acc2Addr : Address)
    (hn : nonce < 2 ^ 64) (h0 : 0 ≤ gasPrice) (h1 : gasPrice < 2 ^ 256) :
    (Legacy.NewEIP155Signer Legacy.AmoyChainID).Hash (Legacy.unsignedTx nonce gasPrice acc2Addr)
      = Keccak.sum256 (RLP.encode
          (Spec.legacySigningTuple nonce gasPrice.toNat 21000 acc2Addr 10000000000000000 []
            80002)) := by
  have henc := encodeToBytes_eq
    [.uint nonce, .bigInt gasPrice, .uint 21000, .addressPtr (some acc2Addr),
     .bigInt 10000000000000000, .byteSlice [], .bigInt 80002, .uint 0, .uint 0]
    (by
      intro v hv
      simp only [List.mem_cons, List.mem_singleton, List.not_mem_nil, or_false] at hv
      rcases hv with rfl | rfl | rfl | rfl | rfl | rfl | rfl | rfl | rfl
      · exact hn
      · exact ⟨h0, h1⟩
      · show 21000 < 2 ^ 64
        norm_num
      · trivial
      · exact ⟨by norm_num, by norm_num⟩
      · show 0 < 2 ^ 32
        norm_num
      · exact ⟨by norm_num, by norm_num⟩
      · show 0 < 2 ^ 64
        norm_num
      · show 0 < 2 ^ 64
        norm_num)
    (by simp)
  simp only [Legacy.EIP155Signer.Hash, Legacy.rlpHash, Legacy.EIP155Signer.signingFields,
    Legacy.NewEIP155Signer, Legacy.unsignedTx, Legacy.GasLimit, Legacy.ValueToSend,
    Legacy.AmoyChainID, henc, ignoreErr, List.map, rlp.GoValue.toItem, Spec.legacySigningTuple]
  rfl

theorem legacy_signatureValues (chainId : Int) (sig : Bytes) (p : UInt8) (hc : chainId ≠ 0)
    (hlen : sig.length = 65) (hp : sig[64]? = some p) :
    (Legacy.NewEIP155Signer chainId).SignatureValues sig
      = .ok ((beToNat (sig.take 32) : Int), (beToNat ((sig.take 64).drop 32) : Int),
          (((p + 35 : UInt8).toNat : Int)) + chainId * 2) := by
  have hi : goIndex sig 64 = .ok p := goIndex_ok sig 64 p hp
  have hne : ¬ (sig.length ≠ 65) := by omega
  simp only [Legacy.EIP155Signer.SignatureValues, Legacy.decodeSignature, Legacy.NewEIP155Signer,
    hne, if_false, goSlice_ok sig 0 32 (by omega) (by omega),
    goSlice_ok sig 32 64 (by omega) (by omega), hi, bind, Except.bind, pure, Except.pure,
    List.drop_zero, ne_eq, hc, not_false_eq_true, if_true]

theorem uint8_add_35 (p : UInt8) (h : p.toNat ≤ 1) : (p + 35 : UInt8).toNat = p.toNat + 35 := by
  rw [UInt8.toNat_add]
  show (p.toNat + 35) % 256 = p.toNat + 35
  omega

theorem legacy_main_ok (client : Client) (Sign : Signer) (acc1 acc2 : Account) (nonce : Nat)
    (gasPrice : Int) (sig : Bytes) (p : UInt8)
    (hnonce : client.PendingNonceAt acc1.Addr = .ok nonce) (hn : nonce < 2 ^ 64)
    (hprice : client.SuggestGasPrice = .ok gasPrice) (h0 : 0 ≤ gasPrice)
    (h1 : gasPrice < 2 ^ 256)
    (hsig : Sign (Keccak.sum256 (RLP.encode
      (Spec.legacySigningTuple nonce gasPrice.toNat 21000 acc2.Addr 10000000000000000 [] 80002)))
        acc1.Priv = .ok sig)
    (hlen : sig.length = 65) (hp : sig[64]? = some p) :
    Legacy.main client Sign acc1 acc2 = .ok
      { Nonce := nonce, GasPrice := gasPrice, Gas := 21000, To := some acc2.Addr,
        Value := 10000000000000000, Data := [],
        V := ((p + 35 : UInt8).toNat : Int) + 80002 * 2,
        R := (beToNat (sig.take 32) : Int), S := (beToNat ((sig.take 64).drop 32) : Int) } := by
  have hhash := legacy_hash_eq nonce gasPrice acc2.Addr hn h0 h1
  have hvals := legacy_signatureValues Legacy.AmoyChainID sig p (by decide) hlen hp
  unfold Legacy.main
  simp only [hnonce, hprice, orFatal, bind, Except.bind, Legacy.SignTx, hhash, hsig, hvals,
    pure, Except.pure]
  rfl

/-- C8: the legacy transaction is signed under replay protection for chain id
80002: the hash handed to the signer is the digest of the encoded nine-element
list (nonce, gasPrice, 21000, to, 10^16, empty data, 80002, 0, 0), and for a
signature whose last byte is the parity `p ≤ 1` the recovery value stored in the
signed transaction is `35 + 2 * 80002 + p`, that is 160039 or 160040, and not
`27 + p`. -/
theorem legacy_replay_protection (client : Client) (Sign : Signer) (acc1 acc2 : Account)
    (nonce : Nat) (gasPrice : Int) (sig : Bytes) (p : UInt8)
    (hnonce : client.PendingNonceAt acc1.Addr = .ok nonce) (hn : nonce < 2 ^ 64)
    (hprice : client.SuggestGasPrice = .ok gasPrice) (h0 : 0 ≤ gasPrice)
    (h1 : gasPrice < 2 ^ 256)
    (hsig : Sign (Keccak.sum256 (RLP.encode
      (.list [RLP.int nonce, RLP.int gasPrice.toNat, RLP.int 21000, .str acc2.Addr.bytes,
        RLP.int 10000000000000000, .str [], RLP.int 80002, RLP.int 0, RLP.int 0])))
        acc1.Priv = .ok sig)
    (hlen : sig.length = 65) (hp : sig[64]? = some p) (hpar : p.toNat ≤ 1) :
    (Legacy.NewEIP155Signer 80002).Hash (Legacy.unsignedTx nonce gasPrice acc2.Addr)
      = Keccak.sum256 (RLP.encode
          (.list [RLP.int nonce, RLP.int gasPrice.toNat, RLP.int 21000, .str acc2.Addr.bytes,
            RLP.int 10000000000000000, .str [], RLP.int 80002, RLP.int 0, RLP.int 0])) ∧
    ∃ tx, Legacy.main client Sign acc1 acc2 = .ok tx ∧
      tx.V = 35 + 2 * 80002 + (p.toNat : Int) ∧
      (tx.V = 160039 ∨ tx.V = 160040) ∧
      tx.V ≠ 27 + (p.toNat : Int) ∧
      tx.R = (beToNat (sig.take 32) : Int) ∧
      tx.S = (beToNat ((sig.take 64).drop 32) : Int) ∧
      tx.Nonce = nonce ∧ tx.GasPrice = gasPrice ∧ tx.To = some acc2.Addr := by
  have hV : ((p + 35 : UInt8).toNat : Int) + 80002 * 2 = 35 + 2 * 80002 + (p.toNat : Int) := by
    rw [uint8_add_35 p hpar]
    push_cast
    ring
  refine ⟨legacy_hash_eq nonce gasPrice acc2.Addr hn h0 h1, _,
    legacy_main_ok client Sign acc1 acc2 nonce gasPrice sig p hnonce hn hprice h0 h1 hsig hlen hp,
    hV, ?_, ?_, rfl, rfl, rfl, rfl, rfl⟩
  · show ((p + 35 : UInt8).toNat : Int) + 80002 * 2 = 160039 ∨
      ((p + 35 : UInt8).toNat : Int) + 80002 * 2 = 160040
    rw [hV]
    omega
  · show ((p + 35 : UInt8).toNat : Int) + 80002 * 2 ≠ 27 + (p.toNat : Int)
    rw [hV]
    omega

/-- C8 on the sample node and signer: pending nonce 7, a gas price of 30 gwei and
a signature with parity 1, so that the recovery value is 160040. -/
theorem legacy_replay_protection_witness :
    ∃ tx, Legacy.main (sampleClient [] 0) sampleSign sampleAccount1 sampleAccount2 = .ok tx ∧
      tx.V = 160040 ∧ tx.Nonce = 7 ∧ tx.GasPrice = 30000000000 := by
  obtain ⟨-, tx, hmain, hV, -, -, -, -, hN, hG, -⟩ :=
    legacy_replay_protection (sampleClient [] 0) sampleSign sampleAccount1 sampleAccount2 7
      30000000000
      (Keccak.sum256 (RLP.encode
          (.list [RLP.int 7, RLP.int 30000000000, RLP.int 21000,
            .str sampleAccount2.Addr.bytes, RLP.int 10000000000000000, .str [], RLP.int 80002,
            RLP.int 0, RLP.int 0]))
        ++ Keccak.sum256 (Keccak.sum256 (RLP.encode
          (.list [RLP.int 7, RLP.int 30000000000, RLP.int 21000,
            .str sampleAccount2.Addr.bytes, RLP.int 10000000000000000, .str [], RLP.int 80002,
            RLP.int 0, RLP.int 0])))
        ++ [1])
      1 rfl (by norm_num) rfl (by norm_num) (by norm_num) rfl
      (by simp only [List.length_append, keccak256_length, List.length_singleton])
      (by
        rw [List.getElem?_append_right (by
          simp only [List.length_append, keccak256_length]
          omega)]
        simp only [List.length_append, keccak256_length]
        rfl)
      (by decide)
  exact ⟨tx, hmain, hV, hN, hG⟩

/-! ### The SetCode transaction and its authorizations -/

theorem beToNat_foldl_lt (bs : Bytes) (acc : Nat) :
    bs.foldl (fun acc b => acc * 256 + b.toNat) acc < (acc + 1) * 256 ^ bs.length := by
  induction bs generalizing acc with
  | nil => simp
  | cons b bs ih =>
    have hb : b.toNat < 256 := b.toBitVec.isLt
    have h1 := ih (acc * 256 + b.toNat)
    have h2 : (acc * 256 + b.toNat + 1) * 256 ^ bs.length ≤ (acc + 1) * 256 * 256 ^ bs.length :=
      Nat.mul_le_mul_right _ (by omega)
    simp only [List.foldl_cons, List.length_cons, pow_succ]
    calc List.foldl (fun acc b => acc * 256 + b.toNat) (acc * 256 + b.toNat) bs
        < (acc * 256 + b.toNat + 1) * 256 ^ bs.length := h1
      _ ≤ (acc + 1) * 256 * 256 ^ bs.length := h2
      _ = (acc + 1) * (256 ^ bs.length * 256) := by ring

theorem beToNat_lt (bs : Bytes) : beToNat bs < 256 ^ bs.length := by
  have := beToNat_foldl_lt bs 0
  simpa [beToNat] using this

theorem mustFromBig_beToNat (bs : Bytes) (h : bs.length ≤ 32) :
    MustFromBig (beToNat bs : Int) = .ok (beToNat bs) := by
  have h1 := beToNat_lt bs
  have h2 : 256 ^ bs.length ≤ 256 ^ 32 := Nat.pow_le_pow_right (by norm_num) h
  have h3 : (256 : Nat) ^ 32 = 2 ^ 256 := by norm_num
  have h4 : ((beToNat bs : Nat) : Int) < 2 ^ 256 := by
    have : beToNat bs < 2 ^ 256 := by omega
    exact_mod_cast this
  rw [mustFromBig_of_lt _ (by omega) h4, Int.toNat_ofNat]

theorem eip7702_main_ok (client : Client) (Sign : Signer) (Pack : List Address → Result Bytes)
    (acc1 acc2 : Account) (data : Bytes) (n1 n2 : Nat) (t b : Int) (sig1 sig2 : Bytes)
    (v1 v2 : UInt8)
    (hpack : Pack [acc1.Addr, acc2.Addr] = .ok data)
    (hn2 : client.PendingNonceAt acc2.Addr = .ok n2)
    (hn1 : client.PendingNonceAt acc1.Addr = .ok n1)
    (htip : client.SuggestGasTipCap = .ok t)
    (hprice : client.SuggestGasPrice = .ok b)
    (hs2 : Eip7702.signEIP7702Delegation Sign acc2.Priv ((Eip7702.AmoyChainID : Nat) : Int)
      Eip7702.moduleAddr ((n2 + 1) % 2 ^ 64) = .ok sig2)
    (hs1 : Eip7702.signEIP7702Delegation Sign acc1.Priv ((Eip7702.AmoyChainID : Nat) : Int)
      Eip7702.moduleAddr n1 = .ok sig1)
    (hl1 : sig1.length = 65) (hl2 : sig2.length = 65)
    (hv1 : sig1[64]? = some v1) (hv2 : sig2[64]? = some v2)
    (ht : t.natAbs < 2 ^ 256) (hcap : (b + t).natAbs < 2 ^ 256) :
    Eip7702.main client Sign Pack acc1 acc2 = .ok
      { ChainID := 80002, Nonce := n2, GasTipCap := (t % 2 ^ 256).toNat,
        GasFeeCap := ((b + t) % 2 ^ 256).toNat, Gas := 120000, To := Eip7702.toAddr,
        Data := data,
        AuthList := [
          { ChainID := 80002, Address := Eip7702.moduleAddr, Nonce := n1, V := v1,
            R := beToNat (sig1.take 32), S := beToNat ((sig1.take 64).drop 32) },
          { ChainID := 80002, Address := Eip7702.moduleAddr, Nonce := (n2 + 1) % 2 ^ 64, V := v2,
            R := beToNat (sig2.take 32), S := beToNat ((sig2.take 64).drop 32) }] } := by
  have hi1 : goIndex sig1 64 = .ok v1 := goIndex_ok sig1 64 v1 hv1
  have hi2 : goIndex sig2 64 = .ok v2 := goIndex_ok sig2 64 v2 hv2
  have hr1 := mustFromBig_beToNat (sig1.take 32) (by simp)
  have hr2 := mustFromBig_beToNat (sig2.take 32) (by simp)
  have hS1 := mustFromBig_beToNat ((sig1.take 64).drop 32) (by simp)
  have hS2 := mustFromBig_beToNat ((sig2.take 64).drop 32) (by simp)
  unfold Eip7702.main
  simp only [hpack, hn2, hn1, htip, hprice, hs2, hs1, orFatal, bind, Except.bind, pure,
    Except.pure, goSlice_ok sig1 0 32 (by omega) (by omega),
    goSlice_ok sig1 32 64 (by omega) (by omega), goSlice_ok sig2 0 32 (by omega) (by omega),
    goSlice_ok sig2 32 64 (by omega) (by omega), hi1, hi2, List.drop_zero,
    mustFromBig_of_natAbs_lt t ht, mustFromBig_of_natAbs_lt _ hcap, hr1, hr2, hS1, hS2]
  rfl

theorem sampleSignature_length (priv : PrivateKey) (nonce : Nat) :
    (sampleSignature priv nonce).length = 65 := by
  simp only [sampleSignature, List.length_append, keccak256_length, Spec.authorizationDigest,
    List.length_singleton]

theorem sampleSignature_last (priv : PrivateKey) (nonce : Nat) :
    (sampleSignature priv nonce)[64]? = some (byte (priv.D % 2)) := by
  unfold sampleSignature
  rw [List.getElem?_append_right (by
    simp only [List.length_append, keccak256_length, Spec.authorizationDigest]
    omega)]
  simp only [List.length_append, keccak256_length, Spec.authorizationDigest]
  rfl

theorem sample_signEIP7702Delegation (priv : PrivateKey) (nonce : Nat) (h : nonce < 2 ^ 63) :
    Eip7702.signEIP7702Delegation sampleSign priv ((Eip7702.AmoyChainID : Nat) : Int)
      Eip7702.moduleAddr nonce = .ok (sampleSignature priv nonce) := by
  rw [signEIP7702Delegation_eq sampleSign priv _ Eip7702.moduleAddr nonce (by decide) (by decide) h]
  rfl

/-- C9: for the 65-byte signatures `signEIP7702Delegation` returns for the two
accounts, the program builds its transaction, and each authorization in it has
`V` equal to the last byte of its signature, unchanged, `R` equal to bytes 0..31
and `S` equal to bytes 32..63 read as big-endian unsigned integers. -/
theorem authorization_signature_values (client : Client) (Sign : Signer)
    (Pack : List Address → Result Bytes) (acc1 acc2 : Account) (data : Bytes) (n1 n2 : Nat)
    (t b : Int) (sig1 sig2 : Bytes)
    (hpack : Pack [acc1.Addr, acc2.Addr] = .ok data)
    (hn2 : client.PendingNonceAt acc2.Addr = .ok n2)
    (hn1 : client.PendingNonceAt acc1.Addr = .ok n1)
    (htip : client.SuggestGasTipCap = .ok t)
    (hprice : client.SuggestGasPrice = .ok b)
    (hs2 : Eip7702.signEIP7702Delegation Sign acc2.Priv ((Eip7702.AmoyChainID : Nat) : Int)
      Eip7702.moduleAddr ((n2 + 1) % 2 ^ 64) = .ok sig2)
    (hs1 : Eip7702.signEIP7702Delegation Sign acc1.Priv ((Eip7702.AmoyChainID : Nat) : Int)
      Eip7702.moduleAddr n1 = .ok sig1)
    (hl1 : sig1.length = 65) (hl2 : sig2.length = 65)
    (ht : t.natAbs < 2 ^ 256) (hcap : (b + t).natAbs < 2 ^ 256) :
    ∃ tx a1 a2, Eip7702.main client Sign Pack acc1 acc2 = .ok tx ∧ tx.AuthList = [a1, a2] ∧
      sig1[64]? = some a1.V ∧
      a1.R = beToNat (sig1.take 32) ∧
      a1.S = beToNat ((sig1.take 64).drop 32) ∧
      sig2[64]? = some a2.V ∧
      a2.R = beToNat (sig2.take 32) ∧
      a2.S = beToNat ((sig2.take 64).drop 32) := by
  obtain ⟨v1, hv1⟩ : ∃ v, sig1[64]? = some v := ⟨sig1[64], List.getElem?_eq_getElem (by omega)⟩
  obtain ⟨v2, hv2⟩ : ∃ v, sig2[64]? = some v := ⟨sig2[64], List.getElem?_eq_getElem (by omega)⟩
  exact ⟨_, _, _,
    eip7702_main_ok client Sign Pack acc1 acc2 data n1 n2 t b sig1 sig2 v1 v2 hpack hn2 hn1 htip
      hprice hs2 hs1 hl1 hl2 hv1 hv2 ht hcap,
    rfl, hv1, rfl, rfl, hv2, rfl, rfl⟩

/-- C9 on the sample node and signer: account 1 signs with parity 1 and
account 2 with parity 0, and these are the values of `V`. -/
theorem authorization_signature_values_witness :
    ∃ tx a1 a2, Eip7702.main (sampleClient [] 5) sampleSign samplePack sampleAccount1
        sampleAccount2 = .ok tx ∧ tx.AuthList = [a1, a2] ∧ a1.V = 1 ∧ a2.V = 0 ∧
      a1.R = beToNat ((sampleSignature sampleAccount1.Priv 7).take 32) ∧
      a2.S = beToNat (((sampleSignature sampleAccount2.Priv 8).take 64).drop 32) := by
  obtain ⟨tx, a1, a2, hmain, hlist, hv1, hr1, -, hv2, -, hs2⟩ :=
    authorization_signature_values (sampleClient [] 5) sampleSign samplePack sampleAccount1
      sampleAccount2 (sampleAccount1.Addr.bytes ++ (sampleAccount2.Addr.bytes ++ [])) 7 7 5
      30000000000 (sampleSignature sampleAccount1.Priv 7) (sampleSignature sampleAccount2.Priv 8)
      rfl rfl rfl rfl rfl
      (sample_signEIP7702Delegation sampleAccount2.Priv 8 (by norm_num))
      (sample_signEIP7702Delegation sampleAccount1.Priv 7 (by norm_num))
      (sampleSignature_length _ _) (sampleSignature_length _ _) (by decide) (by decide)
  rw [sampleSignature_last] at hv1 hv2
  refine ⟨tx, a1, a2, hmain, hlist, ?_, ?_, hr1, hs2⟩
  · have h : byte (sampleAccount1.Priv.D % 2) = a1.V := Option.some.inj hv1
    exact h.symm.trans (by decide)
  · have h : byte (sampleAccount2.Priv.D % 2) = a2.V := Option.some.inj hv2
    exact h.symm.trans (by decide)

/-- C10 (amended): when the pending nonces of the two accounts are `n1` and `n2`
(with `n1` and `n2 + 1` below `2 ^ 63`), the transaction's own nonce is `n2`; the
authorization of account 1 carries `n1` and its signature is the one account 1
gives over the authorization digest with nonce `n1`; the authorization of
account 2, the sender, carries `n2 + 1` and its signature is the one account 2
gives over the authorization digest with nonce `n2 + 1`. -/
theorem authorization_nonces (client : Client) (Sign : Signer)
    (Pack : List Address → Result Bytes) (acc1 acc2 : Account) (data : Bytes) (n1 n2 : Nat)
    (t b : Int) (sig1 sig2 : Bytes)
    (hpack : Pack [acc1.Addr, acc2.Addr] = .ok data)
    (hn2 : client.PendingNonceAt acc2.Addr = .ok n2)
    (hn1 : client.PendingNonceAt acc1.Addr = .ok n1)
    (htip : client.SuggestGasTipCap = .ok t)
    (hprice : client.SuggestGasPrice = .ok b)
    (hb1 : n1 < 2 ^ 63) (hb2 : n2 + 1 < 2 ^ 63)
    (hs2 : Sign (Spec.authorizationDigest 80002 Eip7702.moduleAddr (n2 + 1)) acc2.Priv
      = .ok sig2)
    (hs1 : Sign (Spec.authorizationDigest 80002 Eip7702.moduleAddr n1) acc1.Priv = .ok sig1)
    (hl1 : sig1.length = 65) (hl2 : sig2.length = 65)
    (ht : t.natAbs < 2 ^ 256) (hcap : (b + t).natAbs < 2 ^ 256) :
    ∃ tx a1 a2, Eip7702.main client Sign Pack acc1 acc2 = .ok tx ∧
      tx.Nonce = n2 ∧ tx.AuthList = [a1, a2] ∧
      a1.Nonce = n1 ∧ a2.Nonce = n2 + 1 ∧
      Sign (Spec.authorizationDigest 80002 Eip7702.moduleAddr a1.Nonce) acc1.Priv = .ok sig1 ∧
      sig1[64]? = some a1.V ∧ a1.R = beToNat (sig1.take 32) ∧
      a1.S = beToNat ((sig1.take 64).drop 32) ∧
      Sign (Spec.authorizationDigest 80002 Eip7702.moduleAddr a2.Nonce) acc2.Priv = .ok sig2 ∧
      sig2[64]? = some a2.V ∧ a2.R = beToNat (sig2.take 32) ∧
      a2.S = beToNat ((sig2.take 64).drop 32) := by
  obtain ⟨v1, hv1⟩ : ∃ v, sig1[64]? = some v := ⟨sig1[64], List.getElem?_eq_getElem (by omega)⟩
  obtain ⟨v2, hv2⟩ : ∃ v, sig2[64]? = some v := ⟨sig2[64], List.getElem?_eq_getElem (by omega)⟩
  have hmod : (n2 + 1) % 2 ^ 64 = n2 + 1 := Nat.mod_eq_of_lt (by omega)
  have hd2 : Eip7702.signEIP7702Delegation Sign acc2.Priv ((Eip7702.AmoyChainID : Nat) : Int)
      Eip7702.moduleAddr ((n2 + 1) % 2 ^ 64) = .ok sig2 := by
    rw [hmod, signEIP7702Delegation_eq Sign acc2.Priv _ Eip7702.moduleAddr (n2 + 1) (by decide)
      (by decide) hb2]
    exact hs2
  have hd1 : Eip7702.signEIP7702Delegation Sign acc1.Priv ((Eip7702.AmoyChainID : Nat) : Int)
      Eip7702.moduleAddr n1 = .ok sig1 := by
    rw [signEIP7702Delegation_eq Sign acc1.Priv _ Eip7702.moduleAddr n1 (by decide)
      (by decide) hb1]
    exact hs1
  have hmain := eip7702_main_ok client Sign Pack acc1 acc2 data n1 n2 t b sig1 sig2 v1 v2 hpack
    hn2 hn1 htip hprice hd2 hd1 hl1 hl2 hv1 hv2 ht hcap
  rw [hmod] at hmain
  exact ⟨_, _, _, hmain, rfl, rfl, rfl, rfl, hs1, hv1, rfl, rfl, hs2, hv2, rfl, rfl⟩

/-- C10 (amended) on the sample node, where both pending nonces are 7: the
transaction has nonce 7, account 1 authorizes with nonce 7 and account 2, the
sender, with nonce 8. -/
theorem authorization_nonces_witness :
    ∃ tx a1 a2, Eip7702.main (sampleClient [] 5) sampleSign samplePack sampleAccount1
        sampleAccount2 = .ok tx ∧ tx.Nonce = 7 ∧ tx.AuthList = [a1, a2] ∧
      a1.Nonce = 7 ∧ a2.Nonce = 8 := by
  obtain ⟨tx, a1, a2, hmain, hn, hlist, h1, h2, -⟩ :=
    authorization_nonces (sampleClient [] 5) sampleSign samplePack sampleAccount1
      sampleAccount2 (sampleAccount1.Addr.bytes ++ (sampleAccount2.Addr.bytes ++ [])) 7 7 5
      30000000000 (sampleSignature sampleAccount1.Priv 7) (sampleSignature sampleAccount2.Priv 8)
      rfl rfl rfl rfl rfl (by norm_num) (by norm_num) rfl rfl
      (sampleSignature_length _ _) (sampleSignature_length _ _) (by decide) (by decide)
  exact ⟨tx, a1, a2, hmain, hn, hlist, h1, h2⟩

/-- C10 as stated fails: on the sample node the pending nonce returned for
account 2, the sender, is 7, and the authorization of account 2 in the
transaction carries the nonce 8. -/
theorem sender_authorization_nonce_is_not_pending :
    (sampleClient [] 5).PendingNonceAt sampleAccount2.Addr = .ok 7 ∧
    ∃ tx a1 a2, Eip7702.main (sampleClient [] 5) sampleSign samplePack sampleAccount1
        sampleAccount2 = .ok tx ∧ tx.AuthList = [a1, a2] ∧ a2.Nonce = 8 ∧ a2.Nonce ≠ 7 := by
  have hmain := eip7702_main_ok (sampleClient [] 5) sampleSign samplePack sampleAccount1
    sampleAccount2 (sampleAccount1.Addr.bytes ++ (sampleAccount2.Addr.bytes ++ [])) 7 7 5
    30000000000 (sampleSignature sampleAccount1.Priv 7) (sampleSignature sampleAccount2.Priv 8)
    (byte (sampleAccount1.Priv.D % 2)) (byte (sampleAccount2.Priv.D % 2))
    rfl rfl rfl rfl rfl
    (sample_signEIP7702Delegation sampleAccount2.Priv 8 (by norm_num))
    (sample_signEIP7702Delegation sampleAccount1.Priv 7 (by norm_num))
    (sampleSignature_length _ _) (sampleSignature_length _ _)
    (sampleSignature_last _ _) (sampleSignature_last _ _) (by decide) (by decide)
  exact ⟨rfl, _, _, _, hmain, rfl, rfl, by decide⟩

/-! ### Headroom of the buffered base fee -/

theorem buffered_eq (b : Int) : b * 112 / 100 = b + 12 * b / 100 := by
  omega

/-- C14: for every non-negative latest base fee `b` (the last entry of a
non-empty history) the buffered base fee of both programs is
`b + floor(12 * b / 100)`: it is at least `b`, the headroom over `b` is at most
12% of `b`, and the fee cap is at least `b` plus the tip. -/
theorem buffered_base_fee_headroom (h : List Int) (t : Int) (hne : h ≠ [])
    (hb : 0 ≤ h.getLast hne) :
    ∃ f, Eip1559.feeComputation h t = .ok f ∧ Eip4844.feeComputation h t = .ok f ∧
      f.latestBaseFee = h.getLast hne ∧
      f.bufferedBaseFee = h.getLast hne + 12 * h.getLast hne / 100 ∧
      f.bufferedBaseFee = h.getLast hne + ⌊((12 * h.getLast hne : Int) : ℚ) / 100⌋ ∧
      h.getLast hne ≤ f.bufferedBaseFee ∧
      0 ≤ f.bufferedBaseFee - h.getLast hne ∧
      ((f.bufferedBaseFee - h.getLast hne : Int) : ℚ) ≤ 12 / 100 * (h.getLast hne : ℚ) ∧
      h.getLast hne + t ≤ f.GasFeeCap := by
  have hfloor : ⌊((12 * h.getLast hne : Int) : ℚ) / 100⌋ = 12 * h.getLast hne / 100 := by
    have := Rat.floor_intCast_div_natCast (12 * h.getLast hne) 100
    simpa using this
  have hq : 0 ≤ 12 * h.getLast hne / 100 := Int.ediv_nonneg (by omega) (by norm_num)
  have hle : 12 * h.getLast hne / 100 * 100 ≤ 12 * h.getLast hne :=
    Int.ediv_mul_le _ (by norm_num)
  refine ⟨_, eip1559_feeComputation_last h t hne, eip4844_feeComputation_last h t hne, rfl,
    buffered_eq _, ?_, ?_, ?_, ?_, ?_⟩
  · rw [hfloor]
    exact buffered_eq _
  · show h.getLast hne ≤ h.getLast hne * 112 / 100
    rw [buffered_eq]
    omega
  · show 0 ≤ h.getLast hne * 112 / 100 - h.getLast hne
    rw [buffered_eq]
    omega
  · show ((h.getLast hne * 112 / 100 - h.getLast hne : Int) : ℚ) ≤ 12 / 100 * (h.getLast hne : ℚ)
    rw [buffered_eq]
    have h1 : ((12 * h.getLast hne / 100 * 100 : Int) : ℚ) ≤ ((12 * h.getLast hne : Int) : ℚ) := by
      exact_mod_cast hle
    push_cast at h1 ⊢
    linarith
  · show h.getLast hne + t ≤ h.getLast hne * 112 / 100 + t
    rw [buffered_eq]
    omega

/-- C14 at the history `[100, 110, 120]` and the tip `5`: the buffered base fee
is `120 + 14 = 134` and the fee cap 139. -/
theorem buffered_base_fee_headroom_witness :
    ∃ f, Eip1559.feeComputation [100, 110, 120] 5 = .ok f ∧
      Eip4844.feeComputation [100, 110, 120] 5 = .ok f ∧
      f.bufferedBaseFee = 134 ∧ (120 : Int) ≤ f.bufferedBaseFee ∧ (125 : Int) ≤ f.GasFeeCap := by
  obtain ⟨f, h1, h2, -, h4, -, h6, -, -, h9⟩ :=
    buffered_base_fee_headroom [100, 110, 120] 5 (by decide) (by decide)
  exact ⟨f, h1, h2, h4, h6, h9⟩

/-! ### The authorization nonce through `int64` -/

/-- C13 fails on the code: for the nonce `2 ^ 63`, a `uint64`, and the chain id
80002, the conversion `int64(nonce)` gives `-2 ^ 63`, the encoder refuses the
negative integer and `signEIP7702Delegation` returns its error, where the claim
expects the payload to carry the nine bytes `88 80 00 00 00 00 00 00 00`; the
same happens for every nonce from `2 ^ 63` up to `2 ^ 64 - 1`, whereas below
`2 ^ 63` the conversion keeps the value. -/
theorem nonce_above_int63_is_refused :
    int64 (2 ^ 63) = -(2 ^ 63 : Int) ∧
    Eip7702.signEIP7702Delegation sampleSign sampleAccount1.Priv 80002 Eip7702.moduleAddr (2 ^ 63)
      = .error (.error "rlp: cannot encode negative big.Int") ∧
    rlp.EncodeToBytes [.bigInt 80002, .address Eip7702.moduleAddr, .bigInt (int64 (2 ^ 63))]
      = .error (.error "rlp: cannot encode negative big.Int") ∧
    RLP.encode (RLP.int (2 ^ 63)) = [0x88, 0x80, 0x00, 0x00, 0x00, 0x00, 0x00, 0x00, 0x00] ∧
    (∀ (Sign : Signer) (priv : PrivateKey) (chainID : Int) (from_ : Address) (nonce : Nat),
      2 ^ 63 ≤ nonce → nonce < 2 ^ 64 →
      int64 nonce = (nonce : Int) - 2 ^ 64 ∧
      Eip7702.signEIP7702Delegation Sign priv chainID from_ nonce
        = .error (.error "rlp: cannot encode negative big.Int")) ∧
    (∀ nonce : Nat, nonce < 2 ^ 63 → int64 nonce = (nonce : Int)) := by
  refine ⟨by decide, ?_, ?_, by decide, ?_, ?_⟩
  · exact signEIP7702Delegation_large_nonce sampleSign sampleAccount1.Priv 80002
      Eip7702.moduleAddr (2 ^ 63) (by norm_num) (by norm_num)
  · have hneg : int64 9223372036854775808 < 0 := by decide
    simp [rlp.EncodeToBytes, rlp.writeValues, rlp.writeValue, rlp.writeBigIntPtr, hneg, bind,
      Except.bind, pure, Except.pure]
  · intro Sign priv chainID from_ nonce h1 h2
    exact ⟨int64_of_ge nonce h1 h2,
      signEIP7702Delegation_large_nonce Sign priv chainID from_ nonce h1 h2⟩
  · intro nonce h
    exact int64_of_lt nonce h

/-! ### Personal-sign preimage -/

theorem decimalAux_fuel (fuel n : Nat) (h : n < fuel) :
    PersonalSign.decimalAux fuel n = PersonalSign.decimalAux (n + 1) n := by
  induction fuel using Nat.strong_induction_on generalizing n with
  | _ fuel ih =>
    cases fuel with
    | zero => omega
    | succ f =>
      simp only [PersonalSign.decimalAux]
      split_ifs with c
      · rfl
      · have h1 : n / 10 < n := by omega
        rw [ih f (by omega) _ (by omega), ih n (by omega) _ h1]

theorem decimal_lt_ten (n : Nat) (h : n < 10) : PersonalSign.decimal n = [byte (48 + n)] := by
  simp [PersonalSign.decimal, PersonalSign.decimalAux, h]

theorem decimal_ge_ten (n : Nat) (h : 10 ≤ n) :
    PersonalSign.decimal n = PersonalSign.decimal (n / 10) ++ [byte (48 + n % 10)] := by
  have c : ¬ n < 10 := by omega
  have h1 : PersonalSign.decimalAux (n + 1) n
      = PersonalSign.decimalAux n (n / 10) ++ [byte (48 + n % 10)] := by
    simp only [PersonalSign.decimalAux, c, if_false]
  unfold PersonalSign.decimal
  rw [h1, decimalAux_fuel n _ (by omega)]

theorem decimal_length_mono (m n : Nat) (h : m ≤ n) :
    (PersonalSign.decimal m).length ≤ (PersonalSign.decimal n).length := by
  induction n using Nat.strong_induction_on generalizing m with
  | _ n ih =>
    by_cases hn : n < 10
    · rw [decimal_lt_ten n hn, decimal_lt_ten m (by omega)]
      simp
    · rw [decimal_ge_ten n (by omega)]
      by_cases hm : m < 10
      · rw [decimal_lt_ten m hm]
        simp
      · rw [decimal_ge_ten m (by omega)]
        have := ih (n / 10) (by omega) (m / 10) (by omega)
        simp only [List.length_append, List.length_singleton]
        omega

theorem prefixed_length (m : Bytes) :
    (PersonalSign.prefixed m).length = 26 + (PersonalSign.decimal m.length).length + m.length := by
  simp only [PersonalSign.prefixed, PersonalSign.messageHeader, List.length_append,
    List.length_cons, List.length_nil]

theorem prefixed_injective (m1 m2 : Bytes)
    (h : PersonalSign.prefixed m1 = PersonalSign.prefixed m2) : m1 = m2 := by
  have hlen := congrArg List.length h
  rw [prefixed_length, prefixed_length] at hlen
  have hn : m1.length = m2.length := by
    rcases Nat.lt_trichotomy m1.length m2.length with hlt | heq | hgt
    · have := decimal_length_mono m1.length m2.length (by omega)
      omega
    · exact heq
    · have := decimal_length_mono m2.length m1.length (by omega)
      omega
  unfold PersonalSign.prefixed at h
  rw [hn, List.append_assoc, List.append_assoc] at h
  exact List.append_cancel_left (List.append_cancel_left h)

/-- C15: the personal-sign preimage, the fixed 26-byte text followed by the
decimal length of the message and the message, is injective in the message: two
different byte strings have different preimages, so that their hashes are equal
only through a collision of the hash function. -/
theorem personal_sign_preimage_injective (m1 m2 : Bytes) (h : m1 ≠ m2) :
    PersonalSign.prefixed m1 ≠ PersonalSign.prefixed m2 ∧
    (∀ (Sign : Signer) (acc2 : Account) (s1 s2 : PersonalSign.Signed),
      PersonalSign.sign Sign acc2 m1 = .ok s1 → PersonalSign.sign Sign acc2 m2 = .ok s2 →
      s1.hash = s2.hash →
      Keccak.sum256 (PersonalSign.prefixed m1) = Keccak.sum256 (PersonalSign.prefixed m2) ∧
      PersonalSign.prefixed m1 ≠ PersonalSign.prefixed m2) := by
  have hne : PersonalSign.prefixed m1 ≠ PersonalSign.prefixed m2 :=
    fun heq => h (prefixed_injective m1 m2 heq)
  refine ⟨hne, ?_⟩
  intro Sign acc2 s1 s2 h1 h2 hh
  have key : ∀ (m : Bytes) (s : PersonalSign.Signed), PersonalSign.sign Sign acc2 m = .ok s →
      s.hash = Keccak.sum256 (PersonalSign.prefixed m) := by
    intro m s hs
    unfold PersonalSign.sign at hs
    dsimp only at hs
    cases hsig : Sign (Keccak256Hash [PersonalSign.prefixed m]) acc2.Priv with
    | error e =>
      rw [hsig] at hs
      simp [orFatal, bind, Except.bind] at hs
    | ok sig =>
      rw [hsig] at hs
      simp only [orFatal, bind, Except.bind, pure, Except.pure, Except.ok.injEq] at hs
      rw [← hs]
      simp [Keccak256Hash, Keccak256, List.flatten]
  rw [key m1 s1 h1, key m2 s2 h2] at hh
  exact ⟨hh, hne⟩

/-- C15 at the message of the program and at the message "1" followed by it:
the preimages are the header, the length `16` or `17`, and the message. -/
theorem personal_sign_preimage_injective_witness :
    PersonalSign.prefixed PersonalSign.message
      ≠ PersonalSign.prefixed (0x31 :: PersonalSign.message) ∧
    PersonalSign.prefixed PersonalSign.message
      = PersonalSign.messageHeader ++ [0x31, 0x36] ++ PersonalSign.message ∧
    PersonalSign.prefixed (0x31 :: PersonalSign.message)
      = PersonalSign.messageHeader ++ [0x31, 0x37] ++ (0x31 :: PersonalSign.message) :=
  ⟨(personal_sign_preimage_injective PersonalSign.message (0x31 :: PersonalSign.message)
      (by decide)).1, by decide, by decide⟩

/-! ### Test vectors of the typed-data library -/

theorem checksum_example :
    Apitypes.Hex checksumExampleAddr = "0x5aAeb6053F3E94C9b9A09f33669435E7Ef1BeAed" := by
  decide!

theorem domain_type_hash :
    Apitypes.TypeHash etherMail "EIP712Domain" =
      [0x8b, 0x73, 0xc3, 0xc6, 0x9b, 0xb8, 0xfe, 0x3d, 0x51, 0x2e, 0xcc, 0x4c, 0xf7, 0x59,
       0xcc, 0x79, 0x23, 0x9f, 0x7b, 0x17, 0x9b, 0x0f, 0xfa, 0xca, 0xa9, 0xa7, 0x5d, 0x52,
       0x2b, 0x39, 0x40, 0x0f] := by
  decide!

theorem ether_mail_domain_separator :
    Apitypes.HashStruct etherMail "EIP712Domain" etherMail.Domain.Map = .ok
      [0xf2, 0xce, 0xe3, 0x75, 0xfa, 0x42, 0xb4, 0x21, 0x43, 0x80, 0x40, 0x25, 0xfc, 0x44,
       0x9d, 0xea, 0xfd, 0x50, 0xcc, 0x03, 0x1c, 0xa2, 0x57, 0xe0, 0xb1, 0x94, 0xa6, 0x50,
       0xa9, 0x12, 0x09, 0x0f] := by
  decide!

theorem encodeType_of_missing_type : Apitypes.EncodeType etherMail "Permit" = [] := by
  decide

theorem permit_type_hash :
    Apitypes.TypeHash (Eip712.typedData Apitypes.library 0 sampleAccount2.Addr) "Permit" =
      [0x6e, 0x71, 0xed, 0xae, 0x12, 0xb1, 0xb9, 0x7f, 0x4d, 0x1f, 0x60, 0x37, 0x0f, 0xef,
       0x10, 0x10, 0x5f, 0xa2, 0xfa, 0xae, 0x01, 0x26, 0x11, 0x4a, 0x16, 0x9c, 0x64, 0x84,
       0x5d, 0x61, 0x26, 0xc9] := by
  decide!

/-! ### Dropped errors of the struct hash -/

theorem eip712_main_any (lib : Eip712.Library) (Sign : Signer) (now : Int) (acc2 : Account)
    (d m sig : Bytes) (v : UInt8)
    (hd : ignoreErr (lib.HashStruct (Eip712.typedData lib now acc2.Addr) "EIP712Domain"
      (Eip712.typedData lib now acc2.Addr).Domain.Map) = d)
    (hm : ignoreErr (lib.HashStruct (Eip712.typedData lib now acc2.Addr) "Permit"
      (Eip712.typedData lib now acc2.Addr).Message) = m)
    (hsig : Sign (Keccak.sum256 ([0x19, 0x01] ++ d ++ m)) acc2.Priv = .ok sig)
    (hlen : sig.length = 65) (hv : sig[64]? = some v) :
    Eip712.main lib Sign now acc2 = .ok
      { domainSep := d, msgHash := m, digest := Keccak.sum256 ([0x19, 0x01] ++ d ++ m),
        sig := sig, r := Eip712.BytesToHash (sig.take 32),
        s := Eip712.BytesToHash ((sig.take 64).drop 32), v := v + 27 } := by
  have hi : goIndex sig 64 = .ok v := goIndex_ok sig 64 v hv
  have hs : ignoreErr (Sign (Keccak.sum256 ([0x19, 0x01] ++ d ++ m)) acc2.Priv) = sig := by
    rw [hsig]
    rfl
  unfold Eip712.main
  simp only [hd, hm, keccak256_three, hs, goSlice_ok sig 0 32 (by omega) (by omega),
    goSlice_ok sig 32 64 (by omega) (by omega), hi, bind, Except.bind, pure, Except.pure,
    List.drop_zero]

theorem sampleSign_length (digest : Bytes) (priv : PrivateKey) (h : digest.length = 32) :
    (digest ++ Keccak.sum256 digest ++ [byte (priv.D % 2)]).length = 65 := by
  simp only [List.length_append, keccak256_length, List.length_singleton, h]

theorem sampleSign_last (digest : Bytes) (priv : PrivateKey) (h : digest.length = 32) :
    (digest ++ Keccak.sum256 digest ++ [byte (priv.D % 2)])[64]? = some (byte (priv.D % 2)) := by
  rw [List.getElem?_append_right (by
    simp only [List.length_append, keccak256_length, h]
    omega)]
  simp only [List.length_append, keccak256_length, h]
  rfl

theorem eip712_message_error_dropped (lib : Eip712.Library) (Sign : Signer) (now : Int)
    (acc2 : Account) (e : Failure) (sig : Bytes)
    (herr : lib.HashStruct (Eip712.typedData lib now acc2.Addr) "Permit"
      (Eip712.typedData lib now acc2.Addr).Message = .error e)
    (hsig : Sign (Keccak.sum256 ([0x19, 0x01]
      ++ ignoreErr (lib.HashStruct (Eip712.typedData lib now acc2.Addr) "EIP712Domain"
          (Eip712.typedData lib now acc2.Addr).Domain.Map))) acc2.Priv = .ok sig)
    (hlen : sig.length = 65) :
    ∃ out, Eip712.main lib Sign now acc2 = .ok out ∧ out.msgHash = [] ∧
      out.digest = Keccak.sum256 ([0x19, 0x01] ++ out.domainSep) ∧ out.sig = sig := by
  obtain ⟨v, hv⟩ : ∃ v, sig[64]? = some v := ⟨sig[64], List.getElem?_eq_getElem (by omega)⟩
  have hm : ignoreErr (lib.HashStruct (Eip712.typedData lib now acc2.Addr) "Permit"
      (Eip712.typedData lib now acc2.Addr).Message) = [] := by
    rw [herr]
    rfl
  have hsig' : Sign (Keccak.sum256 ([0x19, 0x01]
      ++ ignoreErr (lib.HashStruct (Eip712.typedData lib now acc2.Addr) "EIP712Domain"
          (Eip712.typedData lib now acc2.Addr).Domain.Map) ++ [])) acc2.Priv = .ok sig := by
    rw [List.append_nil]
    exact hsig
  have hmain := eip712_main_any lib Sign now acc2 _ [] sig v rfl hm hsig' hlen hv
  rw [List.append_nil] at hmain
  exact ⟨_, hmain, rfl, rfl, rfl⟩

theorem eip712_domain_error_dropped (lib : Eip712.Library) (Sign : Signer) (now : Int)
    (acc2 : Account) (e : Failure) (sig : Bytes)
    (herr : lib.HashStruct (Eip712.typedData lib now acc2.Addr) "EIP712Domain"
      (Eip712.typedData lib now acc2.Addr).Domain.Map = .error e)
    (hsig : Sign (Keccak.sum256 ([0x19, 0x01]
      ++ ignoreErr (lib.HashStruct (Eip712.typedData lib now acc2.Addr) "Permit"
          (Eip712.typedData lib now acc2.Addr).Message))) acc2.Priv = .ok sig)
    (hlen : sig.length = 65) :
    ∃ out, Eip712.main lib Sign now acc2 = .ok out ∧ out.domainSep = [] ∧
      out.digest = Keccak.sum256 ([0x19, 0x01] ++ out.msgHash) ∧ out.sig = sig := by
  obtain ⟨v, hv⟩ : ∃ v, sig[64]? = some v := ⟨sig[64], List.getElem?_eq_getElem (by omega)⟩
  have hd : ignoreErr (lib.HashStruct (Eip712.typedData lib now acc2.Addr) "EIP712Domain"
      (Eip712.typedData lib now acc2.Addr).Domain.Map) = [] := by
    rw [herr]
    rfl
  have hsig' : Sign (Keccak.sum256 ([0x19, 0x01] ++ []
      ++ ignoreErr (lib.HashStruct (Eip712.typedData lib now acc2.Addr) "Permit"
          (Eip712.typedData lib now acc2.Addr).Message))) acc2.Priv = .ok sig := by
    rw [List.append_nil]
    exact hsig
  have hmain := eip712_main_any lib Sign now acc2 [] _ sig v hd rfl hsig' hlen hv
  rw [List.append_nil] at hmain
  exact ⟨_, hmain, rfl, rfl, rfl⟩

theorem negative_deadline_text :
    (Eip712.typedData Apitypes.library (-7200) sampleAccount2.Addr).Message.lookup "deadline" = some (.str "-3600") := by
  decide!

theorem negative_deadline_message_fails :
    Apitypes.HashStruct (Eip712.typedData Apitypes.library (-7200) sampleAccount2.Addr) "Permit" (Eip712.typedData Apitypes.library (-7200) sampleAccount2.Addr).Message
      = .error (.error "invalid negative value for unsigned type uint256") := by
  decide!

theorem negative_deadline_domain_hash :
    Apitypes.HashStruct (Eip712.typedData Apitypes.library (-7200) sampleAccount2.Addr) "EIP712Domain" (Eip712.typedData Apitypes.library (-7200) sampleAccount2.Addr).Domain.Map
      = .ok [0xbf, 0x72, 0x72, 0xe0, 0x18, 0x0c, 0x94, 0xe4, 0xab, 0x1f, 0x50, 0x78, 0x5c, 0x2c,
       0x15, 0xf6, 0x5d, 0x4b, 0x3d, 0xd6, 0xcb, 0xbd, 0x48, 0xbd, 0xd1, 0x12, 0x28, 0xbc,
       0xfb, 0x86, 0x45, 0x70] := by
  decide!

theorem negative_deadline_digest :
    Keccak.sum256 ([0x19, 0x01] ++
      [0xbf, 0x72, 0x72, 0xe0, 0x18, 0x0c, 0x94, 0xe4, 0xab, 0x1f, 0x50, 0x78, 0x5c, 0x2c,
       0x15, 0xf6, 0x5d, 0x4b, 0x3d, 0xd6, 0xcb, 0xbd, 0x48, 0xbd, 0xd1, 0x12, 0x28, 0xbc,
       0xfb, 0x86, 0x45, 0x70] ++ []) =
      [0x43, 0xe4, 0xbe, 0xb5, 0x84, 0x4b, 0xcf, 0xff, 0x61, 0x3d, 0x06, 0x7c, 0xb3, 0xcc,
       0x59, 0x0a, 0xd6, 0x98, 0xc8, 0x21, 0xbe, 0x05, 0xa3, 0x7b, 0xd9, 0x64, 0x52, 0x83,
       0x32, 0x3b, 0x2a, 0x21] := by
  decide!

theorem negative_deadline_main :
    Eip712.main Apitypes.library sampleSign (-7200) sampleAccount2 = .ok
      { domainSep := [0xbf, 0x72, 0x72, 0xe0, 0x18, 0x0c, 0x94, 0xe4, 0xab, 0x1f, 0x50, 0x78, 0x5c, 0x2c,
       0x15, 0xf6, 0x5d, 0x4b, 0x3d, 0xd6, 0xcb, 0xbd, 0x48, 0xbd, 0xd1, 0x12, 0x28, 0xbc,
       0xfb, 0x86, 0x45, 0x70],
        msgHash := [],
        digest := [0x43, 0xe4, 0xbe, 0xb5, 0x84, 0x4b, 0xcf, 0xff, 0x61, 0x3d, 0x06, 0x7c, 0xb3, 0xcc,
       0x59, 0x0a, 0xd6, 0x98, 0xc8, 0x21, 0xbe, 0x05, 0xa3, 0x7b, 0xd9, 0x64, 0x52, 0x83,
       0x32, 0x3b, 0x2a, 0x21],
        sig := [0x43, 0xe4, 0xbe, 0xb5, 0x84, 0x4b, 0xcf, 0xff, 0x61, 0x3d, 0x06, 0x7c, 0xb3, 0xcc,
       0x59, 0x0a, 0xd6, 0x98, 0xc8, 0x21, 0xbe, 0x05, 0xa3, 0x7b, 0xd9, 0x64, 0x52, 0x83,
       0x32, 0x3b, 0x2a, 0x21]
          ++ Keccak.sum256 [0x43, 0xe4, 0xbe, 0xb5, 0x84, 0x4b, 0xcf, 0xff, 0x61, 0x3d, 0x06, 0x7c, 0xb3, 0xcc,
       0x59, 0x0a, 0xd6, 0x98, 0xc8, 0x21, 0xbe, 0x05, 0xa3, 0x7b, 0xd9, 0x64, 0x52, 0x83,
       0x32, 0x3b, 0x2a, 0x21]
          ++ [byte (sampleAccount2.Priv.D % 2)],
        r := Eip712.BytesToHash (([0x43, 0xe4, 0xbe, 0xb5, 0x84, 0x4b, 0xcf, 0xff, 0x61, 0x3d, 0x06, 0x7c, 0xb3, 0xcc,
       0x59, 0x0a, 0xd6, 0x98, 0xc8, 0x21, 0xbe, 0x05, 0xa3, 0x7b, 0xd9, 0x64, 0x52, 0x83,
       0x32, 0x3b, 0x2a, 0x21]
          ++ Keccak.sum256 [0x43, 0xe4, 0xbe, 0xb5, 0x84, 0x4b, 0xcf, 0xff, 0x61, 0x3d, 0x06, 0x7c, 0xb3, 0xcc,
       0x59, 0x0a, 0xd6, 0x98, 0xc8, 0x21, 0xbe, 0x05, 0xa3, 0x7b, 0xd9, 0x64, 0x52, 0x83,
       0x32, 0x3b, 0x2a, 0x21]
          ++ [byte (sampleAccount2.Priv.D % 2)]).take 32),
        s := Eip712.BytesToHash ((([0x43, 0xe4, 0xbe, 0xb5, 0x84, 0x4b, 0xcf, 0xff, 0x61, 0x3d, 0x06, 0x7c, 0xb3, 0xcc,
       0x59, 0x0a, 0xd6, 0x98, 0xc8, 0x21, 0xbe, 0x05, 0xa3, 0x7b, 0xd9, 0x64, 0x52, 0x83,
       0x32, 0x3b, 0x2a, 0x21]
          ++ Keccak.sum256 [0x43, 0xe4, 0xbe, 0xb5, 0x84, 0x4b, 0xcf, 0xff, 0x61, 0x3d, 0x06, 0x7c, 0xb3, 0xcc,
       0x59, 0x0a, 0xd6, 0x98, 0xc8, 0x21, 0xbe, 0x05, 0xa3, 0x7b, 0xd9, 0x64, 0x52, 0x83,
       0x32, 0x3b, 0x2a, 0x21]
          ++ [byte (sampleAccount2.Priv.D % 2)]).take 64).drop 32),
        v := byte (sampleAccount2.Priv.D % 2) + 27 } := by
  have hd : ignoreErr (Apitypes.library.HashStruct (Eip712.typedData Apitypes.library (-7200) sampleAccount2.Addr) "EIP712Domain" (Eip712.typedData Apitypes.library (-7200) sampleAccount2.Addr).Domain.Map)
      = [0xbf, 0x72, 0x72, 0xe0, 0x18, 0x0c, 0x94, 0xe4, 0xab, 0x1f, 0x50, 0x78, 0x5c, 0x2c,
       0x15, 0xf6, 0x5d, 0x4b, 0x3d, 0xd6, 0xcb, 0xbd, 0x48, 0xbd, 0xd1, 0x12, 0x28, 0xbc,
       0xfb, 0x86, 0x45, 0x70] := by
    rw [show Apitypes.library.HashStruct = Apitypes.HashStruct from rfl,
      negative_deadline_domain_hash]
    rfl
  have hm : ignoreErr (Apitypes.library.HashStruct (Eip712.typedData Apitypes.library (-7200) sampleAccount2.Addr) "Permit" (Eip712.typedData Apitypes.library (-7200) sampleAccount2.Addr).Message) = [] := by
    rw [show Apitypes.library.HashStruct = Apitypes.HashStruct from rfl,
      negative_deadline_message_fails]
    rfl
  have hsig : sampleSign (Keccak.sum256 ([0x19, 0x01] ++
      [0xbf, 0x72, 0x72, 0xe0, 0x18, 0x0c, 0x94, 0xe4, 0xab, 0x1f, 0x50, 0x78, 0x5c, 0x2c,
       0x15, 0xf6, 0x5d, 0x4b, 0x3d, 0xd6, 0xcb, 0xbd, 0x48, 0xbd, 0xd1, 0x12, 0x28, 0xbc,
       0xfb, 0x86, 0x45, 0x70] ++ [])) sampleAccount2.Priv
      = .ok ([0x43, 0xe4, 0xbe, 0xb5, 0x84, 0x4b, 0xcf, 0xff, 0x61, 0x3d, 0x06, 0x7c, 0xb3, 0xcc,
       0x59, 0x0a, 0xd6, 0x98, 0xc8, 0x21, 0xbe, 0x05, 0xa3, 0x7b, 0xd9, 0x64, 0x52, 0x83,
       0x32, 0x3b, 0x2a, 0x21]
          ++ Keccak.sum256 [0x43, 0xe4, 0xbe, 0xb5, 0x84, 0x4b, 0xcf, 0xff, 0x61, 0x3d, 0x06, 0x7c, 0xb3, 0xcc,
       0x59, 0x0a, 0xd6, 0x98, 0xc8, 0x21, 0xbe, 0x05, 0xa3, 0x7b, 0xd9, 0x64, 0x52, 0x83,
       0x32, 0x3b, 0x2a, 0x21]
          ++ [byte (sampleAccount2.Priv.D % 2)]) := by
    rw [negative_deadline_digest]
    rfl
  have hmain := eip712_main_any Apitypes.library sampleSign (-7200) sampleAccount2 _ _ _
    (byte (sampleAccount2.Priv.D % 2)) hd hm hsig
    (sampleSign_length _ _ rfl) (sampleSign_last _ _ rfl)
  rw [negative_deadline_digest] at hmain
  exact hmain

/-- C12 fails on the code, which drops both errors of `HashStruct`.  For every
library, signer, time and account: when the struct hash of the message fails
(or that of the domain), and the signer returns 65 bytes for the digest of
`0x19 0x01` and what is left, the program still returns a digest and a
signature over it, with the empty string in the place of the missing hash.  With
the library the program is linked with this happens at the Unix time `-7200`:
the deadline is `-3600`, the struct hash of the message fails with "invalid
negative value for unsigned type uint256", and the digest `43e4beb5…` computed
from the domain separator alone is signed. -/
theorem struct_hash_errors_are_dropped :
    (∀ (lib : Eip712.Library) (Sign : Signer) (now : Int) (acc2 : Account) (e : Failure)
        (sig : Bytes),
      lib.HashStruct (Eip712.typedData lib now acc2.Addr) "Permit"
          (Eip712.typedData lib now acc2.Addr).Message = .error e →
      Sign (Keccak.sum256 ([0x19, 0x01]
          ++ ignoreErr (lib.HashStruct (Eip712.typedData lib now acc2.Addr) "EIP712Domain"
              (Eip712.typedData lib now acc2.Addr).Domain.Map))) acc2.Priv = .ok sig →
      sig.length = 65 →
      ∃ out, Eip712.main lib Sign now acc2 = .ok out ∧ out.msgHash = [] ∧
        out.digest = Keccak.sum256 ([0x19, 0x01] ++ out.domainSep) ∧ out.sig = sig) ∧
    (∀ (lib : Eip712.Library) (Sign : Signer) (now : Int) (acc2 : Account) (e : Failure)
        (sig : Bytes),
      lib.HashStruct (Eip712.typedData lib now acc2.Addr) "EIP712Domain"
          (Eip712.typedData lib now acc2.Addr).Domain.Map = .error e →
      Sign (Keccak.sum256 ([0x19, 0x01]
          ++ ignoreErr (lib.HashStruct (Eip712.typedData lib now acc2.Addr) "Permit"
              (Eip712.typedData lib now acc2.Addr).Message))) acc2.Priv = .ok sig →
      sig.length = 65 →
      ∃ out, Eip712.main lib Sign now acc2 = .ok out ∧ out.domainSep = [] ∧
        out.digest = Keccak.sum256 ([0x19, 0x01] ++ out.msgHash) ∧ out.sig = sig) ∧
    (Eip712.typedData Apitypes.library (-7200) sampleAccount2.Addr).Message.lookup "deadline" = some (.str "-3600") ∧
    Apitypes.HashStruct (Eip712.typedData Apitypes.library (-7200) sampleAccount2.Addr) "Permit" (Eip712.typedData Apitypes.library (-7200) sampleAccount2.Addr).Message
      = .error (.error "invalid negative value for unsigned type uint256") ∧
    (∃ out, Eip712.main Apitypes.library sampleSign (-7200) sampleAccount2 = .ok out ∧
      out.msgHash = [] ∧
      out.domainSep = [0xbf, 0x72, 0x72, 0xe0, 0x18, 0x0c, 0x94, 0xe4, 0xab, 0x1f, 0x50, 0x78, 0x5c, 0x2c,
       0x15, 0xf6, 0x5d, 0x4b, 0x3d, 0xd6, 0xcb, 0xbd, 0x48, 0xbd, 0xd1, 0x12, 0x28, 0xbc,
       0xfb, 0x86, 0x45, 0x70] ∧
      out.digest = [0x43, 0xe4, 0xbe, 0xb5, 0x84, 0x4b, 0xcf, 0xff, 0x61, 0x3d, 0x06, 0x7c, 0xb3, 0xcc,
       0x59, 0x0a, 0xd6, 0x98, 0xc8, 0x21, 0xbe, 0x05, 0xa3, 0x7b, 0xd9, 0x64, 0x52, 0x83,
       0x32, 0x3b, 0x2a, 0x21] ∧
      out.digest = Keccak.sum256 ([0x19, 0x01] ++ out.domainSep ++ out.msgHash) ∧
      sampleSign out.digest sampleAccount2.Priv = .ok out.sig) :=
  ⟨eip712_message_error_dropped, eip712_domain_error_dropped, negative_deadline_text,
    negative_deadline_message_fails, _, negative_deadline_main, rfl, rfl, rfl,
    negative_deadline_digest.symm, rfl⟩

/-! ### Nested values and the encoder -/

theorem writeUint256_eq (z : Nat) (h : z < 2 ^ 256) :
    rlp.writeUint256 z = RLP.encode (RLP.int z) := by
  unfold rlp.writeUint256
  split_ifs with c
  · exact writeUint64_eq z c
  · have hlen : 8 < (natToBE z).length := natToBE_length_ge 8 z (by norm_num; omega)
    have hle : (natToBE z).length ≤ 32 := natToBE_length_le 32 z (by norm_num; omega)
    unfold RLP.int
    rw [encode_str_of_length_ne_one _ (by omega)]
    unfold RLP.lengthPrefix
    rw [if_pos (by omega), byte_lit 0x80]
    dsimp only
    rw [byte_add]
    rfl

theorem encode_list_length_le (items : List RLP.Item)
    (h : (RLP.encodeItems items).length < 2 ^ 64) :
    (RLP.encode (.list items)).length ≤ (RLP.encodeItems items).length + 9 := by
  have := lengthPrefix_length_le 0xc0 (RLP.encodeItems items).length h
  simp only [RLP.encode, List.length_append]
  omega

mutual
theorem encodeTree_eq : ∀ (t : rlp.GoTree), t.wellFormed → t.size < 2 ^ 31 →
    rlp.encodeTree t = .ok (RLP.encode t.toItem) ∧
      (RLP.encode t.toItem).length ≤ t.size * (2 ^ 32 + 9)
  | .value v, hw, _ => by
    have hw' : v.wellFormed := hw
    refine ⟨?_, ?_⟩
    · simp only [rlp.encodeTree, rlp.GoTree.toItem, writeValue_eq v hw']
    · have := encode_toItem_length_le v hw'
      simp only [rlp.GoTree.toItem, rlp.GoTree.size]
      omega
  | .u256 z, hw, _ => by
    have hz : z < 2 ^ 256 := hw
    refine ⟨?_, ?_⟩
    · simp only [rlp.encodeTree, rlp.GoTree.toItem, writeUint256_eq z hz]
    · have := encode_int_length_le 32 z (by norm_num) (by norm_num; omega)
      simp only [rlp.GoTree.toItem, rlp.GoTree.size]
      omega
  | .list items, hw, hs => by
    have hw' : rlp.GoTree.wellFormedAll items := hw
    have hs' : rlp.GoTree.sizeAll items < 2 ^ 31 := by
      simp only [rlp.GoTree.size] at hs
      omega
    obtain ⟨h1, h2⟩ := encodeTrees_eq items hw' hs'
    have hbound : (RLP.encodeItems (rlp.GoTree.toItems items)).length < 2 ^ 64 := by
      have : rlp.GoTree.sizeAll items * (2 ^ 32 + 9) ≤ 2 ^ 31 * (2 ^ 32 + 9) :=
        Nat.mul_le_mul_right _ (by omega)
      have h3 : 2 ^ 31 * (2 ^ 32 + 9) < 2 ^ 64 := by norm_num
      omega
    refine ⟨?_, ?_⟩
    · simp only [rlp.encodeTree, h1, bind, Except.bind, pure, Except.pure, rlp.GoTree.toItem,
        RLP.encode, listHeader_eq _ hbound]
    · have := encode_list_length_le _ hbound
      simp only [rlp.GoTree.toItem, rlp.GoTree.size]
      rw [Nat.add_mul]
      omega
theorem encodeTrees_eq : ∀ (ts : List rlp.GoTree), rlp.GoTree.wellFormedAll ts →
    rlp.GoTree.sizeAll ts < 2 ^ 31 →
    rlp.encodeTrees ts = .ok (RLP.encodeItems (rlp.GoTree.toItems ts)) ∧
      (RLP.encodeItems (rlp.GoTree.toItems ts)).length ≤ rlp.GoTree.sizeAll ts * (2 ^ 32 + 9)
  | [], _, _ => by
    exact ⟨rfl, by simp [rlp.GoTree.toItems, RLP.encodeItems]⟩
  | t :: ts, hw, hs => by
    have hw' : t.wellFormed ∧ rlp.GoTree.wellFormedAll ts := hw
    have hs' : t.size + rlp.GoTree.sizeAll ts < 2 ^ 31 := hs
    obtain ⟨h1, h2⟩ := encodeTree_eq t hw'.1 (by omega)
    obtain ⟨h3, h4⟩ := encodeTrees_eq ts hw'.2 (by omega)
    refine ⟨?_, ?_⟩
    · simp only [rlp.encodeTrees, h1, h3, bind, Except.bind, pure, Except.pure,
        rlp.GoTree.toItems, RLP.encodeItems]
    · simp only [rlp.GoTree.toItems, RLP.encodeItems, List.length_append, rlp.GoTree.sizeAll]
      rw [Nat.add_mul]
      omega
end

/-! ### The signed and the sent SetCode transaction -/

theorem goCopy_same_length {α : Type} (z : α) (xs : List α) :
    goCopy (List.replicate xs.length z) xs = xs := by
  rw [goCopy_replicate xs.length z xs (Nat.le_refl _)]
  simp

theorem setCodeTx_copy_eq (tx : Eip7702.SetCodeTx) :
    tx.copy = { ChainID := tx.ChainID, Nonce := tx.Nonce, GasTipCap := tx.GasTipCap,
                GasFeeCap := tx.GasFeeCap, Gas := tx.Gas, To := tx.To, Value := 0,
                Data := tx.Data, AccessList := [], AuthList := tx.AuthList,
                V := 0, R := 0, S := 0 } := by
  simp only [Eip7702.SetCodeTx.copy, goCopy_same_length]

theorem txData_copy_eq (tx : Eip7702.TxData) : tx.copy = tx := by
  simp only [Eip7702.TxData.copy, goCopy_same_length]

theorem toItems_authorizations (l : List Eip7702.SetCodeAuthorization) :
    rlp.GoTree.toItems (l.map Eip7702.SetCodeAuthorization.tree)
      = l.map Spec.authorizationItem := by
  induction l with
  | nil => rfl
  | cons a l ih =>
    simp only [List.map_cons, rlp.GoTree.toItems, ih, Eip7702.SetCodeAuthorization.tree,
      rlp.GoTree.toItem, rlp.GoValue.toItem, Spec.authorizationItem]

theorem wellFormed_authorizations (l : List Eip7702.SetCodeAuthorization)
    (h : ∀ a ∈ l, a.inRange) :
    rlp.GoTree.wellFormedAll (l.map Eip7702.SetCodeAuthorization.tree) := by
  induction l with
  | nil => trivial
  | cons a l ih =>
    obtain ⟨h1, h2, h3, h4⟩ := h a (List.mem_cons_self a l)
    have hv : a.V.toNat < 2 ^ 64 := by
      have : a.V.toNat < 256 := a.V.toBitVec.isLt
      omega
    exact ⟨⟨h1, trivial, h2, hv, h3, h4, trivial⟩,
      ih (fun x hx => h x (List.mem_cons_of_mem a hx))⟩

theorem sizeAll_authorizations (l : List Eip7702.SetCodeAuthorization) :
    rlp.GoTree.sizeAll (l.map Eip7702.SetCodeAuthorization.tree) = 7 * l.length := by
  induction l with
  | nil => rfl
  | cons a l ih =>
    simp only [List.map_cons, rlp.GoTree.sizeAll, ih, Eip7702.SetCodeAuthorization.tree,
      rlp.GoTree.size, List.length_cons]
    omega

theorem setCode_sigHash_eq (tx : Eip7702.TxData) (chainID : Int) (hr : tx.inRange)
    (hc0 : 0 ≤ chainID) (hc : chainID < 2 ^ 256) (hacc : tx.AccessList = [])
    (hlen : tx.AuthList.length < 2 ^ 20) :
    tx.sigHash chainID = Keccak.sum256 (Spec.setCodeSigningPayload chainID.toNat tx.Nonce
      tx.GasTipCap tx.GasFeeCap tx.Gas tx.To tx.Value tx.Data tx.AuthList) := by
  obtain ⟨-, h2, h3, h4, h5, h6, h7, -, -, -, h11⟩ := hr
  have hw : (tx.sigHashFields chainID).wellFormed := by
    rw [Eip7702.TxData.sigHashFields, hacc]
    exact ⟨⟨hc0, hc⟩, h2, h3, h4, h5, trivial, h6, h7, trivial,
      wellFormed_authorizations _ h11, trivial⟩
  have hs : (tx.sigHashFields chainID).size < 2 ^ 31 := by
    rw [Eip7702.TxData.sigHashFields, hacc]
    simp only [rlp.GoTree.size, rlp.GoTree.sizeAll, List.map_nil, sizeAll_authorizations]
    omega
  have henc := (encodeTree_eq _ hw hs).1
  rw [Eip7702.TxData.sigHash, Eip7702.prefixedRlpHash, henc]
  simp only [ignoreErr, Eip7702.TxData.sigHashFields, hacc, List.map_nil, rlp.GoTree.toItem,
    rlp.GoTree.toItems, rlp.GoValue.toItem, toItems_authorizations,
    Spec.setCodeSigningPayload]

theorem setCode_marshalBinary_eq (tx : Eip7702.TxData) (hr : tx.inRange)
    (hacc : tx.AccessList = []) (hlen : tx.AuthList.length < 2 ^ 20) :
    Eip7702.MarshalBinary tx = .ok (Spec.setCodeSigned tx.ChainID tx.Nonce tx.GasTipCap
      tx.GasFeeCap tx.Gas tx.To tx.Value tx.Data tx.AuthList tx.V tx.R tx.S) := by
  obtain ⟨h1, h2, h3, h4, h5, h6, h7, h8, h9, h10, h11⟩ := hr
  have hw : tx.tree.wellFormed := by
    rw [Eip7702.TxData.tree, hacc]
    exact ⟨h1, h2, h3, h4, h5, trivial, h6, h7, trivial,
      wellFormed_authorizations _ h11, h8, h9, h10, trivial⟩
  have hs : tx.tree.size < 2 ^ 31 := by
    rw [Eip7702.TxData.tree, hacc]
    simp only [rlp.GoTree.size, rlp.GoTree.sizeAll, List.map_nil, sizeAll_authorizations]
    omega
  have henc := (encodeTree_eq _ hw hs).1
  rw [Eip7702.MarshalBinary, henc]
  simp only [bind, Except.bind, pure, Except.pure, Eip7702.TxData.tree, hacc, List.map_nil,
    rlp.GoTree.toItem, rlp.GoTree.toItems, rlp.GoValue.toItem, toItems_authorizations,
    Spec.setCodeSigned]

theorem toNat_emod_of_lt (n : Nat) (h : n < 2 ^ 256) : (((n : Int)) % 2 ^ 256).toNat = n := by
  have h1 : ((n : Int)) % 2 ^ 256 = (n : Int) :=
    Int.emod_eq_of_lt (by omega) (by exact_mod_cast h)
  rw [h1, Int.toNat_ofNat]

theorem beToNat_lt_of_length_le (bs : Bytes) (h : bs.length ≤ 32) : beToNat bs < 2 ^ 256 := by
  have h1 := beToNat_lt bs
  have h2 : 256 ^ bs.length ≤ 256 ^ 32 := Nat.pow_le_pow_right (by norm_num) h
  have h3 : (256 : Nat) ^ 32 = 2 ^ 256 := by norm_num
  omega

theorem setCode_signatureValues (tx : Eip7702.TxData) (sig : Bytes) (v : UInt8)
    (hchain : tx.ChainID = 80002) (hl : sig.length = 65) (hv : sig[64]? = some v) :
    (Eip7702.LatestSignerForChainID Eip7702.AmoyChainID).SignatureValues tx sig
      = .ok ((beToNat (sig.take 32) : Int), (beToNat ((sig.take 64).drop 32) : Int),
          (v.toNat : Int)) := by
  have hi : goIndex sig 64 = .ok v := goIndex_ok sig 64 v hv
  have hne : ¬ (sig.length ≠ 65) := by omega
  have hc : ¬ (tx.ChainID ≠ 0 ∧ (tx.ChainID : Int) ≠ ((Eip7702.AmoyChainID : Nat) : Int)) := by
    rw [hchain]
    intro h
    exact h.2 rfl
  simp only [Eip7702.Signer7702.SignatureValues, Eip7702.LatestSignerForChainID, hc, hne,
    if_false, goSlice_ok sig 0 32 (by omega) (by omega),
    goSlice_ok sig 32 64 (by omega) (by omega), hi, bind, Except.bind, pure, Except.pure,
    List.drop_zero]

theorem signAndSend_ok (Sign : Signer) (priv : PrivateKey) (d : Eip7702.SetCodeTx)
    (sig : Bytes) (v : UInt8)
    (hr : d.copy.inRange) (hchain : d.ChainID = 80002) (hlen : d.AuthList.length < 2 ^ 20)
    (hsig : Sign (Keccak.sum256 (Spec.setCodeSigningPayload 80002 d.Nonce d.GasTipCap
      d.GasFeeCap d.Gas d.To 0 d.Data d.AuthList)) priv = .ok sig)
    (hl : sig.length = 65) (hv : sig[64]? = some v) :
    Eip7702.signAndSend Sign priv d = .ok
      ({ ChainID := 80002, Nonce := d.Nonce, GasTipCap := d.GasTipCap, GasFeeCap := d.GasFeeCap,
         Gas := d.Gas, To := d.To, Value := 0, Data := d.Data, AccessList := [],
         AuthList := d.AuthList, V := v.toNat, R := beToNat (sig.take 32),
         S := beToNat ((sig.take 64).drop 32) },
       Spec.setCodeSigned 80002 d.Nonce d.GasTipCap d.GasFeeCap d.Gas d.To 0 d.Data d.AuthList
         v.toNat (beToNat (sig.take 32)) (beToNat ((sig.take 64).drop 32))) := by
  have hcopy := setCodeTx_copy_eq d
  rw [hcopy] at hr
  have hhash := setCode_sigHash_eq _ ((Eip7702.AmoyChainID : Nat) : Int) hr
    (by norm_num [Eip7702.AmoyChainID]) (by norm_num [Eip7702.AmoyChainID]) rfl hlen
  have hvals := setCode_signatureValues
    { ChainID := d.ChainID, Nonce := d.Nonce, GasTipCap := d.GasTipCap,
      GasFeeCap := d.GasFeeCap, Gas := d.Gas, To := d.To, Value := 0, Data := d.Data,
      AccessList := [], AuthList := d.AuthList, V := 0, R := 0, S := 0 } sig v hchain hl hv
  have hchainId : MustFromBig ((Eip7702.AmoyChainID : Nat) : Int) = .ok 80002 :=
    mustFromBig_of_lt _ (by norm_num [Eip7702.AmoyChainID]) (by norm_num [Eip7702.AmoyChainID])
  have hvlt : v.toNat < 2 ^ 256 := by
    have : v.toNat < 256 := v.toBitVec.isLt
    omega
  have hR : beToNat (sig.take 32) < 2 ^ 256 := beToNat_lt_of_length_le _ (by simp)
  have hS : beToNat ((sig.take 64).drop 32) < 2 ^ 256 := beToNat_lt_of_length_le _ (by simp)
  obtain ⟨-, h2, h3, h4, h5, h6, h7, -, -, -, h11⟩ := hr
  have hr' : Eip7702.TxData.inRange
      { ChainID := 80002, Nonce := d.Nonce, GasTipCap := d.GasTipCap, GasFeeCap := d.GasFeeCap,
        Gas := d.Gas, To := d.To, Value := 0, Data := d.Data, AccessList := [],
        AuthList := d.AuthList, V := v.toNat, R := beToNat (sig.take 32),
        S := beToNat ((sig.take 64).drop 32) } :=
    ⟨by norm_num, h2, h3, h4, h5, h6, h7, hvlt, hR, hS, h11⟩
  have hraw := setCode_marshalBinary_eq _ hr' rfl hlen
  have hsig' : Sign (Keccak.sum256 (Spec.setCodeSigningPayload
      (((Eip7702.AmoyChainID : Nat) : Int)).toNat d.Nonce d.GasTipCap d.GasFeeCap d.Gas d.To 0
      d.Data d.AuthList)) priv = .ok sig := hsig
  unfold Eip7702.signAndSend Eip7702.NewTx
  rw [hcopy]
  simp only [Eip7702.SignTx, Eip7702.Signer7702.Hash, Eip7702.LatestSignerForChainID] at hhash ⊢
  simp only [hhash, hsig', bind, Except.bind, orFatal, pure, Except.pure, Eip7702.WithSignature]
  simp only [Eip7702.LatestSignerForChainID] at hvals
  simp only [hvals, hchainId, txData_copy_eq, toNat_emod_of_lt _ hvlt, toNat_emod_of_lt _ hR,
    toNat_emod_of_lt _ hS, hraw]

theorem getElem?_64_of_length (sig : Bytes) (h : sig.length = 65) :
    sig[64]? = some (sig.getD 64 0) := by
  rw [List.getD_eq_getElem?_getD, List.getElem?_eq_getElem (by omega)]
  rfl

theorem toNat_emod_lt (x : Int) : (x % 2 ^ 256).toNat < 2 ^ 256 := by
  have h1 : x % 2 ^ 256 < 2 ^ 256 := Int.emod_lt_of_pos x (by norm_num)
  have h2 : 0 ≤ x % 2 ^ 256 := Int.emod_nonneg x (by norm_num)
  have h3 : (((x % 2 ^ 256).toNat : Nat) : Int) < 2 ^ 256 := by
    rw [Int.toNat_of_nonneg h2]
    exact h1
  exact_mod_cast h3

theorem authorizationOf_inRange (nonce : Nat) (sig : Bytes) (h : nonce < 2 ^ 64) :
    (Spec.authorizationOf nonce sig).inRange :=
  ⟨by norm_num [Spec.authorizationOf], h, beToNat_lt_of_length_le _ (by simp),
    beToNat_lt_of_length_le _ (by simp)⟩

/-- C11: the SetCode transaction is built with exactly two authorizations, the
one of account 1 first and the one of account 2 second, both naming the delegate
target of the program; the transaction that is signed and the transaction that is
sent carry the same two entries in the same order: the hash account 2 signs is
the digest of the pre-signing payload whose authorization list is these two
entries in this order, and the bytes sent are the signed encoding with the same
list. -/
theorem setcode_authorization_list (client : Client) (Sign : Signer)
    (Pack : List Address → Result Bytes) (acc1 acc2 : Account) (data : Bytes) (n1 n2 : Nat)
    (t b : Int) (sig1 sig2 sig : Bytes)
    (hpack : Pack [acc1.Addr, acc2.Addr] = .ok data)
    (hn2 : client.PendingNonceAt acc2.Addr = .ok n2)
    (hn1 : client.PendingNonceAt acc1.Addr = .ok n1)
    (htip : client.SuggestGasTipCap = .ok t)
    (hprice : client.SuggestGasPrice = .ok b)
    (hs2 : Eip7702.signEIP7702Delegation Sign acc2.Priv ((Eip7702.AmoyChainID : Nat) : Int)
      Eip7702.moduleAddr ((n2 + 1) % 2 ^ 64) = .ok sig2)
    (hs1 : Eip7702.signEIP7702Delegation Sign acc1.Priv ((Eip7702.AmoyChainID : Nat) : Int)
      Eip7702.moduleAddr n1 = .ok sig1)
    (hl1 : sig1.length = 65) (hl2 : sig2.length = 65)
    (ht : t.natAbs < 2 ^ 256) (hcap : (b + t).natAbs < 2 ^ 256)
    (hdata : data.length < 2 ^ 32) (hb1 : n1 < 2 ^ 64) (hb2 : n2 < 2 ^ 64)
    (hsig : Sign (Keccak.sum256 (Spec.setCodeSigningPayload 80002 n2 (t % 2 ^ 256).toNat
      ((b + t) % 2 ^ 256).toNat 120000 Eip7702.toAddr 0 data
      [Spec.authorizationOf n1 sig1, Spec.authorizationOf ((n2 + 1) % 2 ^ 64) sig2]))
        acc2.Priv = .ok sig)
    (hl : sig.length = 65) :
    ∃ tx signedTx raw a1 a2,
      Eip7702.main client Sign Pack acc1 acc2 = .ok tx ∧
      Eip7702.run client Sign Pack acc1 acc2 = .ok (signedTx, raw) ∧
      tx.AuthList = [a1, a2] ∧
      a1 = Spec.authorizationOf n1 sig1 ∧
      a2 = Spec.authorizationOf ((n2 + 1) % 2 ^ 64) sig2 ∧
      a1.Address = Eip7702.moduleAddr ∧ a2.Address = Eip7702.moduleAddr ∧
      (Eip7702.NewTx tx).AuthList = [a1, a2] ∧
      (Eip7702.LatestSignerForChainID Eip7702.AmoyChainID).Hash (Eip7702.NewTx tx)
        = Keccak.sum256 (Spec.setCodeSigningPayload 80002 n2 (t % 2 ^ 256).toNat
            ((b + t) % 2 ^ 256).toNat 120000 Eip7702.toAddr 0 data [a1, a2]) ∧
      signedTx.AuthList = [a1, a2] ∧
      raw = Spec.setCodeSigned 80002 n2 (t % 2 ^ 256).toNat ((b + t) % 2 ^ 256).toNat 120000
        Eip7702.toAddr 0 data [a1, a2] signedTx.V signedTx.R signedTx.S ∧
      [a1, a2].map Spec.authorizationItem
        = [Spec.authorizationItem a1, Spec.authorizationItem a2] := by
  have hmain := eip7702_main_ok client Sign Pack acc1 acc2 data n1 n2 t b sig1 sig2
    (sig1.getD 64 0) (sig2.getD 64 0) hpack hn2 hn1 htip hprice hs2 hs1 hl1 hl2
    (getElem?_64_of_length sig1 hl1) (getElem?_64_of_length sig2 hl2) ht hcap
  have hmod : (n2 + 1) % 2 ^ 64 < 2 ^ 64 := Nat.mod_lt _ (by norm_num)
  have hauth : ∀ a ∈ [Spec.authorizationOf n1 sig1,
      Spec.authorizationOf ((n2 + 1) % 2 ^ 64) sig2], a.inRange := by
    intro a ha
    simp only [List.mem_cons, List.mem_singleton, List.not_mem_nil, or_false] at ha
    rcases ha with rfl | rfl
    · exact authorizationOf_inRange n1 sig1 hb1
    · exact authorizationOf_inRange _ sig2 hmod
  obtain ⟨v, hv⟩ : ∃ v, sig[64]? = some v := ⟨sig[64], List.getElem?_eq_getElem (by omega)⟩
  obtain ⟨d, hd⟩ : ∃ d : Eip7702.SetCodeTx, d =
      { ChainID := 80002, Nonce := n2, GasTipCap := (t % 2 ^ 256).toNat,
        GasFeeCap := ((b + t) % 2 ^ 256).toNat, Gas := 120000, To := Eip7702.toAddr,
        Data := data,
        AuthList := [Spec.authorizationOf n1 sig1,
          Spec.authorizationOf ((n2 + 1) % 2 ^ 64) sig2] } := ⟨_, rfl⟩
  have hmain' : Eip7702.main client Sign Pack acc1 acc2 = .ok d := by
    rw [hd]
    exact hmain
  have e1 : d.ChainID = 80002 := by rw [hd]
  have e2 : d.Nonce = n2 := by rw [hd]
  have e3 : d.GasTipCap = (t % 2 ^ 256).toNat := by rw [hd]
  have e4 : d.GasFeeCap = ((b + t) % 2 ^ 256).toNat := by rw [hd]
  have e5 : d.Gas = 120000 := by rw [hd]
  have e6 : d.To = Eip7702.toAddr := by rw [hd]
  have e7 : d.Data = data := by rw [hd]
  have e8 : d.AuthList = [Spec.authorizationOf n1 sig1,
      Spec.authorizationOf ((n2 + 1) % 2 ^ 64) sig2] := by rw [hd]
  have hr : d.copy.inRange := by
    rw [setCodeTx_copy_eq, e1, e2, e3, e4, e5, e7, e8]
    exact ⟨by norm_num, hb2, toNat_emod_lt t, toNat_emod_lt (b + t), by norm_num, by norm_num,
      hdata, by norm_num, by norm_num, by norm_num, hauth⟩
  have hlen : d.AuthList.length < 2 ^ 20 := by
    rw [e8]
    norm_num
  have hsig' : Sign (Keccak.sum256 (Spec.setCodeSigningPayload 80002 d.Nonce d.GasTipCap
      d.GasFeeCap d.Gas d.To 0 d.Data d.AuthList)) acc2.Priv = .ok sig := by
    rw [e2, e3, e4, e5, e6, e7, e8]
    exact hsig
  have hsend := signAndSend_ok Sign acc2.Priv d sig v hr e1 hlen hsig' hl hv
  have hstep : Eip7702.run client Sign Pack acc1 acc2
      = Eip7702.signAndSend Sign acc2.Priv d := by
    unfold Eip7702.run
    rw [hmain']
    rfl
  have hrun := hstep.trans hsend
  have hcopyacc : d.copy.AccessList = [] := by rw [setCodeTx_copy_eq]
  have hcopylen : d.copy.AuthList.length < 2 ^ 20 := by
    rw [setCodeTx_copy_eq]
    exact hlen
  have hhash := setCode_sigHash_eq d.copy ((Eip7702.AmoyChainID : Nat) : Int) hr
    (by norm_num [Eip7702.AmoyChainID]) (by norm_num [Eip7702.AmoyChainID]) hcopyacc hcopylen
  have hcopyauth : d.copy.AuthList = d.AuthList := by rw [setCodeTx_copy_eq]
  have c1 : d.copy.Nonce = d.Nonce := by rw [setCodeTx_copy_eq]
  have c2 : d.copy.GasTipCap = d.GasTipCap := by rw [setCodeTx_copy_eq]
  have c3 : d.copy.GasFeeCap = d.GasFeeCap := by rw [setCodeTx_copy_eq]
  have c4 : d.copy.Gas = d.Gas := by rw [setCodeTx_copy_eq]
  have c5 : d.copy.To = d.To := by rw [setCodeTx_copy_eq]
  have c6 : d.copy.Value = 0 := by rw [setCodeTx_copy_eq]
  have c7 : d.copy.Data = d.Data := by rw [setCodeTx_copy_eq]
  rw [c1, c2, c3, c4, c5, c6, c7, hcopyauth, e2, e3, e4, e5, e6, e7, e8] at hhash
  rw [e2, e3, e4, e5, e6, e7, e8] at hrun
  refine ⟨d, _, _, _, _, hmain', hrun, e8, rfl, rfl, rfl, rfl, ?_, ?_, rfl, rfl, rfl⟩
  · rw [Eip7702.NewTx, hcopyauth, e8]
  · exact hhash

theorem sampleSign_eq (digest : Bytes) (priv : PrivateKey) :
    sampleSign digest priv = .ok (digest ++ Keccak.sum256 digest ++ [byte (priv.D % 2)]) :=
  rfl

theorem setcode_authorization_list_witness :
    ∃ tx signedTx raw a1 a2,
      Eip7702.main (sampleClient [] 5) sampleSign samplePack sampleAccount1 sampleAccount2
        = .ok tx ∧
      Eip7702.run (sampleClient [] 5) sampleSign samplePack sampleAccount1 sampleAccount2
        = .ok (signedTx, raw) ∧
      tx.AuthList = [a1, a2] ∧ a1.Nonce = 7 ∧ a2.Nonce = 8 ∧
      a1.Address = Eip7702.moduleAddr ∧ a2.Address = Eip7702.moduleAddr ∧
      (Eip7702.NewTx tx).AuthList = [a1, a2] ∧ signedTx.AuthList = [a1, a2] := by
  obtain ⟨tx, signedTx, raw, a1, a2, hmain, hrun, hlist, h1, h2, hm1, hm2, hnew, -, hsigned, -, -⟩ :=
    setcode_authorization_list (sampleClient [] 5) sampleSign samplePack sampleAccount1
      sampleAccount2 (sampleAccount1.Addr.bytes ++ (sampleAccount2.Addr.bytes ++ [])) 7 7 5
      30000000000 (sampleSignature sampleAccount1.Priv 7) (sampleSignature sampleAccount2.Priv 8)
      _
      rfl rfl rfl rfl rfl
      (sample_signEIP7702Delegation sampleAccount2.Priv 8 (by norm_num))
      (sample_signEIP7702Delegation sampleAccount1.Priv 7 (by norm_num))
      (sampleSignature_length _ _) (sampleSignature_length _ _) (by decide) (by decide)
      (by decide) (by norm_num) (by norm_num) (sampleSign_eq _ _)
      (sampleSign_length _ _ (keccak256_length _))
  refine ⟨tx, signedTx, raw, a1, a2, hmain, hrun, hlist, ?_, ?_, hm1, hm2, hnew, hsigned⟩
  · rw [h1]
    rfl
  · rw [h2]
    rfl

end TransactionTypes
